import Mathlib

/-!
# The work-queue coordinator of `scripts/workq.js`

A shallow embedding of the claim / heartbeat / complete operations and of the
staleness predicate, followed by the properties proved about them.

Modelling conventions.

* JavaScript numbers are integers (`Int`): millisecond timestamps, lease
  lengths and PR numbers.  `Number(s)` on a string is a function of the
  JavaScript runtime and is taken as a parameter (`Runtime.number`, `none`
  when the result is not finite); so are the two date formatters.
* A field the code only tests, coerces or copies holds an arbitrary scalar
  value (`JVal`).  A field the code feeds to a string-only operation
  (`status`, `lockPath`) is an optional string, and a field it subtracts
  (`claimedAtMs`, `heartbeatAtMs`, the other timestamps) is an optional
  integer: `none` stands for an absent or `null` field.
* Objects keyed by strings (`state.claims`, the lock directory) are
  association lists with at most one entry per key; a key that is read is
  assumed not to be a property of `Object.prototype`.
* Every operation is the body that runs while the state mutex is held; one
  invocation observes one clock value `nowMs`.  The world is the state file
  (`none` when it does not exist yet) together with the lock files.
* Result objects keep the fields that depend on the state; the echoed paths
  `statePath` and `lockDir` and the `details` of an error are left out.
-/

namespace Workq

/-! ## JavaScript values -/

/-- A scalar JavaScript value, `undefined` included. -/
inductive JVal where
  | undefined
  | null
  | bool (b : Bool)
  | num (n : Int)
  | str (s : String)
  deriving DecidableEq, Repr, Inhabited

namespace JVal

/-- Truthiness, as tested by `if (v)`, `!v`, `a || b` and `a && b`. -/
def truthy : JVal → Bool
  | undefined => false
  | null => false
  | bool b => b
  | num n => n != 0
  | str s => s != ""

/-- The conversion `String(v)`, which is also the property key of `obj[v]`
and the text of a template substitution. A number prints as its decimal
numeral, which is what JavaScript prints for an integer of magnitude below
`1e21`; from `1e21` on JavaScript prints the exponential form (`printsInFull`
names the values for which this definition is the conversion). -/
def toStr : JVal → String
  | undefined => "undefined"
  | null => "null"
  | bool true => "true"
  | bool false => "false"
  | num n => toString n
  | str s => s

/-- The expression `a || b`. -/
def or (a b : JVal) : JVal := if a.truthy then a else b

/-- The value is one that `String(v)` prints as `toStr` does: every value but
a number of magnitude `1e21` or more. -/
def printsInFull : JVal → Bool
  | num n => decide (n.natAbs < 10 ^ 21)
  | _ => true

/-- An optional integer read as a value: `undefined` when absent. -/
def ofInt? : Option Int → JVal
  | none => undefined
  | some n => num n

/-- An optional string read as a value: `undefined` when absent. -/
def ofStr? : Option String → JVal
  | none => undefined
  | some s => str s

end JVal

/-- Truthiness of an optional number: absent and `0` are falsy. -/
def numTruthy : Option Int → Bool
  | none => false
  | some n => n != 0

/-- Truthiness of an optional string: absent and `""` are falsy. -/
def strTruthy : Option String → Bool
  | none => false
  | some s => s != ""

/-- The expression `a || b` on optional numbers. -/
def numOr (a b : Option Int) : Option Int := if numTruthy a then a else b

/-- The method `toLowerCase` (on the ASCII letters). -/
def toLowerCase (s : String) : String := String.mk (s.data.map Char.toLower)

/-- What the operations use of the JavaScript runtime and of the process. -/
structure Runtime where
  /-- The value `Number(s)` of a string, `none` when it is `NaN` or infinite. -/
  number : String → Option Int
  /-- The formatter `new Date(ms).toISOString()`. -/
  nowIso : Int → String
  /-- The local `yyyymmdd-hhmm` stamp of `stampLocal`. -/
  stampLocal : Int → String
  /-- The process id. -/
  pid : Nat

/-- The conversion `Number(v)`, `none` when the result is not finite. -/
def jsNumber (rt : Runtime) : JVal → Option Int
  | .undefined => none
  | .null => some 0
  | .bool true => some 1
  | .bool false => some 0
  | .num n => some n
  | .str s => rt.number s

def DEFAULT_LEASE_MS : Int := 2 * 60 * 60 * 1000

def DEFAULT_STALE_TTL_MS : Int := 2 * 60 * 60 * 1000

/-- The function `toNumber(value, fallback)`; the fallback is a number or
`undefined`. -/
def toNumber (rt : Runtime) (value : JVal) (fallback : Option Int) : Option Int :=
  if value = .undefined ∨ value = .null ∨ value = .str "" then fallback
  else
    match jsNumber rt value with
    | some n => some n
    | none => fallback

/-! ## The data model -/

/-- One backlog item, as `parseBacklog` builds it. -/
structure BacklogItem where
  itemId : String
  queueTag : Option String
  workLine : String
  lineNumber : Nat
  noAutoStart : Bool
  noAutoMerge : Bool
  blockedBy : Bool
  eligible : Bool
  skipReasons : List String
  deriving DecidableEq, Repr

/-- One claim record of `state.claims`. -/
structure Claim where
  itemId : JVal
  queue : JVal
  label : JVal
  workLine : JVal
  sessionKey : JVal
  status : Option String
  leaseMs : JVal
  lockPath : Option String
  claimedAtMs : Option Int
  heartbeatAtMs : Option Int
  createdAtMs : Option Int
  updatedAtMs : Option Int
  completedAtMs : Option Int
  branch : JVal
  prNumber : JVal
  prUrl : JVal
  deriving DecidableEq, Repr

/-- The backlog snapshot of the state document. -/
structure Backlog where
  file : Option String
  syncedAtMs : Option Int
  syncedAt : Option String
  items : List BacklogItem
  deriving DecidableEq, Repr

/-- The state document, as `loadState` returns it. -/
structure State where
  version : Int
  createdAtMs : Int
  updatedAtMs : Int
  backlog : Backlog
  claims : List (String × Claim)
  deriving DecidableEq, Repr

/-- The JSON payload of a per-item lock file. -/
structure LockPayload where
  ts : JVal
  itemId : JVal
  label : JVal
  workLine : JVal
  queue : JVal
  status : JVal
  sessionKey : JVal
  claimedAt : JVal
  heartbeatAt : JVal
  leaseMs : JVal
  branch : JVal
  prNumber : JVal
  prUrl : JVal
  completedAt : JVal
  deriving DecidableEq, Repr

/-- The empty object `{}` read as a lock payload. -/
def LockPayload.empty : LockPayload :=
  { ts := .undefined, itemId := .undefined, label := .undefined, workLine := .undefined,
    queue := .undefined, status := .undefined, sessionKey := .undefined,
    claimedAt := .undefined, heartbeatAt := .undefined, leaseMs := .undefined,
    branch := .undefined, prNumber := .undefined, prUrl := .undefined,
    completedAt := .undefined }

/-- A file of the lock directory: its modification time and its content, `none`
when the content does not parse to a JSON object. -/
structure LockFile where
  mtimeMs : Int
  data : Option LockPayload
  deriving DecidableEq, Repr

/-- The files the operations read and write. -/
structure World where
  /-- The state file; `none` when it does not exist. -/
  doc : Option State
  /-- The lock files, by path. -/
  files : List (String × LockFile)
  deriving DecidableEq, Repr

/-- The error of `raise` and `fail`: a code and a message. -/
structure CliError where
  code : String
  message : String
  deriving DecidableEq, Repr

/-- The command-line options, as `parseArgs` collects them: each is absent
(`undefined`), a bare flag (`true`) or a string. -/
structure Args where
  queue : JVal := .undefined
  session : JVal := .undefined
  leaseMs : JVal := .undefined
  label : JVal := .undefined
  item : JVal := .undefined
  branch : JVal := .undefined
  pr : JVal := .undefined
  url : JVal := .undefined
  status : JVal := .undefined
  file : JVal := .undefined
  stale : JVal := .undefined
  ttlMs : JVal := .undefined
  deriving DecidableEq, Repr

/-! ## String-keyed objects -/

/-- The lookup `obj[k]` among the entries of the object. For an object that
has no entry under `k`, JavaScript goes on to the members of
`Object.prototype`, so this is the value of `obj[k]` for every key that has an
entry and for every key that is not in `objectPrototypeKeys`. -/
def objGet {α : Type} : List (String × α) → String → Option α
  | [], _ => none
  | (k', v) :: rest, k => if k' = k then some v else objGet rest k

/-- The names of the members of `Object.prototype`. Under these keys the read
`obj[k]` finds a value on every object made by `JSON.parse` or by an object
literal, also when the object has no entry of its own. -/
def objectPrototypeKeys : List String :=
  ["constructor", "__defineGetter__", "__defineSetter__", "hasOwnProperty",
   "__lookupGetter__", "__lookupSetter__", "isPrototypeOf", "propertyIsEnumerable",
   "toString", "valueOf", "__proto__", "toLocaleString"]

/-- The assignment `obj[k] = v`: an existing key keeps its place, a new key is
added at the end. -/
def objSet {α : Type} : List (String × α) → String → α → List (String × α)
  | [], k, v => [(k, v)]
  | (k', v') :: rest, k, v =>
    if k' = k then (k, v) :: rest else (k', v') :: objSet rest k v

/-! ## The state store and the lock files -/

/-- The function `defaultState`. -/
def defaultState (nowMs : Int) : State :=
  { version := 1, createdAtMs := nowMs, updatedAtMs := nowMs,
    backlog := { file := none, syncedAtMs := none, syncedAt := none, items := [] },
    claims := [] }

/-- The function `loadState` on a state file that is absent or holds a
well-shaped document. -/
def loadState (nowMs : Int) (w : World) : State :=
  match w.doc with
  | none => defaultState nowMs
  | some s => s

/-- The function `writeJsonAtomic` on the state path: the file is replaced. -/
def writeJsonAtomic (w : World) (state : State) : World :=
  { w with doc := some state }

/-- The function `lockPathFor`, for a resolved lock directory and an id without
path separators, where `path.join` only puts the separator in between. -/
def lockPathFor (lockDir : String) (itemId : String) : String :=
  lockDir ++ "/" ++ ("workitem-" ++ itemId ++ ".lock")

/-- The test `fs.existsSync(path)` on a lock path. -/
def existsSync (w : World) (path : String) : Bool :=
  (objGet w.files path).isSome

/-- The function `readJsonIfExists`: `none` stands for `null`. -/
def readJsonIfExists (w : World) (path : String) : Option LockPayload :=
  match objGet w.files path with
  | none => none
  | some f => f.data

/-- The function `writeLockAtomic`; `none` is the `EEXIST` failure of the
exclusive create. -/
def writeLockAtomic (w : World) (lockPath : String) (payload : LockPayload)
    (allowOverwrite : Bool) (nowMs : Int) : Option World :=
  if !allowOverwrite then
    if existsSync w lockPath then none
    else some { w with files := objSet w.files lockPath { mtimeMs := nowMs, data := some payload } }
  else
    some { w with files := objSet w.files lockPath { mtimeMs := nowMs, data := some payload } }

/-! ## Terminal and stale claims -/

/-- The function `stateClaimIsTerminal`. -/
def stateClaimIsTerminal (claim : Option Claim) : Bool :=
  match claim with
  | none => false
  | some c =>
    let status := toLowerCase (if strTruthy c.status then c.status.getD "" else "")
    status == "done" || status == "complete" || status == "completed" || status == "pr_opened"

/-- The function `claimIsStale`. -/
def claimIsStale (rt : Runtime) (claim : Option Claim) (nowMs : Int)
    (ttlMsOverride : Option Int) : Bool :=
  match claim with
  | none => false
  | some c =>
    if stateClaimIsTerminal (some c) then false
    else
      let heartbeatAtMs := numOr c.heartbeatAtMs c.claimedAtMs
      if !numTruthy heartbeatAtMs then false
      else
        let ttlMs := numOr ttlMsOverride (toNumber rt c.leaseMs (some DEFAULT_STALE_TTL_MS))
        match heartbeatAtMs, ttlMs with
        | some heartbeat, some ttl => decide (nowMs - heartbeat > ttl)
        | _, _ => false

/-! ## claim -/

/-- The function `buildLabel`; the stamp is taken at the clock value of the
invocation. -/
def buildLabel (rt : Runtime) (queue : String) (itemId : String) (args : Args)
    (nowMs : Int) : String :=
  if args.label.truthy then args.label.toStr
  else
    let pre := if queue = "zsc" then "zsc-work" else queue ++ "-work"
    pre ++ "-" ++ itemId ++ "-AUTO-" ++ rt.stampLocal nowMs

/-- The counters of the claim scan. -/
structure Skipped where
  ineligible : Nat
  claimed : Nat
  locked : Nat
  deriving DecidableEq, Repr

/-- The `item` object of a successful claim result. -/
structure ClaimedItem where
  itemId : String
  label : String
  workLine : String
  queue : String
  sessionKey : String
  leaseMs : Option Int
  claimedAtMs : Int
  claimedAt : String
  lockPath : String
  deriving DecidableEq, Repr

/-- The result object of `claim`: `claimed: true` with the item, or
`claimed: false, reason: "no_eligible_items"` with the skip counters. -/
inductive ClaimOutput where
  | claimed (item : ClaimedItem)
  | noEligibleItems (skipped : Skipped)
  deriving DecidableEq, Repr

/-- The lock payload written by a claim. -/
def claimLockPayload (rt : Runtime) (item : BacklogItem) (label queue sessionKey : String)
    (leaseMs : Option Int) (nowMs : Int) : LockPayload :=
  { LockPayload.empty with
    ts := .str (rt.nowIso nowMs)
    itemId := .str item.itemId
    label := .str label
    workLine := .str item.workLine
    queue := .str queue
    status := .str "claimed"
    sessionKey := .str sessionKey
    claimedAt := .str (rt.nowIso nowMs)
    heartbeatAt := .str (rt.nowIso nowMs)
    leaseMs := .ofInt? leaseMs }

/-- The claim record written by a claim. -/
def newClaim (item : BacklogItem) (label queue sessionKey : String) (leaseMs : Option Int)
    (lockPath : String) (nowMs : Int) : Claim :=
  { itemId := .str item.itemId
    queue := .str queue
    label := .str label
    workLine := .str item.workLine
    sessionKey := .str sessionKey
    status := some "claimed"
    leaseMs := .ofInt? leaseMs
    lockPath := some lockPath
    claimedAtMs := some nowMs
    heartbeatAtMs := some nowMs
    createdAtMs := some nowMs
    updatedAtMs := some nowMs
    completedAtMs := none
    branch := .undefined
    prNumber := .undefined
    prUrl := .undefined }

/-- The `for` loop of `doClaim` over the backlog items that remain, with the
counters so far. -/
def claimScan (rt : Runtime) (args : Args) (lockDir queue sessionKey : String)
    (leaseMs : Option Int) (nowMs : Int) (state : State) :
    List BacklogItem → Skipped → World → Except CliError ClaimOutput × World
  | [], skipped, w => (.ok (.noEligibleItems skipped), w)
  | item :: rest, skipped, w =>
    if item.queueTag ≠ some queue ∨ item.eligible = false then
      claimScan rt args lockDir queue sessionKey leaseMs nowMs state rest
        { skipped with ineligible := skipped.ineligible + 1 } w
    else
      let existingClaim := objGet state.claims item.itemId
      if existingClaim.isSome ∧ stateClaimIsTerminal existingClaim = false then
        claimScan rt args lockDir queue sessionKey leaseMs nowMs state rest
          { skipped with claimed := skipped.claimed + 1 } w
      else
        let lockPath := lockPathFor lockDir item.itemId
        if existsSync w lockPath then
          claimScan rt args lockDir queue sessionKey leaseMs nowMs state rest
            { skipped with locked := skipped.locked + 1 } w
        else
          let label := buildLabel rt queue item.itemId args nowMs
          let lockPayload := claimLockPayload rt item label queue sessionKey leaseMs nowMs
          match writeLockAtomic w lockPath lockPayload false nowMs with
          | none =>
            claimScan rt args lockDir queue sessionKey leaseMs nowMs state rest
              { skipped with locked := skipped.locked + 1 } w
          | some w1 =>
            let state1 : State :=
              { state with
                claims := objSet state.claims item.itemId
                  (newClaim item label queue sessionKey leaseMs lockPath nowMs)
                updatedAtMs := nowMs }
            let w2 := writeJsonAtomic w1 state1
            (.ok (.claimed
              { itemId := item.itemId, label := label, workLine := item.workLine,
                queue := queue, sessionKey := sessionKey, leaseMs := leaseMs,
                claimedAtMs := nowMs, claimedAt := rt.nowIso nowMs, lockPath := lockPath }),
             w2)

/-- The queue a claim invocation scans: `String(args.queue || "zsc").toLowerCase()`. -/
def claimQueue (args : Args) : String :=
  toLowerCase (args.queue.or (.str "zsc")).toStr

/-- The lease a claim invocation records: `toNumber(args["lease-ms"], DEFAULT_LEASE_MS)`. -/
def claimLeaseMs (rt : Runtime) (args : Args) : Option Int :=
  toNumber rt args.leaseMs (some DEFAULT_LEASE_MS)

/-- The session a claim invocation records:
`String(args.session || "workq-<pid>-<now>")`. -/
def claimSessionKey (rt : Runtime) (args : Args) (nowMs : Int) : String :=
  (args.session.or (.str ("workq-" ++ toString rt.pid ++ "-" ++ toString nowMs))).toStr

/-- The function `doClaim`. -/
def doClaim (rt : Runtime) (args : Args) (lockDir : String) (nowMs : Int) (w : World) :
    Except CliError ClaimOutput × World :=
  let queue := claimQueue args
  let leaseMs := claimLeaseMs rt args
  let sessionKey := claimSessionKey rt args nowMs
  let state := loadState nowMs w
  if state.backlog.items.length = 0 then
    (.error { code := "E_BACKLOG_EMPTY",
              message := "No backlog items in state; run sync-backlog first" }, w)
  else
    claimScan rt args lockDir queue sessionKey leaseMs nowMs state state.backlog.items
      { ineligible := 0, claimed := 0, locked := 0 } w

/-! ## heartbeat -/

/-- The result object of `heartbeat`. -/
structure HeartbeatOutput where
  itemId : JVal
  sessionKey : JVal
  leaseMs : Option Int
  ageMs : Int
  stale : Bool
  lockPath : String
  lockExists : Bool
  heartbeatAtMs : Int
  heartbeatAt : String
  deriving DecidableEq, Repr

/-- The path `claim.lockPath || lockPathFor(lockDir, itemId)`. -/
def claimLockPath (claim : Claim) (lockDir : String) (itemId : JVal) : String :=
  if strTruthy claim.lockPath then claim.lockPath.getD "" else lockPathFor lockDir itemId.toStr

/-- The claim record of a heartbeat: `heartbeatAtMs` and `updatedAtMs` are set
to now, `leaseMs` to the override when there is one, and a falsy `status`
to `"claimed"`. -/
def heartbeatClaim (claim : Claim) (leaseMsOverride : Option Int) (nowMs : Int) : Claim :=
  let claim1 := { claim with heartbeatAtMs := some nowMs, updatedAtMs := some nowMs }
  let claim2 :=
    match leaseMsOverride with
    | some v => { claim1 with leaseMs := .num v }
    | none => claim1
  if !strTruthy claim2.status then { claim2 with status := some "claimed" } else claim2

/-- The lock payload a heartbeat merges into an existing lock file. -/
def heartbeatLockPayload (rt : Runtime) (current : LockPayload) (claim : Claim)
    (itemId : JVal) (nowMs : Int) : LockPayload :=
  { current with
    itemId := itemId
    label := claim.label.or current.label
    workLine := claim.workLine.or current.workLine
    status := .ofStr? claim.status
    sessionKey := claim.sessionKey
    heartbeatAt := .str (rt.nowIso nowMs)
    leaseMs := claim.leaseMs }

/-- The function `doHeartbeat`. The read `state.claims[itemId]` is taken among
the entries of `claims` (`objGet`): this is the function for every item id
that has a claim entry or is not in `objectPrototypeKeys`. -/
def doHeartbeat (rt : Runtime) (args : Args) (lockDir : String) (nowMs : Int) (w : World) :
    Except CliError HeartbeatOutput × World :=
  let itemId := args.item
  let sessionKey := args.session
  if !itemId.truthy ∨ !sessionKey.truthy then
    (.error { code := "E_USAGE",
              message := "heartbeat requires --item <id> --session <sessionKey>" }, w)
  else
    let leaseMsOverride := toNumber rt args.leaseMs none
    let state := loadState nowMs w
    match objGet state.claims itemId.toStr with
    | none =>
      (.error { code := "E_NOT_FOUND",
                message := "No claim found for item " ++ itemId.toStr }, w)
    | some claim0 =>
      if claim0.sessionKey.toStr ≠ sessionKey.toStr then
        (.error { code := "E_SESSION_MISMATCH",
                  message := "Session key mismatch for item " ++ itemId.toStr }, w)
      else
        let claim := heartbeatClaim claim0 leaseMsOverride nowMs
        let state1 : State :=
          { state with claims := objSet state.claims itemId.toStr claim, updatedAtMs := nowMs }
        let w1 := writeJsonAtomic w state1
        let lockPath := claimLockPath claim lockDir itemId
        let lockExists := existsSync w1 lockPath
        let w2 :=
          if lockExists then
            let current := (readJsonIfExists w1 lockPath).getD LockPayload.empty
            let merged := heartbeatLockPayload rt current claim itemId nowMs
            (writeLockAtomic w1 lockPath merged true nowMs).getD w1
          else w1
        let ttlMs := toNumber rt claim.leaseMs (some DEFAULT_STALE_TTL_MS)
        let ageMs := nowMs - (numOr claim.claimedAtMs (some nowMs)).getD nowMs
        (.ok { itemId := itemId, sessionKey := sessionKey, leaseMs := ttlMs, ageMs := ageMs,
               stale := false, lockPath := lockPath, lockExists := lockExists,
               heartbeatAtMs := nowMs, heartbeatAt := rt.nowIso nowMs }, w2)

/-! ## complete -/

/-- The result object of `complete`. -/
structure CompleteOutput where
  lockPath : String
  itemId : JVal
  status : String
  branch : JVal
  prNumber : JVal
  prUrl : JVal
  completedAtMs : Int
  completedAt : String
  deriving DecidableEq, Repr

/-- The value `x ? String(x) : undefined` of an optional string option. -/
def optString (v : JVal) : Option String :=
  if v.truthy then some v.toStr else none

/-- The value `args.pr !== undefined ? Number(args.pr) : undefined`: `none`
when the option is absent, `some none` when it is given and not finite. -/
def completePrNumber (rt : Runtime) (args : Args) : Option (Option Int) :=
  if args.pr ≠ .undefined then some (jsNumber rt args.pr) else none

/-- The test `Number.isFinite(prNumber)`. -/
def prIsFinite : Option (Option Int) → Bool
  | some (some _) => true
  | _ => false

/-- The status a completion writes:
`String(args.status || (branch || prUrl || Number.isFinite(prNumber) ? "pr_opened" : "done"))`. -/
def computedStatus (rt : Runtime) (args : Args) : String :=
  let branch := optString args.branch
  let prNumber := completePrNumber rt args
  let prUrl := optString args.url
  (args.status.or
    (if strTruthy branch ∨ strTruthy prUrl ∨ prIsFinite prNumber then .str "pr_opened"
     else .str "done")).toStr

/-- The claim `complete` starts from when `state.claims` has none for the item. -/
def synthesizedClaim (rt : Runtime) (args : Args) (lockDir : String) (state : State)
    (itemId : JVal) (sessionKey : Option String) (nowMs : Int) : Claim :=
  let fromBacklog := state.backlog.items.find? (fun it => decide (JVal.str it.itemId = itemId))
  { itemId := itemId
    queue := (JVal.ofStr? (fromBacklog.bind (fun it => it.queueTag))).or (.str "zsc")
    label := args.label.or (.str (buildLabel rt "zsc" itemId.toStr args nowMs))
    workLine := (JVal.ofStr? (fromBacklog.map (fun it => it.workLine))).or .null
    sessionKey := (JVal.ofStr? sessionKey).or .null
    status := none
    leaseMs := .undefined
    lockPath := some (lockPathFor lockDir itemId.toStr)
    claimedAtMs := some nowMs
    heartbeatAtMs := some nowMs
    createdAtMs := some nowMs
    updatedAtMs := none
    completedAtMs := none
    branch := .undefined
    prNumber := .undefined
    prUrl := .undefined }

/-- The claim record of a completion. -/
def completeClaim (claim : Claim) (status : String) (sessionKey branch : Option String)
    (prNumber : Option (Option Int)) (prUrl : Option String) (nowMs : Int) : Claim :=
  let c1 := { claim with status := some status, updatedAtMs := some nowMs,
                         completedAtMs := some nowMs }
  let c2 := if strTruthy sessionKey then { c1 with sessionKey := .ofStr? sessionKey } else c1
  let c3 := if strTruthy branch then { c2 with branch := .ofStr? branch } else c2
  let c4 :=
    match prNumber with
    | some (some n) => { c3 with prNumber := .num n }
    | _ => c3
  if strTruthy prUrl then { c4 with prUrl := .ofStr? prUrl } else c4

/-- The lock payload of a completion. -/
def completeLockPayload (rt : Runtime) (currentLock : LockPayload) (claim : Claim)
    (itemId : JVal) (status : String) (branch : Option String)
    (prNumber : Option (Option Int)) (prUrl : Option String) (nowMs : Int) : LockPayload :=
  { currentLock with
    ts := .str (rt.nowIso nowMs)
    itemId := itemId
    label := claim.label
    workLine := claim.workLine.or currentLock.workLine
    status := .str status
    sessionKey := claim.sessionKey.or currentLock.sessionKey
    branch := (match branch with
      | some b => .str b
      | none => currentLock.branch)
    prNumber := (match prNumber with
      | some (some n) => .num n
      | _ => currentLock.prNumber)
    prUrl := (match prUrl with
      | some u => .str u
      | none => currentLock.prUrl)
    completedAt := .str (rt.nowIso nowMs) }

/-- The function `doComplete`. The read `state.claims[itemId]` is taken among
the entries of `claims` (`objGet`): this is the function for every item id
that has a claim entry or is not in `objectPrototypeKeys`. -/
def doComplete (rt : Runtime) (args : Args) (lockDir : String) (nowMs : Int) (w : World) :
    Except CliError CompleteOutput × World :=
  let itemId := args.item
  if !itemId.truthy then
    (.error { code := "E_USAGE", message := "complete requires --item <id>" }, w)
  else
    let branch := optString args.branch
    let prNumber := completePrNumber rt args
    let prUrl := optString args.url
    let sessionKey := optString args.session
    let status := computedStatus rt args
    if args.pr ≠ .undefined ∧ !prIsFinite prNumber then
      (.error { code := "E_USAGE", message := "--pr must be a number" }, w)
    else
      let state := loadState nowMs w
      let claim0 := (objGet state.claims itemId.toStr).getD
        (synthesizedClaim rt args lockDir state itemId sessionKey nowMs)
      if strTruthy sessionKey ∧ claim0.sessionKey.truthy ∧
          claim0.sessionKey ≠ .ofStr? sessionKey then
        (.error { code := "E_SESSION_MISMATCH",
                  message := "Session key mismatch for item " ++ itemId.toStr }, w)
      else
        let claim := completeClaim claim0 status sessionKey branch prNumber prUrl nowMs
        let state1 : State :=
          { state with claims := objSet state.claims itemId.toStr claim, updatedAtMs := nowMs }
        let w1 := writeJsonAtomic w state1
        let lockPath := claimLockPath claim lockDir itemId
        let currentLock := (readJsonIfExists w1 lockPath).getD LockPayload.empty
        let lockPayload :=
          completeLockPayload rt currentLock claim itemId status branch prNumber prUrl nowMs
        let w2 := (writeLockAtomic w1 lockPath lockPayload true nowMs).getD w1
        (.ok { lockPath := lockPath, itemId := itemId, status := status,
               branch := claim.branch.or .null, prNumber := claim.prNumber.or .null,
               prUrl := claim.prUrl.or .null, completedAtMs := nowMs,
               completedAt := rt.nowIso nowMs }, w2)

/-! ## The state file as JSON: loadState on arbitrary content -/

/-- A JSON value, as `JSON.parse` builds it (numbers are integers). An array
also carries the named properties assigned to it, of which there are none
after `JSON.parse`. -/
inductive Json where
  | null
  | bool (b : Bool)
  | num (n : Int)
  | str (s : String)
  | arr (elems : List Json) (props : List (String × Json))
  | obj (fields : List (String × Json))

namespace Json

/-- Truthiness of a value that may be `undefined` (`none`). -/
def truthy : Option Json → Bool
  | none => false
  | some null => false
  | some (bool b) => b
  | some (num n) => n != 0
  | some (str s) => s != ""
  | some (arr _ _) => true
  | some (obj _) => true

/-- The test `typeof v === "object"`. -/
def isObjectType : Option Json → Bool
  | some null => true
  | some (arr _ _) => true
  | some (obj _) => true
  | _ => false

/-- The test `typeof v === "number"`. -/
def isNumberType : Option Json → Bool
  | some (num _) => true
  | _ => false

/-- The test `Array.isArray(v)`. -/
def isArray : Option Json → Bool
  | some (arr _ _) => true
  | _ => false

/-- The read `v.k` of a named property (`none` is `undefined`), for a value
that is neither `null` nor `undefined` and a name that is no array index. -/
def get : Option Json → String → Option Json
  | some (obj fields), k => objGet fields k
  | some (arr _ props), k => objGet props k
  | _, _ => none

/-- The assignment `v.k = x` on an object or an array. -/
def set : Json → String → Json → Json
  | obj fields, k, x => obj (objSet fields k x)
  | arr elems props, k, x => arr elems (objSet props k x)
  | v, _, _ => v

end Json

/-- The content of the state file: absent (`none`), text that `JSON.parse`
rejects (`some none`), or text that parses to a value. -/
abbrev StateFile := Option (Option Json)

/-- The empty backlog `{ file: null, syncedAtMs: null, syncedAt: null, items: [] }`. -/
def emptyBacklogJson : Json :=
  .obj [("file", .null), ("syncedAtMs", .null), ("syncedAt", .null), ("items", .arr [] [])]

/-- The function `defaultState`, as a JSON value. -/
def defaultStateJson (nowMs : Int) : Json :=
  .obj [("version", .num 1), ("createdAtMs", .num nowMs), ("updatedAtMs", .num nowMs),
        ("backlog", emptyBacklogJson), ("claims", .obj [])]

/-- The repair `if (!parsed.backlog || typeof parsed.backlog !== "object") …`. -/
def repairBacklog (parsed : Json) : Json :=
  if !Json.truthy (Json.get (some parsed) "backlog") ∨
      !Json.isObjectType (Json.get (some parsed) "backlog") then
    parsed.set "backlog" emptyBacklogJson
  else parsed

/-- The repair `if (!Array.isArray(parsed.backlog.items)) parsed.backlog.items = []`,
which runs when `parsed.backlog` is an object. -/
def repairItems (parsed : Json) : Json :=
  if !Json.isArray (Json.get (Json.get (some parsed) "backlog") "items") then
    match Json.get (some parsed) "backlog" with
    | some backlog => parsed.set "backlog" (backlog.set "items" (.arr [] []))
    | none => parsed
  else parsed

/-- The repair of `parsed.claims`: anything but a non-array object becomes `{}`. -/
def repairClaims (parsed : Json) : Json :=
  if !Json.truthy (Json.get (some parsed) "claims") ∨
      !Json.isObjectType (Json.get (some parsed) "claims") ∨
      Json.isArray (Json.get (some parsed) "claims") then
    parsed.set "claims" (.obj [])
  else parsed

/-- The repair `if (typeof parsed[key] !== "number") parsed[key] = value` of
`version`, `createdAtMs` and `updatedAtMs`. -/
def repairNumber (key : String) (value : Int) (parsed : Json) : Json :=
  if !Json.isNumberType (Json.get (some parsed) key) then parsed.set key (.num value)
  else parsed

/-- The repairs of `loadState` on a parsed value that passed the shape test,
in the order of the source. -/
def repairState (nowMs : Int) (parsed : Json) : Json :=
  repairNumber "updatedAtMs" nowMs
    (repairNumber "createdAtMs" nowMs
      (repairNumber "version" 1
        (repairClaims (repairItems (repairBacklog parsed)))))

/-- The shape `loadState` asks of `backlog`: an object. -/
def backlogIsObject (backlog : Option Json) : Bool :=
  Json.truthy backlog && Json.isObjectType backlog

/-- The shape `loadState` leaves `backlog` in: an object whose `items` is an array. -/
def backlogShaped (backlog : Option Json) : Bool :=
  backlogIsObject backlog && Json.isArray (Json.get backlog "items")

/-- The shape `loadState` asks of `claims`: an object that is not an array. -/
def claimsShaped (claims : Option Json) : Bool :=
  Json.truthy claims && Json.isObjectType claims && !Json.isArray claims

/-- The function `loadState` on arbitrary file content. -/
def loadStateJson (nowMs : Int) (file : StateFile) : Except CliError Json :=
  match file with
  | none => .ok (defaultStateJson nowMs)
  | some none =>
    .error { code := "E_STATE_PARSE", message := "State file is not valid JSON" }
  | some (some parsed) =>
    if !Json.truthy (some parsed) ∨ !Json.isObjectType (some parsed) then
      .error { code := "E_STATE_SHAPE", message := "State file has invalid shape" }
    else .ok (repairState nowMs parsed)

/-! ## The backlog parser

Text is a list of characters. The regular expressions of `parseBacklog` carry
the `i` flag and no `u` flag, under which a letter of a pattern matches its
two ASCII cases only; each expression is written out as the matcher it
denotes. -/

/-- What `\s` matches and `trim` strips: white space and line terminators. -/
def isSpaceChar (c : Char) : Bool :=
  c.toNat == 9 || c.toNat == 10 || c.toNat == 11 || c.toNat == 12 || c.toNat == 13 ||
  c.toNat == 32 || c.toNat == 160 || c.toNat == 5760 ||
  (8192 ≤ c.toNat && c.toNat ≤ 8202) ||
  c.toNat == 8232 || c.toNat == 8233 || c.toNat == 8239 || c.toNat == 8287 ||
  c.toNat == 12288 || c.toNat == 65279

/-- The line terminators, which `.` does not match. -/
def isLineTerminator (c : Char) : Bool :=
  c.toNat == 10 || c.toNat == 13 || c.toNat == 8232 || c.toNat == 8233

/-- The class `[0-9]`. -/
def isDigitChar (c : Char) : Bool := 48 ≤ c.toNat && c.toNat ≤ 57

/-- The class `[a-z]` under the `i` flag. -/
def isLetterChar (c : Char) : Bool :=
  (65 ≤ c.toNat && c.toNat ≤ 90) || (97 ≤ c.toNat && c.toNat ≤ 122)

/-- The class `[a-z0-9]` under the `i` flag. -/
def isAlnumChar (c : Char) : Bool := isDigitChar c || isLetterChar c

/-- The word characters `[A-Za-z0-9_]`, which decide `\b`. -/
def isWordChar (c : Char) : Bool := isAlnumChar c || c.toNat == 95

/-- The method `trim`. -/
def jsTrim (s : List Char) : List Char :=
  ((s.dropWhile isSpaceChar).reverse.dropWhile isSpaceChar).reverse

/-- The call `text.split(/\r?\n/)`: the pieces between line feeds, where a
carriage return right before a line feed belongs to the separator. -/
def splitLines : List Char → List (List Char)
  | [] => [[]]
  | c :: rest =>
    if c = '\n' then [] :: splitLines rest
    else if c = '\r' ∧ rest.head? = some '\n' then splitLines rest
    else
      match splitLines rest with
      | [] => [[c]]
      | l :: ls => (c :: l) :: ls

/-- The match of a literal pattern, given in lower case, at the start of the
text under the `i` flag: the text that follows the match. -/
def stripLiteral : List Char → List Char → Option (List Char)
  | [], text => some text
  | _ :: _, [] => none
  | p :: ps, c :: cs => if c.toLower = p then stripLiteral ps cs else none

/-- The test of `/^##\s+<title>\s*$/i` on a line, for a title in lower case. -/
def isHeader (title : List Char) (t : List Char) : Bool :=
  match t with
  | a :: b :: rest =>
    a == '#' && b == '#' &&
    decide ((rest.dropWhile isSpaceChar).length < rest.length) &&
    (match stripLiteral title (rest.dropWhile isSpaceChar) with
      | some tail => tail.all isSpaceChar
      | none => false)
  | _ => false

/-- The test `/^##\s+Current items\s*$/i`. -/
def isCurrentHeader (t : List Char) : Bool := isHeader "current items".data t

/-- The test `/^##\s+Done\s*$/i`. -/
def isDoneHeader (t : List Char) : Bool := isHeader "done".data t

/-- The first loop of `parseBacklog` from line `i` on: the values of
`currentStart` (`none` for `-1`) and `doneStart` when it ends. -/
def scanHeaders : List (List Char) → Nat → Option Nat → Nat → Option Nat × Nat
  | [], _, currentStart, doneStart => (currentStart, doneStart)
  | l :: rest, i, currentStart, doneStart =>
    if currentStart = none ∧ isCurrentHeader (jsTrim l) = true then
      scanHeaders rest (i + 1) (some (i + 1)) doneStart
    else if currentStart ≠ none ∧ isDoneHeader (jsTrim l) = true then
      (currentStart, i)
    else scanHeaders rest (i + 1) currentStart doneStart

/-- The match of `/^([0-9]+[a-z0-9]*)\.\s+(.*)$/i` on a line: the first group. -/
def matchItemId (line : List Char) : Option (List Char) :=
  match (line.takeWhile isAlnumChar).head?, line.dropWhile isAlnumChar with
  | some d, dot :: rest =>
    if isDigitChar d = true ∧ dot = '.' ∧
        (rest.dropWhile isSpaceChar).length < rest.length ∧
        (rest.dropWhile isSpaceChar).all (fun c => !isLineTerminator c) = true then
      some (line.takeWhile isAlnumChar)
    else none
  | _, _ => none

/-- The match of `/\[([a-z]+)\]/i` at the start of the text: the group. -/
def tagAt : List Char → Option (List Char)
  | [] => none
  | c :: rest =>
    if c = '[' ∧ rest.takeWhile isLetterChar ≠ [] ∧
        (rest.dropWhile isLetterChar).head? = some ']' then
      some (rest.takeWhile isLetterChar)
    else none

/-- The first match of `/\[([a-z]+)\]/i` in the text: the group. -/
def findTag : List Char → Option (List Char)
  | [] => none
  | c :: rest =>
    match tagAt (c :: rest) with
    | some t => some t
    | none => findTag rest

/-- The test of a literal pattern, given in lower case, anywhere in the text
under the `i` flag. -/
def hasLiteral (pat : List Char) : List Char → Bool
  | [] => (stripLiteral pat []).isSome
  | c :: rest => (stripLiteral pat (c :: rest)).isSome || hasLiteral pat rest

/-- The match of `blocked-by\s*:` at the start of the text under the `i` flag. -/
def blockedByAt (text : List Char) : Bool :=
  match stripLiteral "blocked-by".data text with
  | some tail => (tail.dropWhile isSpaceChar).head? == some ':'
  | none => false

/-- The test `/\bblocked-by\s*:/i` on the text that follows the character
`prev` (`none` at the start of the line). -/
def hasBlockedBy : Option Char → List Char → Bool
  | _, [] => false
  | prev, c :: rest =>
    ((match prev with
      | some x => !isWordChar x
      | none => true) && blockedByAt (c :: rest)) || hasBlockedBy (some c) rest

/-- The reasons `parseBacklog` lists for an item, in the order of the source. -/
def skipReasonsOf (queueTag : Option String) (noAutoStart blockedBy : Bool) : List String :=
  (if queueTag ≠ some "zsc" then ["not_zsc"] else []) ++
  (if noAutoStart then ["no_auto_start"] else []) ++
  (if blockedBy then ["blocked_by"] else [])

/-- The body of the second loop of `parseBacklog` on line `i` (counted from 0):
the item pushed, if any. -/
def itemOfLine (i : Nat) (raw : List Char) : Option BacklogItem :=
  if raw = [] ∨ jsTrim raw = [] then none
  else
    let line := jsTrim raw
    match matchItemId line with
    | none => none
    | some id =>
      let queueTag := (findTag line).map (fun t => String.mk (t.map Char.toLower))
      let noAutoStart := hasLiteral "**no-auto-start**".data line
      let blockedBy := hasBlockedBy none line
      let noAutoMerge := hasLiteral "**no-auto-merge**".data line
      let skipReasons := skipReasonsOf queueTag noAutoStart blockedBy
      some
        { itemId := String.mk id, queueTag := queueTag, workLine := String.mk line,
          lineNumber := i + 1, noAutoStart := noAutoStart, noAutoMerge := noAutoMerge,
          blockedBy := blockedBy, eligible := skipReasons.length == 0,
          skipReasons := skipReasons }

/-- The items the second loop of `parseBacklog` pushes, for `i` from
`currentStart` to `doneStart - 1`. -/
def itemsBetween (lines : List (List Char)) (currentStart doneStart : Nat) :
    List BacklogItem :=
  (List.range' currentStart (doneStart - currentStart)).filterMap
    (fun i => (lines.get? i).bind (itemOfLine i))

/-- The result object of `parseBacklog`. -/
structure ParsedBacklog where
  backlogFile : String
  scannedAtMs : Int
  scannedAt : String
  items : List BacklogItem
  deriving DecidableEq, Repr

/-- The function `parseBacklog` on the text of the backlog file. -/
def parseBacklog (rt : Runtime) (backlogFile : String) (text : String) (nowMs : Int) :
    Except CliError ParsedBacklog :=
  let lines := splitLines text.data
  match scanHeaders lines 0 none lines.length with
  | (none, _) =>
    .error { code := "E_BACKLOG_SECTION",
             message := "Could not find '## Current items' section" }
  | (some currentStart, doneStart) =>
    .ok { backlogFile := backlogFile, scannedAtMs := nowMs, scannedAt := rt.nowIso nowMs,
          items := itemsBetween lines currentStart doneStart }

/-! ## sync-backlog -/

/-- What `sync-backlog` uses of the file system outside the state store. -/
structure BacklogSource where
  /-- The call `path.resolve(p)` on a string. -/
  resolve : String → String
  /-- The message of the error `path.resolve(v)` throws on a value that is not
  a string. -/
  resolveError : JVal → String
  /-- The call `fs.readFileSync(p, "utf8")`: the text, or the message of the
  error it throws. -/
  readFile : String → Except String String

/-- The report of the last `catch` of the script on an error that is not a
`CliError`. -/
def runtimeError (message : String) : CliError :=
  { code := "E_RUNTIME", message := if message ≠ "" then message else "Unhandled error" }

/-- The counters of the skip reasons in the result of `sync-backlog`. -/
structure SyncSkipped where
  not_zsc : Nat
  no_auto_start : Nat
  blocked_by : Nat
  deriving DecidableEq, Repr

/-- The result object of `sync-backlog`. -/
structure SyncOutput where
  backlogFile : String
  totalItems : Nat
  eligibleCount : Nat
  skipped : SyncSkipped
  syncedAtMs : Int
  syncedAt : String
  deriving DecidableEq, Repr

/-- One step of the inner loop of `doSyncBacklog`: a reason that is a key of
`skipped` is counted. -/
def countReason (skipped : SyncSkipped) (reason : String) : SyncSkipped :=
  if reason = "not_zsc" then { skipped with not_zsc := skipped.not_zsc + 1 }
  else if reason = "no_auto_start" then
    { skipped with no_auto_start := skipped.no_auto_start + 1 }
  else if reason = "blocked_by" then { skipped with blocked_by := skipped.blocked_by + 1 }
  else skipped

/-- The two loops of `doSyncBacklog` over the skip reasons of the parsed items. -/
def countSkipped (items : List BacklogItem) : SyncSkipped :=
  items.foldl (fun skipped it => it.skipReasons.foldl countReason skipped)
    { not_zsc := 0, no_auto_start := 0, blocked_by := 0 }

/-- The state document `doSyncBacklog` writes. -/
def syncedState (rt : Runtime) (state : State) (parsed : ParsedBacklog) (nowMs : Int) : State :=
  { state with
    backlog :=
      { file := some parsed.backlogFile, syncedAtMs := some nowMs,
        syncedAt := some (rt.nowIso nowMs), items := parsed.items }
    updatedAtMs := nowMs }

/-- The function `doSyncBacklog`, with the clock read at `scanMs` by
`parseBacklog` and at `nowMs` under the state lock. -/
def doSyncBacklog (rt : Runtime) (src : BacklogSource) (args : Args) (scanMs nowMs : Int)
    (w : World) : Except CliError SyncOutput × World :=
  let backlogFile := args.file
  if !backlogFile.truthy then
    (.error { code := "E_USAGE",
              message := "sync-backlog requires --file <WORK_ITEMS_GLOBAL.md>" }, w)
  else
    match backlogFile with
    | .str f =>
      match src.readFile (src.resolve f) with
      | .error m => (.error (runtimeError m), w)
      | .ok text =>
        match parseBacklog rt (src.resolve (src.resolve f)) text scanMs with
        | .error e => (.error e, w)
        | .ok parsed =>
          let state := loadState nowMs w
          let state1 := syncedState rt state parsed nowMs
          let w1 := writeJsonAtomic w state1
          (.ok { backlogFile := parsed.backlogFile
                 totalItems := parsed.items.length
                 eligibleCount := (parsed.items.filter (fun i => i.eligible)).length
                 skipped := countSkipped parsed.items
                 syncedAtMs := nowMs
                 syncedAt := rt.nowIso nowMs }, w1)
    | v => (.error (runtimeError (src.resolveError v)), w)

/-! ## status -/

/-- What `status` uses of the runtime and of the file system beyond `Runtime`. -/
structure StatusEnv where
  /-- The method `a.localeCompare(b)`: negative, zero or positive. -/
  localeCompare : String → String → Int
  /-- The value of `Date.now()` when `gatherLocks` examines the file at a path. -/
  lockClock : String → Int

/-- The key is an integer index (a canonical numeric string below `2^32 - 1`):
such keys come first, in ascending order, when an object is enumerated. -/
def arrayIndex (k : String) : Option Nat :=
  if k.data ≠ [] ∧ k.data.all isDigitChar = true ∧
      (k.data.head? ≠ some '0' ∨ k.data.length = 1) ∧
      k.data.foldl (fun acc c => 10 * acc + (c.toNat - 48)) 0 < 2 ^ 32 - 1 then
    some (k.data.foldl (fun acc c => 10 * acc + (c.toNat - 48)) 0)
  else none

/-- The call `Object.values(obj)`: the values of the integer keys in ascending
order, then the values of the other keys in insertion order. -/
def objectValues {α : Type} (obj : List (String × α)) : List α :=
  ((obj.filterMap (fun kv => (arrayIndex kv.1).map (fun n => (n, kv.2)))).insertionSort
    (fun a b => a.1 ≤ b.1)).map (fun a => a.2) ++
  (obj.filter (fun kv => (arrayIndex kv.1).isNone)).map (fun kv => kv.2)

/-- The method `sort` with the comparator `key(a).localeCompare(key(b))`: a
stable sort. -/
def sortByLocale {α : Type} (env : StatusEnv) (key : α → String) (xs : List α) : List α :=
  xs.insertionSort (fun a b => env.localeCompare (key a) (key b) ≤ 0)

/-- One entry of the `claims` list of `status`. -/
structure ClaimView where
  itemId : JVal
  status : JVal
  queue : JVal
  label : JVal
  sessionKey : JVal
  claimedAtMs : JVal
  heartbeatAtMs : JVal
  leaseMs : Option Int
  ageMs : JVal
  stale : Bool
  lockPath : String
  lockExists : Bool
  branch : JVal
  prNumber : JVal
  prUrl : JVal
  deriving DecidableEq, Repr

/-- The callback of `map` on the claims in `doStatus`. -/
def claimView (rt : Runtime) (lockDir : String) (ttlOverride : Option Int) (nowMs : Int)
    (w : World) (claim : Claim) : ClaimView :=
  let ttlMs := numOr ttlOverride (toNumber rt claim.leaseMs (some DEFAULT_STALE_TTL_MS))
  let heartbeatAtMs :=
    ((JVal.ofInt? claim.heartbeatAtMs).or (JVal.ofInt? claim.claimedAtMs)).or .null
  let ageMs : JVal :=
    match claim.claimedAtMs with
    | some t => if t != 0 then .num (nowMs - t) else .null
    | none => .null
  let stale := claimIsStale rt (some claim) nowMs ttlOverride
  let lockPath := claimLockPath claim lockDir claim.itemId
  let lockExists := existsSync w lockPath
  { itemId := claim.itemId
    status := (JVal.ofStr? claim.status).or .null
    queue := claim.queue.or .null
    label := claim.label.or .null
    sessionKey := claim.sessionKey.or .null
    claimedAtMs := (JVal.ofInt? claim.claimedAtMs).or .null
    heartbeatAtMs := heartbeatAtMs
    leaseMs := ttlMs
    ageMs := ageMs
    stale := stale
    lockPath := lockPath
    lockExists := lockExists
    branch := claim.branch.or .null
    prNumber := claim.prNumber.or .null
    prUrl := claim.prUrl.or .null }

/-- The text without the given beginning, when it begins so. -/
def dropExact : List Char → List Char → Option (List Char)
  | [], text => some text
  | _ :: _, [] => none
  | a :: as, c :: cs => if a = c then dropExact as cs else none

/-- The name of the entry of the directory `lockDir` that the path denotes,
when the path is that of a file directly in it. -/
def entryName (lockDir path : String) : Option (List Char) :=
  match dropExact (lockDir ++ "/").data path.data with
  | some name => if name ≠ [] ∧ '/' ∉ name then some name else none
  | none => none

/-- The test `/^workitem-[^.]+\.lock$/` on an entry name, and the id left by
the two `replace` calls. -/
def lockItemId (name : List Char) : Option String :=
  match dropExact "workitem-".data name with
  | none => none
  | some rest =>
    match dropExact ".lock".data.reverse rest.reverse with
    | none => none
    | some mid => if mid ≠ [] ∧ '.' ∉ mid then some (String.mk mid.reverse) else none

/-- One entry of the result of `gatherLocks`. -/
structure LockRecord where
  itemId : String
  lockPath : String
  mtimeMs : Int
  mtime : String
  ageMs : Int
  data : Option LockPayload
  deriving DecidableEq, Repr

/-- The function `gatherLocks`: the directory is listed in the order of
`w.files`, and the modification time is that of the listed file. -/
def gatherLocks (rt : Runtime) (env : StatusEnv) (lockDir : String) (w : World) :
    List LockRecord :=
  sortByLocale env (fun l => l.itemId)
    (w.files.filterMap (fun entry =>
      match entryName lockDir entry.1 with
      | none => none
      | some name =>
        match lockItemId name with
        | none => none
        | some itemId =>
          some { itemId := itemId
                 lockPath := lockDir ++ "/" ++ String.mk name
                 mtimeMs := entry.2.mtimeMs
                 mtime := rt.nowIso entry.2.mtimeMs
                 ageMs := env.lockClock entry.1 - entry.2.mtimeMs
                 data := readJsonIfExists w (lockDir ++ "/" ++ String.mk name) }))

/-- One entry of the `locks` list of `status`. -/
structure LockView where
  itemId : String
  lockPath : String
  ageMs : Int
  mtimeMs : Int
  stale : Bool
  status : JVal
  label : JVal
  sessionKey : JVal
  prNumber : JVal
  prUrl : JVal
  deriving DecidableEq, Repr

/-- The callback of `map` on the lock files in `doStatus`. -/
def lockView (rt : Runtime) (state : State) (ttlOverride : Option Int) (lock : LockRecord) :
    LockView :=
  let itemClaim := objGet state.claims lock.itemId
  let ttlMs := numOr ttlOverride
    (toNumber rt (match itemClaim with
      | some c => c.leaseMs
      | none => .undefined) (some DEFAULT_STALE_TTL_MS))
  let stale :=
    (match ttlMs with
      | some ttl => decide (lock.ageMs > ttl)
      | none => false) && (itemClaim.isNone || !stateClaimIsTerminal itemClaim)
  let data := lock.data.getD LockPayload.empty
  { itemId := lock.itemId
    lockPath := lock.lockPath
    ageMs := lock.ageMs
    mtimeMs := lock.mtimeMs
    stale := stale
    status := data.status.or .null
    label := data.label.or .null
    sessionKey := data.sessionKey.or .null
    prNumber := data.prNumber.or .null
    prUrl := data.prUrl.or .null }

/-- The `totals` object of `status`. -/
structure StatusTotals where
  claims : Nat
  staleClaims : Nat
  locks : Nat
  staleLocks : Nat
  deriving DecidableEq, Repr

/-- The result object of `status`. -/
structure StatusOutput where
  nowMs : Int
  now : String
  totals : StatusTotals
  claims : List ClaimView
  locks : List LockView
  deriving DecidableEq, Repr

/-- The function `doStatus`. -/
def doStatus (rt : Runtime) (env : StatusEnv) (args : Args) (lockDir : String) (nowMs : Int)
    (w : World) : StatusOutput :=
  let staleOnly := args.stale.truthy
  let ttlOverride := toNumber rt args.ttlMs none
  let state := loadState nowMs w
  let claims := sortByLocale env (fun c => c.itemId.toStr)
    ((objectValues state.claims).map (claimView rt lockDir ttlOverride nowMs w))
  let lockRecords := (gatherLocks rt env lockDir w).map (lockView rt state ttlOverride)
  let staleClaims := claims.filter (fun c => c.stale)
  let staleLocks := lockRecords.filter (fun l => l.stale)
  { nowMs := nowMs
    now := rt.nowIso nowMs
    totals :=
      { claims := claims.length
        staleClaims := staleClaims.length
        locks := lockRecords.length
        staleLocks := staleLocks.length }
    claims := if staleOnly then staleClaims else claims
    locks := if staleOnly then staleLocks else lockRecords }

/-! ## Vocabulary of the properties -/

/-- The last heartbeat time of a claim, as `claimIsStale` reads it: the value
`claim.heartbeatAtMs || claim.claimedAtMs` when it is truthy; `none` when both
fields are absent or zero, the case in which `claimIsStale` returns early. -/
def heartbeatOf (c : Claim) : Option Int :=
  if numTruthy (numOr c.heartbeatAtMs c.claimedAtMs) then numOr c.heartbeatAtMs c.claimedAtMs
  else none

/-- The item has a claim that is not terminal: the first skip test of the
claim scan after the queue filter. -/
def hasLiveClaim (state : State) (item : BacklogItem) : Bool :=
  (objGet state.claims item.itemId).isSome &&
    !stateClaimIsTerminal (objGet state.claims item.itemId)

/-- The item passes the queue filter of the claim scan. -/
def inQueue (queue : String) (item : BacklogItem) : Bool :=
  decide (item.queueTag = some queue) && item.eligible

/-- The item passes every filter of the claim scan: right queue, eligible, no
claim that is not terminal, no lock file. -/
def claimable (lockDir queue : String) (state : State) (w : World) (item : BacklogItem) :
    Bool :=
  inQueue queue item && !hasLiveClaim state item &&
    !existsSync w (lockPathFor lockDir item.itemId)

/-- The counters after a scan that claims nothing. -/
def skipTally (lockDir queue : String) (state : State) (w : World)
    (items : List BacklogItem) (skipped : Skipped) : Skipped :=
  { ineligible := skipped.ineligible + items.countP (fun i => !inQueue queue i)
    claimed := skipped.claimed + items.countP (fun i => inQueue queue i && hasLiveClaim state i)
    locked := skipped.locked + items.countP (fun i =>
      inQueue queue i && !hasLiveClaim state i &&
        existsSync w (lockPathFor lockDir i.itemId)) }

/-- The world after the scan claims `item`: its lock file is created and the
state document is rewritten with the new claim. -/
def claimedWorld (rt : Runtime) (args : Args) (lockDir queue sessionKey : String)
    (leaseMs : Option Int) (nowMs : Int) (state : State) (w : World) (item : BacklogItem) :
    World :=
  let label := buildLabel rt queue item.itemId args nowMs
  let lockPath := lockPathFor lockDir item.itemId
  { doc := some
      { state with
        claims := objSet state.claims item.itemId
          (newClaim item label queue sessionKey leaseMs lockPath nowMs)
        updatedAtMs := nowMs }
    files := objSet w.files lockPath
      { mtimeMs := nowMs,
        data := some (claimLockPayload rt item label queue sessionKey leaseMs nowMs) } }

/-- The `item` object reported when the scan claims `item`. -/
def claimedItem (rt : Runtime) (args : Args) (lockDir queue sessionKey : String)
    (leaseMs : Option Int) (nowMs : Int) (item : BacklogItem) : ClaimedItem :=
  { itemId := item.itemId, label := buildLabel rt queue item.itemId args nowMs,
    workLine := item.workLine, queue := queue, sessionKey := sessionKey, leaseMs := leaseMs,
    claimedAtMs := nowMs, claimedAt := rt.nowIso nowMs,
    lockPath := lockPathFor lockDir item.itemId }

/-! ## Sample data -/

/-- A runtime for the examples: the only numeric string is `"42"`, dates print
as their millisecond count. -/
def sampleRuntime : Runtime :=
  { number := fun s => if s = "42" then some 42 else none, nowIso := fun ms => toString ms,
    stampLocal := fun ms => toString ms, pid := 7 }

/-- An eligible `zsc` item with the given id, on the given line. -/
def sampleItem (itemId : String) (lineNumber : Nat) : BacklogItem :=
  { itemId := itemId, queueTag := some "zsc", workLine := itemId ++ ". Task [zsc]",
    lineNumber := lineNumber, noAutoStart := false, noAutoMerge := false,
    blockedBy := false, eligible := true, skipReasons := [] }

/-- A state document with the given backlog items and claims. -/
def sampleState (items : List BacklogItem) (claims : List (String × Claim)) : State :=
  { version := 1, createdAtMs := 1000, updatedAtMs := 1000,
    backlog := { file := some "/w/WORK_ITEMS_GLOBAL.md", syncedAtMs := some 1000,
                 syncedAt := some "1000", items := items },
    claims := claims }

/-- A claim held by `session` since `claimedAtMs`, with the given status and a
lease of `leaseMs`. -/
def sampleClaim (itemId session status : String) (claimedAtMs leaseMs : Int) : Claim :=
  { itemId := .str itemId, queue := .str "zsc", label := .str ("zsc-work-" ++ itemId),
    workLine := .str (itemId ++ ". Task [zsc]"), sessionKey := .str session,
    status := some status, leaseMs := .num leaseMs,
    lockPath := some (lockPathFor "/w/.locks" itemId),
    claimedAtMs := some claimedAtMs, heartbeatAtMs := some claimedAtMs,
    createdAtMs := some claimedAtMs, updatedAtMs := some claimedAtMs,
    completedAtMs := none, branch := .undefined, prNumber := .undefined,
    prUrl := .undefined }

/-- Two eligible items; the first is held by a claim whose lease of 10 ms ran
out long ago, and there is no lock file. -/
def staleHolderWorld : World :=
  { doc := some (sampleState [sampleItem "1" 3, sampleItem "2" 4]
      [("1", sampleClaim "1" "worker-a" "claimed" 1000 10)]),
    files := [] }

/-- What one claim invocation reports: an error, nothing claimable, or the id
of the item it claimed. -/
inductive ClaimVerdict where
  | failed (code : String)
  | nothing
  | took (itemId : String)
  deriving DecidableEq, Repr

/-- The verdict of a claim result. -/
def verdict : Except CliError ClaimOutput × World → ClaimVerdict
  | (.error e, _) => .failed e.code
  | (.ok (.noEligibleItems _), _) => .nothing
  | (.ok (.claimed item), _) => .took item.itemId

/-- Successive claim invocations, each with its own options and clock value,
on the same lock directory: the verdicts in order, and the final world. -/
def claimRun (rt : Runtime) (lockDir : String) :
    List (Args × Int) → World → List ClaimVerdict × World
  | [], w => ([], w)
  | call :: rest, w =>
    let r := doClaim rt call.1 lockDir call.2 w
    let rs := claimRun rt lockDir rest r.2
    (verdict r :: rs.1, rs.2)

/-- A backlog in which two lines carry the same id. -/
def duplicateIdWorld : World :=
  { doc := some (sampleState [sampleItem "3" 3, sampleItem "3" 4] []), files := [] }

/-- A backlog synced from a document whose current-items section is empty. -/
def emptyBacklogWorld : World :=
  { doc := some (sampleState [] []), files := [] }

/-- An item of another queue, which `parseBacklog` marks ineligible. -/
def sampleOtherItem (itemId : String) (lineNumber : Nat) : BacklogItem :=
  { itemId := itemId, queueTag := some "ops", workLine := itemId ++ ". Task [ops]",
    lineNumber := lineNumber, noAutoStart := false, noAutoMerge := false,
    blockedBy := false, eligible := false, skipReasons := ["not_zsc"] }

/-- A freshly synced backlog: two eligible items around an ineligible one, no
claims, no lock files. -/
def freshWorld : World :=
  { doc := some (sampleState [sampleItem "1" 3, sampleOtherItem "1b" 4, sampleItem "2" 5] []),
    files := [] }

/-- The claim `complete` updates: the stored one, or the synthesized one. -/
def completeStart (rt : Runtime) (args : Args) (lockDir : String) (nowMs : Int) (w : World) :
    Claim :=
  (objGet (loadState nowMs w).claims args.item.toStr).getD
    (synthesizedClaim rt args lockDir (loadState nowMs w) args.item (optString args.session)
      nowMs)

/-- The claim `complete` stores. -/
def completedClaim (rt : Runtime) (args : Args) (lockDir : String) (nowMs : Int)
    (w : World) : Claim :=
  completeClaim (completeStart rt args lockDir nowMs w) (computedStatus rt args)
    (optString args.session) (optString args.branch) (completePrNumber rt args)
    (optString args.url) nowMs

/-- The lock payload `complete` writes. -/
def completedLockPayload (rt : Runtime) (args : Args) (lockDir : String) (nowMs : Int)
    (w : World) : LockPayload :=
  completeLockPayload rt
    ((readJsonIfExists w
      (claimLockPath (completedClaim rt args lockDir nowMs w) lockDir args.item)).getD
      LockPayload.empty)
    (completedClaim rt args lockDir nowMs w) args.item (computedStatus rt args)
    (optString args.branch) (completePrNumber rt args) (optString args.url) nowMs

/-- The world after a successful `complete`. -/
def completedWorld (rt : Runtime) (args : Args) (lockDir : String) (nowMs : Int)
    (w : World) : World :=
  { doc := some
      { loadState nowMs w with
        claims := objSet (loadState nowMs w).claims args.item.toStr
          (completedClaim rt args lockDir nowMs w)
        updatedAtMs := nowMs }
    files := objSet w.files
      (claimLockPath (completedClaim rt args lockDir nowMs w) lockDir args.item)
      { mtimeMs := nowMs, data := some (completedLockPayload rt args lockDir nowMs w) } }

/-- The result object of a successful `complete`. -/
def completeOutput (rt : Runtime) (args : Args) (lockDir : String) (nowMs : Int)
    (w : World) : CompleteOutput :=
  { lockPath := claimLockPath (completedClaim rt args lockDir nowMs w) lockDir args.item,
    itemId := args.item, status := computedStatus rt args,
    branch := (completedClaim rt args lockDir nowMs w).branch.or .null,
    prNumber := (completedClaim rt args lockDir nowMs w).prNumber.or .null,
    prUrl := (completedClaim rt args lockDir nowMs w).prUrl.or .null,
    completedAtMs := nowMs, completedAt := rt.nowIso nowMs }

/-- The session test of `complete`: the caller gives a session key, the claim
has one, and they differ. -/
def completeMismatch (rt : Runtime) (args : Args) (lockDir : String) (nowMs : Int)
    (w : World) : Prop :=
  strTruthy (optString args.session) ∧
    (completeStart rt args lockDir nowMs w).sessionKey.truthy ∧
    (completeStart rt args lockDir nowMs w).sessionKey ≠ .ofStr? (optString args.session)

/-- The removal of a key from an object. -/
def objDelete {α : Type} (o : List (String × α)) (k : String) : List (String × α) :=
  o.filter (fun p => decide (p.1 ≠ k))

/-- The removal of a lock file by an operator or another tool; no operation
of `workq.js` removes one. -/
def unlinkLock (w : World) (path : String) : World :=
  { w with files := objDelete w.files path }

/-- A freshly synced backlog with a single eligible item. -/
def singleItemWorld : World :=
  { doc := some (sampleState [sampleItem "1" 3] []), files := [] }

/-- The world after a successful `heartbeat` on the stored claim `claim0`: the
state document is rewritten, and the lock file is rewritten when it exists. -/
def heartbeatWorld (rt : Runtime) (args : Args) (lockDir : String) (nowMs : Int)
    (w : World) (claim0 : Claim) : World :=
  let claim := heartbeatClaim claim0 (toNumber rt args.leaseMs none) nowMs
  let lockPath := claimLockPath claim lockDir args.item
  { doc := some
      { loadState nowMs w with
        claims := objSet (loadState nowMs w).claims args.item.toStr claim
        updatedAtMs := nowMs }
    files :=
      if existsSync w lockPath then
        objSet w.files lockPath
          { mtimeMs := nowMs,
            data := some (heartbeatLockPayload rt
              ((readJsonIfExists w lockPath).getD LockPayload.empty) claim args.item nowMs) }
      else w.files }

/-- The single item, completed by a caller that gave no session key: the
claim `complete` synthesizes records the session key `null`. -/
def unownedDoneWorld : World :=
  (doComplete sampleRuntime { item := .str "1" } "/w/.locks" 3000 singleItemWorld).2

/-- The single item, claimed by session `a` at time 2000. -/
def heldWorld : World :=
  (doClaim sampleRuntime { session := .str "a" } "/w/.locks" 2000 singleItemWorld).2

/-- A claim of status `"claimed"` with a lease of 10 ms whose last heartbeat
was at time 1000. -/
def leaseTenClaim : Claim := sampleClaim "1" "worker-a" "claimed" 1000 10

/-- The options of a completion by session `a` with a branch, a PR number and
a PR url. -/
def completeArgs : Args :=
  { item := .str "1", session := .str "a", branch := .str "feature/x", pr := .str "42",
    url := .str "https://example.test/pr/42" }

/-- A state document that lost its `claims` and whose `backlog.items` is a
string. -/
def driftedStateJson : Json :=
  .obj [("version", .num 3), ("createdAtMs", .num 10),
        ("backlog", .obj [("file", .str "/w/WORK_ITEMS_GLOBAL.md"), ("items", .str "none")]),
        ("note", .str "kept")]

/-- The marker `**no-auto-merge**` as it is added at the end of a line, after
a space. -/
def autoMergeSuffix : List Char := " **no-auto-merge**".data

/-- A backlog document whose section holds the line of the parsing scenario. -/
def scenarioDocument : String :=
  "## Current items\n3. Fix bug [zsc] **no-auto-start**"

/-- The item the parsing scenario expects for its line, here on line 2. -/
def scenarioItem : BacklogItem :=
  { itemId := "3", queueTag := some "zsc", workLine := "3. Fix bug [zsc] **no-auto-start**",
    lineNumber := 2, noAutoStart := true, noAutoMerge := false, blockedBy := false,
    eligible := false, skipReasons := ["no_auto_start"] }

/-- The text is a section header with the given title (in lower case): `##`,
one or more white-space characters, the title in any letter case, and then
white space only. -/
def IsHeaderText (title : List Char) (t : List Char) : Prop :=
  ∃ ws body tail, t = '#' :: '#' :: (ws ++ body ++ tail) ∧ ws ≠ [] ∧
    (∀ c ∈ ws, isSpaceChar c = true) ∧ body.map Char.toLower = title ∧
    (∀ c ∈ tail, isSpaceChar c = true)

/-- A document whose header has two spaces after `##`. -/
def wideHeaderDocument : String := "##  Current items\n1. Fix [zsc]"

/-- The text is an item line with the identifier `id`: the identifier, made of
a digit and then letters and digits, a period, one or more white-space
characters, and then text without a line terminator. -/
def IsItemText (line id : List Char) : Prop :=
  ∃ d ds ws text, id = d :: ds ∧ isDigitChar d = true ∧
    (∀ c ∈ ds, isAlnumChar c = true) ∧
    line = id ++ '.' :: (ws ++ text) ∧ ws ≠ [] ∧
    (∀ c ∈ ws, isSpaceChar c = true) ∧ (∀ c ∈ text, isLineTerminator c = false)

/-- Line `k` (counted from 0) is the first `## Current items` header of the
lines, and `ds` is the index of the first `## Done` header after it, or the
number of lines when there is none. -/
def IsSection (lines : List (List Char)) (k ds : Nat) : Prop :=
  (∃ hdr, lines.get? k = some hdr ∧ IsHeaderText "current items".data (jsTrim hdr)) ∧
  (∀ j l, j < k → lines.get? j = some l → ¬ IsHeaderText "current items".data (jsTrim l)) ∧
  ((ds = lines.length ∧
      ∀ j l, k < j → lines.get? j = some l → ¬ IsHeaderText "done".data (jsTrim l)) ∨
    (∃ l, k < ds ∧ lines.get? ds = some l ∧ IsHeaderText "done".data (jsTrim l) ∧
      ∀ j l', k < j → j < ds → lines.get? j = some l' →
        ¬ IsHeaderText "done".data (jsTrim l')))

/-- A backlog document with text before the section, three item lines, a
blank line and a note in the section, and a `## Done` section. -/
def sampleDocument : String :=
  "# Board\n## Current items\n\n3. Fix bug [zsc] **no-auto-start**\n4a. Do [ZSC] it\nnote\n5. x [ops] blocked-by: 3\n## Done\n1. old [zsc]"

/-- The items of `sampleDocument`. -/
def sampleParsedItems : List BacklogItem :=
  [{ itemId := "3", queueTag := some "zsc", workLine := "3. Fix bug [zsc] **no-auto-start**",
     lineNumber := 4, noAutoStart := true, noAutoMerge := false, blockedBy := false,
     eligible := false, skipReasons := ["no_auto_start"] },
   { itemId := "4a", queueTag := some "zsc", workLine := "4a. Do [ZSC] it",
     lineNumber := 5, noAutoStart := false, noAutoMerge := false, blockedBy := false,
     eligible := true, skipReasons := [] },
   { itemId := "5", queueTag := some "ops", workLine := "5. x [ops] blocked-by: 3",
     lineNumber := 7, noAutoStart := false, noAutoMerge := false, blockedBy := true,
     eligible := false, skipReasons := ["not_zsc", "blocked_by"] }]

/-- The result of parsing `sampleDocument` at time 7. -/
def sampleParsed : ParsedBacklog :=
  { backlogFile := "/w/B.md", scannedAtMs := 7, scannedAt := "7", items := sampleParsedItems }

/-- A document whose only line in the section starts with a letter. -/
def letterIdDocument : String := "## Current items\na1. Fix [zsc]"

/-- The text has, right after `pre`, a bracketed token made only of letters:
`[`, the non-empty run of letters `tag`, and `]`. -/
def IsTagToken (line pre tag post : List Char) : Prop :=
  line = pre ++ '[' :: (tag ++ ']' :: post) ∧ tag ≠ [] ∧ ∀ c ∈ tag, isLetterChar c = true

/-- A document whose first item line has a bracketed token with a digit before
two tokens of letters, and whose second item line has no token of letters. -/
def tagDocument : String := "## Current items\n1. a [x1] [Ab] [cd]\n2. none [] here"

/-- The items of `tagDocument`. -/
def tagParsed : ParsedBacklog :=
  { backlogFile := "/w/B.md", scannedAtMs := 7, scannedAt := "7",
    items :=
      [{ itemId := "1", queueTag := some "ab", workLine := "1. a [x1] [Ab] [cd]",
         lineNumber := 2, noAutoStart := false, noAutoMerge := false, blockedBy := false,
         eligible := false, skipReasons := ["not_zsc"] },
       { itemId := "2", queueTag := none, workLine := "2. none [] here",
         lineNumber := 3, noAutoStart := false, noAutoMerge := false, blockedBy := false,
         eligible := false, skipReasons := ["not_zsc"] }] }

/-- A file system in which `B.md` resolves to `/w/B.md`, which holds
`sampleDocument`, and no other file can be read. -/
def sampleSource : BacklogSource :=
  { resolve := fun p => if p = "B.md" then "/w/B.md" else p
    resolveError := fun _ => "The paths[0] argument must be of type string"
    readFile := fun p =>
      if p = "/w/B.md" then .ok sampleDocument
      else .error "ENOENT: no such file or directory" }

/-- A state with an older snapshot of one item, a claim on it, and the lock
file of the claim. -/
def syncStartWorld : World :=
  { doc := some (sampleState [sampleItem "9" 3]
      [("9", sampleClaim "9" "worker-a" "claimed" 1000 10)]),
    files := [(lockPathFor "/w/.locks" "9", { mtimeMs := 1000, data := none })] }

/-- The four commands that write the state document. -/
inductive WriteCommand where
  | syncBacklog
  | claim
  | heartbeat
  | complete
  deriving DecidableEq, Repr

/-- The result is a result object, with `ok: true`, and no error. -/
def succeeded {α : Type} : Except CliError α → Bool
  | .ok _ => true
  | .error _ => false

/-- One invocation of a command that writes the state document: whether it
succeeded, and the files after it. -/
def runWrite (rt : Runtime) (src : BacklogSource) (lockDir : String) (c : WriteCommand)
    (args : Args) (scanMs nowMs : Int) (w : World) : Bool × World :=
  match c with
  | .syncBacklog =>
    (succeeded (doSyncBacklog rt src args scanMs nowMs w).1,
     (doSyncBacklog rt src args scanMs nowMs w).2)
  | .claim =>
    (succeeded (doClaim rt args lockDir nowMs w).1, (doClaim rt args lockDir nowMs w).2)
  | .heartbeat =>
    (succeeded (doHeartbeat rt args lockDir nowMs w).1,
     (doHeartbeat rt args lockDir nowMs w).2)
  | .complete =>
    (succeeded (doComplete rt args lockDir nowMs w).1,
     (doComplete rt args lockDir nowMs w).2)

/-- A state in which every item is skipped, each for another reason: the first
is of another queue, the second has a claim that is not terminal, the third
has a lock file. -/
def skippedWorld : World :=
  { doc := some (sampleState [sampleOtherItem "1b" 3, sampleItem "1" 4, sampleItem "2" 5]
      [("1", sampleClaim "1" "worker-a" "claimed" 1000 10)]),
    files := [(lockPathFor "/w/.locks" "2", { mtimeMs := 1000, data := none })] }

/-- No state file and no lock file: `loadState` returns the default state. -/
def noStateWorld : World := { doc := none, files := [] }

/-- The options of a `status` call without the `--stale` filter. -/
def unfiltered (args : Args) : Args := { args with stale := .undefined }

/-- A comparison of strings by the code points of their characters. -/
def compareChars : List Char → List Char → Int
  | [], [] => 0
  | [], _ :: _ => -1
  | _ :: _, [] => 1
  | a :: as, b :: bs =>
    if a.toNat < b.toNat then -1
    else if b.toNat < a.toNat then 1
    else compareChars as bs

/-- An environment for the examples: strings compare by code points, and the
lock files are examined at time 3000. -/
def sampleEnv : StatusEnv :=
  { localeCompare := fun a b => compareChars a.data b.data, lockClock := fun _ => 3000 }

/-- A state with three claims: item 2 is done, item 1 is held with a lease of
10 ms since time 1000, item 10 is held with a lease of two hours since time
2990; item 1 has a lock file. -/
def statusWorld : World :=
  { doc := some (sampleState [sampleItem "1" 3, sampleItem "2" 4, sampleItem "10" 5]
      [("2", sampleClaim "2" "worker-b" "done" 1000 10),
       ("1", sampleClaim "1" "worker-a" "claimed" 1000 10),
       ("10", sampleClaim "10" "worker-c" "claimed" 2990 7200000)]),
    files := [(lockPathFor "/w/.locks" "1", { mtimeMs := 1000, data := none })] }

/-- The world after `sampleDocument` is synced over `syncStartWorld`. -/
def syncedWorld : World :=
  (doSyncBacklog sampleRuntime sampleSource { file := .str "B.md" } 7 3000 syncStartWorld).2

/-- A backlog document whose current-items section has no item line. -/
def emptySectionDocument : String := "## Current items\nnothing yet\n## Done\n1. old [ops]"

/-- A file system in which `/w/E.md` holds `emptySectionDocument`. -/
def emptySectionSource : BacklogSource :=
  { resolve := fun p => p
    resolveError := fun _ => "The paths[0] argument must be of type string"
    readFile := fun p =>
      if p = "/w/E.md" then .ok emptySectionDocument
      else .error "ENOENT: no such file or directory" }

/-- The world after `emptySectionDocument` is synced where there was no state
file. -/
def emptySyncedWorld : World :=
  (doSyncBacklog sampleRuntime emptySectionSource { file := .str "/w/E.md" } 7 3000
    noStateWorld).2

/-! ## Lemmas on string-keyed objects -/

theorem objGet_objSet_same {α : Type} (o : List (String × α)) (k : String) (v : α) :
    objGet (objSet o k v) k = some v := by
  induction o with
  | nil => simp [objSet, objGet]
  | cons p rest ih =>
    obtain ⟨k', v'⟩ := p
    by_cases h : k' = k
    · simp [objSet, objGet, h]
    · simp [objSet, objGet, h, ih]

theorem objGet_objSet_other {α : Type} (o : List (String × α)) (k k2 : String) (v : α)
    (h : k ≠ k2) : objGet (objSet o k v) k2 = objGet o k2 := by
  induction o with
  | nil => simp [objSet, objGet, h]
  | cons p rest ih =>
    obtain ⟨k', v'⟩ := p
    by_cases h1 : k' = k
    · subst h1
      simp [objSet, objGet, h]
    · by_cases h2 : k' = k2
      · subst h2
        simp [objSet, objGet, h1]
      · simp [objSet, objGet, h1, h2, ih]

theorem lockPathFor_injective (lockDir a b : String)
    (h : lockPathFor lockDir a = lockPathFor lockDir b) : a = b := by
  have h1 := congrArg String.data h
  simp only [lockPathFor, String.data_append] at h1
  have h2 := List.append_cancel_left h1
  have h3 := List.append_cancel_right h2
  have h4 := List.append_cancel_left h3
  exact String.ext h4

/-! ## The claim scan -/

/-- The claim scan claims the first claimable item, or else reports the tally. -/
theorem claimScan_eq (rt : Runtime) (args : Args) (lockDir queue sessionKey : String)
    (leaseMs : Option Int) (nowMs : Int) (state : State) (w : World)
    (items : List BacklogItem) (skipped : Skipped) :
    claimScan rt args lockDir queue sessionKey leaseMs nowMs state items skipped w =
      match items.find? (claimable lockDir queue state w) with
      | some x =>
        (.ok (.claimed (claimedItem rt args lockDir queue sessionKey leaseMs nowMs x)),
         claimedWorld rt args lockDir queue sessionKey leaseMs nowMs state w x)
      | none => (.ok (.noEligibleItems (skipTally lockDir queue state w items skipped)), w) := by
  induction items generalizing skipped with
  | nil => simp [claimScan, skipTally]
  | cons x xs ih =>
    rw [claimScan]
    by_cases hq : x.queueTag ≠ some queue ∨ x.eligible = false
    · have hin : inQueue queue x = false := by
        rcases hq with hq | hq
        · simp [inQueue, hq]
        · simp [inQueue, hq]
      have hc : claimable lockDir queue state w x = false := by simp [claimable, hin]
      rw [if_pos hq, ih, List.find?_cons, hc]
      simp [skipTally, hin, List.countP_cons, Nat.add_assoc, Nat.add_comm]
    · have hin : inQueue queue x = true := by
        simp only [not_or, not_not] at hq
        simp [inQueue, hq.1]
        cases hx : x.eligible <;> simp_all
      rw [if_neg hq]
      by_cases hl : (objGet state.claims x.itemId).isSome ∧
          stateClaimIsTerminal (objGet state.claims x.itemId) = false
      · have hlive : hasLiveClaim state x = true := by simp [hasLiveClaim, hl.1, hl.2]
        have hc : claimable lockDir queue state w x = false := by simp [claimable, hlive]
        simp only [hl, and_self, if_true]
        rw [ih, List.find?_cons, hc]
        simp [skipTally, hin, hlive, List.countP_cons, Nat.add_assoc, Nat.add_comm]
      · have hlive : hasLiveClaim state x = false := by
          simp only [hasLiveClaim]
          cases h1 : (objGet state.claims x.itemId).isSome <;>
            cases h2 : stateClaimIsTerminal (objGet state.claims x.itemId) <;> simp_all
        simp only [hl, if_false]
        by_cases he : existsSync w (lockPathFor lockDir x.itemId) = true
        · have hc : claimable lockDir queue state w x = false := by simp [claimable, he]
          simp only [he, if_true]
          rw [ih, List.find?_cons, hc]
          simp [skipTally, hin, hlive, he, List.countP_cons, Nat.add_assoc, Nat.add_comm]
        · have he' : existsSync w (lockPathFor lockDir x.itemId) = false := by
            simpa using he
          have hc : claimable lockDir queue state w x = true := by
            simp [claimable, hin, hlive, he']
          simp [he', writeLockAtomic, List.find?_cons, hc, claimedWorld, claimedItem,
            writeJsonAtomic]

/-- The function `doClaim` past its guard is the claim scan over the backlog. -/
theorem doClaim_eq_scan (rt : Runtime) (args : Args) (lockDir : String) (nowMs : Int)
    (w : World) (h : (loadState nowMs w).backlog.items ≠ []) :
    doClaim rt args lockDir nowMs w =
      claimScan rt args lockDir (claimQueue args) (claimSessionKey rt args nowMs)
        (claimLeaseMs rt args) nowMs (loadState nowMs w) (loadState nowMs w).backlog.items
        { ineligible := 0, claimed := 0, locked := 0 } w := by
  have h0 : ¬ (loadState nowMs w).backlog.items.length = 0 := by
    simpa [List.length_eq_zero] using h
  simp only [doClaim, if_neg h0]

/-- The outcome of `doClaim` in closed form. -/
theorem doClaim_cases (rt : Runtime) (args : Args) (lockDir : String) (nowMs : Int)
    (w : World) :
    ((loadState nowMs w).backlog.items = [] ∧
      doClaim rt args lockDir nowMs w =
        (.error { code := "E_BACKLOG_EMPTY",
                  message := "No backlog items in state; run sync-backlog first" }, w)) ∨
    ((loadState nowMs w).backlog.items ≠ [] ∧
      (loadState nowMs w).backlog.items.find?
        (claimable lockDir (claimQueue args) (loadState nowMs w) w) = none ∧
      doClaim rt args lockDir nowMs w =
        (.ok (.noEligibleItems (skipTally lockDir (claimQueue args) (loadState nowMs w) w
          (loadState nowMs w).backlog.items { ineligible := 0, claimed := 0, locked := 0 })),
         w)) ∨
    (∃ x, (loadState nowMs w).backlog.items.find?
        (claimable lockDir (claimQueue args) (loadState nowMs w) w) = some x ∧
      doClaim rt args lockDir nowMs w =
        (.ok (.claimed (claimedItem rt args lockDir (claimQueue args)
          (claimSessionKey rt args nowMs) (claimLeaseMs rt args) nowMs x)),
         claimedWorld rt args lockDir (claimQueue args) (claimSessionKey rt args nowMs)
          (claimLeaseMs rt args) nowMs (loadState nowMs w) w x)) := by
  by_cases h : (loadState nowMs w).backlog.items = []
  · left
    refine ⟨h, ?_⟩
    simp [doClaim, h]
  · right
    rw [doClaim_eq_scan rt args lockDir nowMs w h, claimScan_eq]
    cases hf : (loadState nowMs w).backlog.items.find?
        (claimable lockDir (claimQueue args) (loadState nowMs w) w) with
    | none => left; exact ⟨h, rfl, rfl⟩
    | some x => right; exact ⟨x, rfl, rfl⟩

theorem claimable_iff (lockDir queue : String) (state : State) (w : World)
    (x : BacklogItem) :
    claimable lockDir queue state w x = true ↔
      x.queueTag = some queue ∧ x.eligible = true ∧
      (objGet state.claims x.itemId = none ∨
        stateClaimIsTerminal (objGet state.claims x.itemId) = true) ∧
      existsSync w (lockPathFor lockDir x.itemId) = false := by
  simp only [claimable, inQueue, hasLiveClaim, Bool.and_eq_true, Bool.not_eq_true',
    decide_eq_true_eq]
  cases h1 : objGet state.claims x.itemId <;>
    cases h2 : stateClaimIsTerminal (objGet state.claims x.itemId) <;>
    simp_all [and_assoc]

/-! ## C1: a claim never takes an item that is owned -/

/-- C1. Whatever the state, the lock files, the queue, the session and the
time: when `doClaim` succeeds with an item, that item had before the call no
claim entry or a terminal one, and its lock file did not exist; and every
claim entry that is not terminal before the call is still there, unchanged,
after it (staleness plays no part). -/
theorem doClaim_exclusive (rt : Runtime) (args : Args) (lockDir : String) (nowMs : Int)
    (w : World) (out : Except CliError ClaimOutput) (w' : World)
    (h : doClaim rt args lockDir nowMs w = (out, w')) :
    (∀ item, out = .ok (.claimed item) →
      (objGet (loadState nowMs w).claims item.itemId = none ∨
        stateClaimIsTerminal (objGet (loadState nowMs w).claims item.itemId) = true) ∧
      existsSync w (lockPathFor lockDir item.itemId) = false) ∧
    (∀ id c, objGet (loadState nowMs w).claims id = some c →
      stateClaimIsTerminal (some c) = false →
      objGet (loadState nowMs w').claims id = some c) := by
  rcases doClaim_cases rt args lockDir nowMs w with ⟨_, he⟩ | ⟨_, _, he⟩ | ⟨x, hx, he⟩
  · rw [he] at h
    cases h
    exact ⟨fun item hi => (by cases hi), fun id c hc _ => hc⟩
  · rw [he] at h
    cases h
    exact ⟨fun item hi => (by cases hi), fun id c hc _ => hc⟩
  · rw [he] at h
    cases h
    have hcl := (claimable_iff _ _ _ _ _).1 (List.find?_some hx)
    refine ⟨fun item hi => ?_, fun id c hc hnt => ?_⟩
    · cases hi
      exact ⟨hcl.2.2.1, hcl.2.2.2⟩
    · have hne : x.itemId ≠ id := by
        intro heq
        rw [heq, hc] at hcl
        rcases hcl.2.2.1 with h1 | h1
        · cases h1
        · rw [hnt] at h1
          cases h1
      simp only [claimedWorld, loadState]
      rw [objGet_objSet_other _ _ _ _ hne]
      exact hc

/-- C1 on an example: the first item is held by a stale claim that is not
terminal, so the claim goes to the second item and the stale entry stays. -/
theorem doClaim_exclusive_witness :
    claimIsStale sampleRuntime
      (objGet (loadState 5000000 staleHolderWorld).claims "1") 5000000 none = true ∧
    (doClaim sampleRuntime {} "/w/.locks" 5000000 staleHolderWorld).1 =
      .ok (.claimed (claimedItem sampleRuntime {} "/w/.locks" "zsc" "workq-7-5000000"
        (some 7200000) 5000000 (sampleItem "2" 4))) ∧
    objGet (loadState 5000000
        (doClaim sampleRuntime {} "/w/.locks" 5000000 staleHolderWorld).2).claims "1" =
      some (sampleClaim "1" "worker-a" "claimed" 1000 10) :=
  ⟨by decide, rfl,
   (doClaim_exclusive sampleRuntime {} "/w/.locks" 5000000 staleHolderWorld _ _ rfl).2
     "1" (sampleClaim "1" "worker-a" "claimed" 1000 10) (by decide) (by decide)⟩

/-! ## C2: successive claims take the eligible items in order -/

theorem newClaim_not_terminal (item : BacklogItem) (label queue sessionKey : String)
    (leaseMs : Option Int) (lockPath : String) (nowMs : Int) :
    stateClaimIsTerminal (some (newClaim item label queue sessionKey leaseMs lockPath nowMs))
      = false := by
  simp only [stateClaimIsTerminal, newClaim]
  decide

theorem find?_claimable (lockDir queue : String) (state : State) (w : World)
    (items : List BacklogItem) :
    items.find? (claimable lockDir queue state w) =
      (items.filter (inQueue queue)).find?
        (fun x => !hasLiveClaim state x && !existsSync w (lockPathFor lockDir x.itemId)) := by
  rw [List.find?_filter]
  congr 1
  funext x
  simp [claimable, Bool.and_assoc]

/-- The run of claims over a backlog whose eligible items split into those
already claimed (`D`) and those still free (`R`). -/
theorem claimRun_aux (rt : Runtime) (lockDir queue : String) :
    ∀ (R D : List BacklogItem) (calls : List (Args × Int)) (w : World) (st : State),
      w.doc = some st → st.backlog.items ≠ [] →
      st.backlog.items.filter (inQueue queue) = D ++ R →
      (∀ x ∈ D, hasLiveClaim st x = true) →
      (∀ x ∈ R, hasLiveClaim st x = false ∧
        existsSync w (lockPathFor lockDir x.itemId) = false) →
      (R.map (fun x => x.itemId)).Nodup →
      (∀ c ∈ calls, claimQueue c.1 = queue) →
      calls.length = R.length + 1 →
      (claimRun rt lockDir calls w).1 =
        R.map (fun x => ClaimVerdict.took x.itemId) ++ [ClaimVerdict.nothing] := by
  intro R
  induction R with
  | nil =>
    intro D calls w st hdoc hne hfil hD _ _ hq hlen
    cases calls with
    | nil => simp at hlen
    | cons c cs =>
      have hcs : cs = [] := by simpa using hlen
      subst hcs
      have hqc : claimQueue c.1 = queue := hq c (by simp)
      have hst : loadState c.2 w = st := by simp [loadState, hdoc]
      have hnone : (loadState c.2 w).backlog.items.find?
          (claimable lockDir (claimQueue c.1) (loadState c.2 w) w) = none := by
        rw [hst, hqc, find?_claimable, hfil, List.append_nil, List.find?_eq_none]
        intro x hx
        simp [hD x hx]
      rcases doClaim_cases rt c.1 lockDir c.2 w with ⟨he, _⟩ | ⟨_, _, he⟩ | ⟨x, hx, _⟩
      · rw [hst] at he
        exact absurd he hne
      · simp [claimRun, he, verdict]
      · rw [hnone] at hx
        cases hx
  | cons r R' ih =>
    intro D calls w st hdoc hne hfil hD hR hnd hq hlen
    cases calls with
    | nil => simp at hlen
    | cons c cs =>
      have hqc : claimQueue c.1 = queue := hq c (by simp)
      have hst : loadState c.2 w = st := by simp [loadState, hdoc]
      have hr := hR r (by simp)
      have hsome : (loadState c.2 w).backlog.items.find?
          (claimable lockDir (claimQueue c.1) (loadState c.2 w) w) = some r := by
        rw [hst, hqc, find?_claimable, hfil, List.find?_append]
        have h1 : D.find? (fun x => !hasLiveClaim st x &&
            !existsSync w (lockPathFor lockDir x.itemId)) = none := by
          rw [List.find?_eq_none]
          intro x hx
          simp [hD x hx]
        rw [h1]
        simp [List.find?_cons, hr.1, hr.2]
      rcases doClaim_cases rt c.1 lockDir c.2 w with ⟨he, _⟩ | ⟨_, hx, _⟩ | ⟨x, hx, he⟩
      · rw [hst] at he
        exact absurd he hne
      · rw [hsome] at hx
        cases hx
      · rw [hsome] at hx
        cases hx
        rw [hst, hqc] at he
        have hnd' : r.itemId ∉ R'.map (fun x => x.itemId) ∧
            (R'.map (fun x => x.itemId)).Nodup := by
          rw [List.map_cons] at hnd
          exact List.nodup_cons.1 hnd
        have hrec := ih (D ++ [r]) cs
          (claimedWorld rt c.1 lockDir queue (claimSessionKey rt c.1 c.2)
            (claimLeaseMs rt c.1) c.2 st w r)
          { st with
            claims := objSet st.claims r.itemId
              (newClaim r (buildLabel rt queue r.itemId c.1 c.2) queue
                (claimSessionKey rt c.1 c.2) (claimLeaseMs rt c.1)
                (lockPathFor lockDir r.itemId) c.2)
            updatedAtMs := c.2 }
          rfl hne (by simpa using hfil)
          (by
            intro x hx
            by_cases hid : r.itemId = x.itemId
            · simp [hasLiveClaim, ← hid, objGet_objSet_same, newClaim_not_terminal]
            · have hxD : x ∈ D := by
                rcases List.mem_append.1 hx with h | h
                · exact h
                · simp at h
                  exact absurd (by rw [h]) hid
              have := hD x hxD
              simpa [hasLiveClaim, objGet_objSet_other _ _ _ _ hid] using this)
          (by
            intro x hx
            have hid : r.itemId ≠ x.itemId := by
              intro heq
              exact hnd'.1 (List.mem_map.2 ⟨x, hx, heq.symm⟩)
            have hp : lockPathFor lockDir r.itemId ≠ lockPathFor lockDir x.itemId :=
              fun h => hid (lockPathFor_injective _ _ _ h)
            have := hR x (by simp [hx])
            constructor
            · simpa [hasLiveClaim, objGet_objSet_other _ _ _ _ hid] using this.1
            · simpa [existsSync, claimedWorld, objGet_objSet_other _ _ _ _ hp] using this.2)
          hnd'.2 (fun c' hc' => hq c' (by simp [hc']))
          (by simpa using hlen)
        simp only [claimRun, he, verdict, hrec, claimedItem, List.map_cons, List.cons_append]

/-- C2, as stated, fails on two inputs. On a backlog whose two eligible lines
carry the same id, the second of three invocations claims nothing. On a
synced backlog without any item, the single invocation fails with
`E_BACKLOG_EMPTY` instead of reporting that nothing is eligible. -/
theorem claimRun_in_order_counterexample :
    ((claimRun sampleRuntime "/w/.locks" [({}, 2000), ({}, 2001), ({}, 2002)]
        duplicateIdWorld).1 = [.took "3", .nothing, .nothing] ∧
      ((sampleState [sampleItem "3" 3, sampleItem "3" 4] []).backlog.items.filter
        (inQueue "zsc")).map (fun x => ClaimVerdict.took x.itemId) ++ [.nothing] =
        [.took "3", .took "3", .nothing]) ∧
    ((claimRun sampleRuntime "/w/.locks" [({}, 2000)] emptyBacklogWorld).1 =
        [.failed "E_BACKLOG_EMPTY"] ∧
      ((sampleState [] []).backlog.items.filter
        (inQueue "zsc")).map (fun x => ClaimVerdict.took x.itemId) ++ [.nothing] =
        [.nothing]) := by
  decide

/-- C2, amended. For a state document whose backlog has at least one item and
whose eligible items of the queue have pairwise distinct ids, with no claims
and no lock files: `N + 1` successive claim invocations on that queue (any
sessions, leases and times) claim the `N` eligible items in document order,
one each, and the last one reports that nothing is eligible. -/
theorem claimRun_in_order (rt : Runtime) (lockDir queue : String) (st : State) (w : World)
    (calls : List (Args × Int))
    (hdoc : w.doc = some st) (hne : st.backlog.items ≠ [])
    (hnd : ((st.backlog.items.filter (inQueue queue)).map (fun x => x.itemId)).Nodup)
    (hclaims : st.claims = []) (hfiles : w.files = [])
    (hq : ∀ c ∈ calls, claimQueue c.1 = queue)
    (hlen : calls.length = (st.backlog.items.filter (inQueue queue)).length + 1) :
    (claimRun rt lockDir calls w).1 =
      (st.backlog.items.filter (inQueue queue)).map (fun x => ClaimVerdict.took x.itemId)
        ++ [ClaimVerdict.nothing] := by
  refine claimRun_aux rt lockDir queue _ [] calls w st hdoc hne (by simp)
    (by simp) ?_ hnd hq hlen
  intro x _
  simp [hasLiveClaim, existsSync, hclaims, hfiles, objGet]

/-- C2 on an example: three invocations on a fresh backlog with two eligible
items. -/
theorem claimRun_in_order_witness :
    (claimRun sampleRuntime "/w/.locks"
        [({ session := .str "a" }, 2000), ({ session := .str "b" }, 2001),
         ({ session := .str "a" }, 2002)] freshWorld).1 =
      [.took "1", .took "2", .nothing] :=
  claimRun_in_order sampleRuntime "/w/.locks" "zsc" _ freshWorld _ rfl (by decide)
    (by decide) rfl rfl (by decide) (by decide)

/-! ## C3: what a successful claim changes -/

/-- C3, as stated, fails: a successful claim also sets the `updatedAtMs` of
the state document to now, so the new document is not the old one with only
`claims[X]` replaced. Here the document moves from 1000 to 2000. -/
theorem doClaim_transition_counterexample :
    (doClaim sampleRuntime {} "/w/.locks" 2000 freshWorld).1 =
      .ok (.claimed (claimedItem sampleRuntime {} "/w/.locks" "zsc" "workq-7-2000"
        (some 7200000) 2000 (sampleItem "1" 3))) ∧
    (loadState 2000 freshWorld).updatedAtMs = 1000 ∧
    (loadState 2000 (doClaim sampleRuntime {} "/w/.locks" 2000 freshWorld).2).updatedAtMs
      = 2000 ∧
    (doClaim sampleRuntime {} "/w/.locks" 2000 freshWorld).2.doc ≠
      some { loadState 2000 freshWorld with
        claims := objSet (loadState 2000 freshWorld).claims "1"
          (newClaim (sampleItem "1" 3) "zsc-work-1-AUTO-2000" "zsc" "workq-7-2000"
            (some 7200000) "/w/.locks/workitem-1.lock" 2000) } :=
  ⟨rfl, rfl, rfl, by decide⟩

/-- C3, amended. A successful claim is one transition on the first claimable
item: the claimed item `x` is the first backlog item, in document order, that
is in the requested queue, eligible, without a claim that is not terminal and
without a lock file. The new state document is the old one with `claims[x]`
replaced by a record of status `"claimed"` carrying the session and lease of
the caller and `claimedAtMs = heartbeatAtMs = now`, and with `updatedAtMs` set
to now; every other claim entry and the backlog are unchanged. The lock file
of `x`, absent before, is the only file created, and no other file changes. -/
theorem doClaim_transition (rt : Runtime) (args : Args) (lockDir : String) (nowMs : Int)
    (w : World) (item : ClaimedItem) (w' : World)
    (h : doClaim rt args lockDir nowMs w = (.ok (.claimed item), w')) :
    ∃ (pre post : List BacklogItem) (x : BacklogItem) (rec : Claim) (file : LockFile),
      (loadState nowMs w).backlog.items = pre ++ x :: post ∧
      (∀ y ∈ pre, claimable lockDir (claimQueue args) (loadState nowMs w) w y = false) ∧
      claimable lockDir (claimQueue args) (loadState nowMs w) w x = true ∧
      item.itemId = x.itemId ∧
      rec.status = some "claimed" ∧
      rec.sessionKey = .str (claimSessionKey rt args nowMs) ∧
      rec.leaseMs = .ofInt? (claimLeaseMs rt args) ∧
      rec.claimedAtMs = some nowMs ∧ rec.heartbeatAtMs = some nowMs ∧
      w'.doc = some { loadState nowMs w with
        claims := objSet (loadState nowMs w).claims x.itemId rec
        updatedAtMs := nowMs } ∧
      (∀ id, id ≠ x.itemId →
        objGet (loadState nowMs w').claims id = objGet (loadState nowMs w).claims id) ∧
      (loadState nowMs w').backlog = (loadState nowMs w).backlog ∧
      existsSync w (lockPathFor lockDir x.itemId) = false ∧
      w'.files = objSet w.files (lockPathFor lockDir x.itemId) file ∧
      (∀ path, path ≠ lockPathFor lockDir x.itemId →
        objGet w'.files path = objGet w.files path) := by
  rcases doClaim_cases rt args lockDir nowMs w with ⟨_, he⟩ | ⟨_, _, he⟩ | ⟨x, hx, he⟩
  · rw [he] at h
    cases h
  · rw [he] at h
    cases h
  · rw [he] at h
    cases h
    obtain ⟨hcl, pre, post, hsplit, hpre⟩ := List.find?_eq_some.1 hx
    refine ⟨pre, post, x, _, _, hsplit, ?_, hcl, rfl, rfl, rfl, rfl, rfl, rfl, rfl, ?_, rfl,
      ((claimable_iff _ _ _ _ _).1 hcl).2.2.2, rfl, ?_⟩
    · intro y hy
      simpa using hpre y hy
    · intro id hid
      simp only [claimedWorld, loadState]
      exact objGet_objSet_other _ _ _ _ (Ne.symm hid)
    · intro path hpath
      simp only [claimedWorld]
      exact objGet_objSet_other _ _ _ _ (Ne.symm hpath)

/-- C3 on an example: the first claim on the fresh backlog takes item `1`. -/
theorem doClaim_transition_witness :
    ∃ (pre post : List BacklogItem) (x : BacklogItem) (rec : Claim) (file : LockFile),
      (loadState 2000 freshWorld).backlog.items = pre ++ x :: post ∧
      (∀ y ∈ pre, claimable "/w/.locks" (claimQueue {}) (loadState 2000 freshWorld)
        freshWorld y = false) ∧
      claimable "/w/.locks" (claimQueue {}) (loadState 2000 freshWorld) freshWorld x = true ∧
      (claimedItem sampleRuntime {} "/w/.locks" "zsc" "workq-7-2000"
        (some 7200000) 2000 (sampleItem "1" 3)).itemId = x.itemId ∧
      rec.status = some "claimed" ∧
      rec.sessionKey = .str (claimSessionKey sampleRuntime {} 2000) ∧
      rec.leaseMs = .ofInt? (claimLeaseMs sampleRuntime {}) ∧
      rec.claimedAtMs = some 2000 ∧ rec.heartbeatAtMs = some 2000 ∧
      (doClaim sampleRuntime {} "/w/.locks" 2000 freshWorld).2.doc =
        some { loadState 2000 freshWorld with
          claims := objSet (loadState 2000 freshWorld).claims x.itemId rec
          updatedAtMs := 2000 } ∧
      (∀ id, id ≠ x.itemId →
        objGet (loadState 2000
          (doClaim sampleRuntime {} "/w/.locks" 2000 freshWorld).2).claims id =
          objGet (loadState 2000 freshWorld).claims id) ∧
      (loadState 2000 (doClaim sampleRuntime {} "/w/.locks" 2000 freshWorld).2).backlog =
        (loadState 2000 freshWorld).backlog ∧
      existsSync freshWorld (lockPathFor "/w/.locks" x.itemId) = false ∧
      (doClaim sampleRuntime {} "/w/.locks" 2000 freshWorld).2.files =
        objSet freshWorld.files (lockPathFor "/w/.locks" x.itemId) file ∧
      (∀ path, path ≠ lockPathFor "/w/.locks" x.itemId →
        objGet (doClaim sampleRuntime {} "/w/.locks" 2000 freshWorld).2.files path =
          objGet freshWorld.files path) :=
  doClaim_transition sampleRuntime {} "/w/.locks" 2000 freshWorld _ _ rfl

/-! ## complete in closed form -/

/-- A successful `complete` passed its three guards and produced `completedWorld`. -/
theorem doComplete_ok (rt : Runtime) (args : Args) (lockDir : String) (nowMs : Int)
    (w : World) (out : CompleteOutput) (w' : World)
    (h : doComplete rt args lockDir nowMs w = (.ok out, w')) :
    args.item.truthy = true ∧
    ¬ (args.pr ≠ .undefined ∧ prIsFinite (completePrNumber rt args) = false) ∧
    ¬ completeMismatch rt args lockDir nowMs w ∧
    w' = completedWorld rt args lockDir nowMs w ∧
    out = completeOutput rt args lockDir nowMs w := by
  unfold doComplete at h
  by_cases h1 : args.item.truthy = true
  · by_cases h2 : args.pr ≠ .undefined ∧ prIsFinite (completePrNumber rt args) = false
    · simp [h1, h2] at h
    · by_cases h3 : completeMismatch rt args lockDir nowMs w
      · have h3' := h3
        simp only [completeMismatch, completeStart] at h3'
        simp [h1, h2, h3'] at h
      · have h3' := h3
        simp only [completeMismatch, completeStart] at h3'
        simp only [h1, Bool.not_true, Bool.false_eq_true, if_false, Bool.not_eq_true', h2,
          h3', writeLockAtomic, writeJsonAtomic, Option.getD_some, Prod.mk.injEq] at h
        refine ⟨h1, h2, h3, ?_, ?_⟩
        · rw [← h.2]
          rfl
        · have := h.1
          cases this
          rfl
  · simp [h1] at h

/-- When its three guards pass, `complete` succeeds and produces `completedWorld`. -/
theorem doComplete_of_guards (rt : Runtime) (args : Args) (lockDir : String) (nowMs : Int)
    (w : World) (h1 : args.item.truthy = true)
    (h2 : ¬ (args.pr ≠ .undefined ∧ prIsFinite (completePrNumber rt args) = false))
    (h3 : ¬ completeMismatch rt args lockDir nowMs w) :
    doComplete rt args lockDir nowMs w =
      (.ok (completeOutput rt args lockDir nowMs w), completedWorld rt args lockDir nowMs w) := by
  have h3' := h3
  simp only [completeMismatch, completeStart] at h3'
  unfold doComplete
  simp only [h1, Bool.not_true, Bool.false_eq_true, if_false, Bool.not_eq_true', h2,
    h3', writeLockAtomic, writeJsonAtomic, Option.getD_some]
  rfl

/-! ## C4: re-claiming an item whose claim is terminal -/

theorem objGet_objDelete_same {α : Type} (o : List (String × α)) (k : String) :
    objGet (objDelete o k) k = none := by
  induction o with
  | nil => rfl
  | cons p rest ih =>
    obtain ⟨k', v'⟩ := p
    by_cases h : k' = k
    · simpa [objDelete, List.filter_cons, h] using ih
    · simpa [objDelete, List.filter_cons, h, objGet] using ih

theorem lockPathFor_truthy (lockDir itemId : String) :
    strTruthy (some (lockPathFor lockDir itemId)) = true := by
  have h : lockPathFor lockDir itemId ≠ "" := by
    intro h
    have h1 := congrArg String.data h
    simp [lockPathFor, String.data_append] at h1
  simpa [strTruthy] using h

theorem completeClaim_lockPath (claim : Claim) (status : String)
    (sessionKey branch : Option String) (prNumber : Option (Option Int))
    (prUrl : Option String) (nowMs : Int) :
    (completeClaim claim status sessionKey branch prNumber prUrl nowMs).lockPath
      = claim.lockPath := by
  unfold completeClaim
  split_ifs <;> split <;> rfl

/-- The world after a claim of `x` and then a `complete` of that item: the
backlog is the one before the claim and the lock file of `x` exists. -/
theorem complete_after_claim (rt : Runtime) (lockDir : String) (a1 a2 : Args) (t1 t2 : Int)
    (w0 w2 : World) (x : BacklogItem) (out2 : CompleteOutput)
    (h2 : doComplete rt a2 lockDir t2
      (claimedWorld rt a1 lockDir (claimQueue a1) (claimSessionKey rt a1 t1)
        (claimLeaseMs rt a1) t1 (loadState t1 w0) w0 x) = (.ok out2, w2))
    (hitem : a2.item = .str x.itemId) :
    (∃ st2, w2.doc = some st2 ∧ st2.backlog = (loadState t1 w0).backlog) ∧
    existsSync w2 (lockPathFor lockDir x.itemId) = true := by
  obtain ⟨_, _, _, hw, _⟩ := doComplete_ok _ _ _ _ _ _ _ h2
  have hstart : completeStart rt a2 lockDir t2
      (claimedWorld rt a1 lockDir (claimQueue a1) (claimSessionKey rt a1 t1)
        (claimLeaseMs rt a1) t1 (loadState t1 w0) w0 x) =
      newClaim x (buildLabel rt (claimQueue a1) x.itemId a1 t1) (claimQueue a1)
        (claimSessionKey rt a1 t1) (claimLeaseMs rt a1) (lockPathFor lockDir x.itemId) t1 := by
    simp [completeStart, claimedWorld, loadState, hitem, JVal.toStr, objGet_objSet_same]
  have hpath : claimLockPath (completedClaim rt a2 lockDir t2
      (claimedWorld rt a1 lockDir (claimQueue a1) (claimSessionKey rt a1 t1)
        (claimLeaseMs rt a1) t1 (loadState t1 w0) w0 x)) lockDir a2.item =
      lockPathFor lockDir x.itemId := by
    simp only [claimLockPath, completedClaim, completeClaim_lockPath, hstart]
    simp [newClaim, lockPathFor_truthy]
  subst hw
  constructor
  · exact ⟨_, rfl, rfl⟩
  · simp only [completedWorld, existsSync, hpath, objGet_objSet_same, Option.isSome_some]

/-- C4, as stated, fails: after `claim` and `complete` on the only eligible
item, whose claim is then terminal, the next `claim` reports nothing eligible
and counts the item as locked. -/
theorem reclaim_after_complete_counterexample :
    (doClaim sampleRuntime { session := .str "a" } "/w/.locks" 2000 singleItemWorld).1 =
      .ok (.claimed (claimedItem sampleRuntime { session := .str "a" } "/w/.locks" "zsc" "a"
        (some 7200000) 2000 (sampleItem "1" 3))) ∧
    (∃ out, (doComplete sampleRuntime { item := .str "1", session := .str "a" } "/w/.locks"
      3000 (doClaim sampleRuntime { session := .str "a" } "/w/.locks" 2000
        singleItemWorld).2).1 = .ok out ∧ out.status = "done") ∧
    stateClaimIsTerminal (objGet (loadState 4000
      (doComplete sampleRuntime { item := .str "1", session := .str "a" } "/w/.locks" 3000
        (doClaim sampleRuntime { session := .str "a" } "/w/.locks" 2000
          singleItemWorld).2).2).claims "1") = true ∧
    (doClaim sampleRuntime { session := .str "b" } "/w/.locks" 4000
      (doComplete sampleRuntime { item := .str "1", session := .str "a" } "/w/.locks" 3000
        (doClaim sampleRuntime { session := .str "a" } "/w/.locks" 2000
          singleItemWorld).2).2).1 =
      .ok (.noEligibleItems { ineligible := 0, claimed := 0, locked := 1 }) :=
  ⟨rfl, ⟨_, rfl, rfl⟩, by decide, rfl⟩

/-- C4, amended. Let a claim take the only eligible item `x` of the queue and a
`complete` then bring its claim to a terminal status. The terminal claim entry
does not block a new claim, but the lock file of `x`, which `complete` leaves
in place, does: the next claim on that queue changes nothing and reports
nothing eligible, with no item counted as claimed and `x` counted as locked.
Once that lock file is removed, the next claim succeeds and writes a new claim
for `x`, with status `"claimed"` and the session of the new caller. -/
theorem reclaim_after_complete (rt : Runtime) (lockDir : String) (a1 a2 a3 : Args)
    (t1 t2 t3 : Int) (w0 w1 w2 : World) (x : ClaimedItem) (out2 : CompleteOutput)
    (h1 : doClaim rt a1 lockDir t1 w0 = (.ok (.claimed x), w1))
    (h2 : doComplete rt a2 lockDir t2 w1 = (.ok out2, w2))
    (hitem : a2.item = .str x.itemId)
    (hterm : stateClaimIsTerminal (objGet (loadState t3 w2).claims x.itemId) = true)
    (hq : claimQueue a3 = claimQueue a1)
    (honly : ∀ y ∈ (loadState t1 w0).backlog.items,
      inQueue (claimQueue a1) y = true → y.itemId = x.itemId) :
    (∃ sk, doClaim rt a3 lockDir t3 w2 = (.ok (.noEligibleItems sk), w2) ∧
      sk.claimed = 0 ∧ 1 ≤ sk.locked) ∧
    (∃ x' w3 rec,
      doClaim rt a3 lockDir t3 (unlinkLock w2 (lockPathFor lockDir x.itemId)) =
        (.ok (.claimed x'), w3) ∧
      x'.itemId = x.itemId ∧
      objGet (loadState t3 w3).claims x.itemId = some rec ∧
      rec.status = some "claimed" ∧
      rec.sessionKey = .str (claimSessionKey rt a3 t3) ∧
      rec.claimedAtMs = some t3) := by
  rcases doClaim_cases rt a1 lockDir t1 w0 with ⟨_, he⟩ | ⟨_, _, he⟩ | ⟨X, hX, he⟩
  · rw [he] at h1
    cases h1
  · rw [he] at h1
    cases h1
  rw [he] at h1
  cases h1
  have hid : (claimedItem rt a1 lockDir (claimQueue a1) (claimSessionKey rt a1 t1)
      (claimLeaseMs rt a1) t1 X).itemId = X.itemId := rfl
  rw [hid] at hitem hterm honly ⊢
  obtain ⟨⟨st2, hdoc, hback⟩, hlock⟩ :=
    complete_after_claim rt lockDir a1 a2 t1 t2 w0 w2 X out2 h2 hitem
  have hst : ∀ w, w.doc = some st2 → loadState t3 w = st2 := by
    intro w hw
    simp [loadState, hw]
  have hmem : X ∈ (loadState t1 w0).backlog.items := List.mem_of_find?_eq_some hX
  have hXq : inQueue (claimQueue a1) X = true := by
    have := List.find?_some hX
    simp only [claimable, Bool.and_eq_true] at this
    exact this.1.1
  have hlive : ∀ y, y.itemId = X.itemId → hasLiveClaim st2 y = false := by
    intro y hy
    rw [hst w2 hdoc] at hterm
    simp [hasLiveClaim, hy, hterm]
  constructor
  · rcases doClaim_cases rt a3 lockDir t3 w2 with ⟨hemp, _⟩ | ⟨_, _, he3⟩ | ⟨y, hy, _⟩
    · rw [hst w2 hdoc, hback] at hemp
      rw [hemp] at hmem
      cases hmem
    · refine ⟨_, he3, ?_, ?_⟩
      · rw [hst w2 hdoc, hback, hq]
        simp only [skipTally, Nat.zero_add, List.countP_eq_zero]
        intro y hy
        cases hyq : inQueue (claimQueue a1) y with
        | false => simp
        | true => simp [hlive y (honly y hy hyq)]
      · rw [hst w2 hdoc, hback, hq]
        simp only [skipTally, Nat.zero_add]
        apply List.countP_pos_iff.2
        exact ⟨X, hmem, by simp [hXq, hlive X rfl, hlock]⟩
    · exfalso
      rw [hst w2 hdoc, hback, hq] at hy
      have hc := List.find?_some hy
      have hyq : inQueue (claimQueue a1) y = true := by
        simp only [claimable, Bool.and_eq_true] at hc
        exact hc.1.1
      have hye := honly y (List.mem_of_find?_eq_some hy) hyq
      simp [claimable, hye, hlock] at hc
  · have hdoc' : (unlinkLock w2 (lockPathFor lockDir X.itemId)).doc = some st2 := hdoc
    have hfree : claimable lockDir (claimQueue a1) st2
        (unlinkLock w2 (lockPathFor lockDir X.itemId)) X = true := by
      simp [claimable, hXq, hlive X rfl, existsSync, unlinkLock, objGet_objDelete_same]
    rcases doClaim_cases rt a3 lockDir t3 (unlinkLock w2 (lockPathFor lockDir X.itemId))
      with ⟨hemp, _⟩ | ⟨_, hnone, _⟩ | ⟨y, hy, he3⟩
    · rw [hst _ hdoc', hback] at hemp
      rw [hemp] at hmem
      cases hmem
    · exfalso
      rw [hst _ hdoc', hback, hq, List.find?_eq_none] at hnone
      exact hnone X hmem hfree
    · rw [hst _ hdoc', hback, hq] at hy
      have hc := List.find?_some hy
      have hyq : inQueue (claimQueue a1) y = true := by
        simp only [claimable, Bool.and_eq_true] at hc
        exact hc.1.1
      have hye := honly y (List.mem_of_find?_eq_some hy) hyq
      refine ⟨_, _, newClaim y (buildLabel rt (claimQueue a3) y.itemId a3 t3) (claimQueue a3)
        (claimSessionKey rt a3 t3) (claimLeaseMs rt a3) (lockPathFor lockDir y.itemId) t3,
        he3, hye, ?_, rfl, rfl, rfl⟩
      simp only [claimedWorld, loadState]
      rw [← hye]
      exact objGet_objSet_same _ _ _

/-- C4 on an example: worker `a` claims and completes the single item; worker
`b` is then blocked by the lock file, and succeeds once it is removed. -/
theorem reclaim_after_complete_witness :
    (∃ sk, doClaim sampleRuntime { session := .str "b" } "/w/.locks" 4000
        (doComplete sampleRuntime { item := .str "1", session := .str "a" } "/w/.locks" 3000
          (doClaim sampleRuntime { session := .str "a" } "/w/.locks" 2000
            singleItemWorld).2).2 =
        (.ok (.noEligibleItems sk),
          (doComplete sampleRuntime { item := .str "1", session := .str "a" } "/w/.locks" 3000
            (doClaim sampleRuntime { session := .str "a" } "/w/.locks" 2000
              singleItemWorld).2).2) ∧
      sk.claimed = 0 ∧ 1 ≤ sk.locked) ∧
    (∃ x' w3 rec,
      doClaim sampleRuntime { session := .str "b" } "/w/.locks" 4000
        (unlinkLock
          (doComplete sampleRuntime { item := .str "1", session := .str "a" } "/w/.locks" 3000
            (doClaim sampleRuntime { session := .str "a" } "/w/.locks" 2000
              singleItemWorld).2).2
          (lockPathFor "/w/.locks" "1")) = (.ok (.claimed x'), w3) ∧
      x'.itemId = "1" ∧
      objGet (loadState 4000 w3).claims "1" = some rec ∧
      rec.status = some "claimed" ∧
      rec.sessionKey = .str (claimSessionKey sampleRuntime { session := .str "b" } 4000) ∧
      rec.claimedAtMs = some 4000) :=
  reclaim_after_complete sampleRuntime "/w/.locks" { session := .str "a" }
    { item := .str "1", session := .str "a" } { session := .str "b" } 2000 3000 4000
    singleItemWorld _ _
    (claimedItem sampleRuntime { session := .str "a" } "/w/.locks" "zsc" "a"
      (some 7200000) 2000 (sampleItem "1" 3))
    (completeOutput sampleRuntime { item := .str "1", session := .str "a" } "/w/.locks" 3000
      (doClaim sampleRuntime { session := .str "a" } "/w/.locks" 2000 singleItemWorld).2)
    rfl rfl rfl (by decide) rfl (by decide)

/-! ## C5: a heartbeat that fails changes nothing -/

/-- C5, as stated, fails: the recorded session key is compared by its string
form. The claim that `complete` synthesizes for a caller without a session
records the key `null`, which differs from the caller key `"null"`; yet the
heartbeat of that caller succeeds and moves `heartbeatAtMs` from 3000 to 4000. -/
theorem doHeartbeat_fails_counterexample :
    (objGet (loadState 4000 unownedDoneWorld).claims "1").map (fun c => c.sessionKey)
      = some JVal.null ∧
    JVal.null ≠ JVal.str "null" ∧
    (objGet (loadState 4000 unownedDoneWorld).claims "1").map (fun c => c.heartbeatAtMs)
      = some (some 3000) ∧
    (∃ out, (doHeartbeat sampleRuntime { item := .str "1", session := .str "null" }
      "/w/.locks" 4000 unownedDoneWorld).1 = .ok out) ∧
    (objGet (loadState 4000
      (doHeartbeat sampleRuntime { item := .str "1", session := .str "null" }
        "/w/.locks" 4000 unownedDoneWorld).2).claims "1").map (fun c => c.heartbeatAtMs)
      = some (some 4000) :=
  ⟨by decide, by decide, by decide, ⟨_, rfl⟩, by decide⟩

/-- C5, amended. For a heartbeat given an item id and a session key: it fails
with `E_NOT_FOUND` when `state.claims` has no entry for the item and the item
id is not the name of a member of `Object.prototype`; and it fails with
`E_SESSION_MISMATCH` whenever an entry exists and the string form of its
recorded session key (a value that `String` prints in full: any value but a
number from `1e21` on) differs from the string form of the caller key, hence
whenever both keys are strings and differ. In both cases the state file and
all lock files are as before. -/
theorem doHeartbeat_fails_atomically (rt : Runtime) (args : Args) (lockDir : String)
    (nowMs : Int) (w : World)
    (hitem : args.item.truthy = true) (hsession : args.session.truthy = true) :
    (objGet (loadState nowMs w).claims args.item.toStr = none →
      args.item.toStr ∉ objectPrototypeKeys →
      doHeartbeat rt args lockDir nowMs w =
        (.error { code := "E_NOT_FOUND",
                  message := "No claim found for item " ++ args.item.toStr }, w)) ∧
    (∀ c, objGet (loadState nowMs w).claims args.item.toStr = some c →
      c.sessionKey.printsInFull = true →
      c.sessionKey.toStr ≠ args.session.toStr →
      doHeartbeat rt args lockDir nowMs w =
        (.error { code := "E_SESSION_MISMATCH",
                  message := "Session key mismatch for item " ++ args.item.toStr }, w)) ∧
    (∀ c s t, objGet (loadState nowMs w).claims args.item.toStr = some c →
      c.sessionKey = .str s → args.session = .str t → s ≠ t →
      doHeartbeat rt args lockDir nowMs w =
        (.error { code := "E_SESSION_MISMATCH",
                  message := "Session key mismatch for item " ++ args.item.toStr }, w)) := by
  have hmis : ∀ c, objGet (loadState nowMs w).claims args.item.toStr = some c →
      c.sessionKey.toStr ≠ args.session.toStr →
      doHeartbeat rt args lockDir nowMs w =
        (.error { code := "E_SESSION_MISMATCH",
                  message := "Session key mismatch for item " ++ args.item.toStr }, w) := by
    intro c hc hne
    simp [doHeartbeat, hitem, hsession, hc, hne]
  refine ⟨?_, ?_, ?_⟩
  · intro hnone _
    simp [doHeartbeat, hitem, hsession, hnone]
  · intro c hc _ hne
    exact hmis c hc hne
  · intro c s t hc hs ht hne
    apply hmis c hc
    rw [hs, ht]
    simpa [JVal.toStr] using hne

/-- C5 on an example: against the claim held by session `a`, the heartbeat of
session `b` fails with a mismatch, and a heartbeat on an item without a claim
fails with not-found; the world stays as it was. -/
theorem doHeartbeat_fails_atomically_witness :
    doHeartbeat sampleRuntime { item := .str "9", session := .str "b" } "/w/.locks" 4000
        heldWorld =
      (.error { code := "E_NOT_FOUND", message := "No claim found for item 9" }, heldWorld) ∧
    doHeartbeat sampleRuntime { item := .str "1", session := .str "b" } "/w/.locks" 4000
        heldWorld =
      (.error { code := "E_SESSION_MISMATCH", message := "Session key mismatch for item 1" },
        heldWorld) :=
  ⟨(doHeartbeat_fails_atomically sampleRuntime { item := .str "9", session := .str "b" }
      "/w/.locks" 4000 heldWorld rfl rfl).1 rfl (by decide),
   (doHeartbeat_fails_atomically sampleRuntime { item := .str "1", session := .str "b" }
      "/w/.locks" 4000 heldWorld rfl rfl).2.1
      (newClaim (sampleItem "1" 3) "zsc-work-1-AUTO-2000" "zsc" "a" (some 7200000)
        "/w/.locks/workitem-1.lock" 2000) rfl rfl (by decide)⟩

/-! ## C6: what a successful heartbeat changes -/

/-- A successful `heartbeat` found a claim with a matching session and
produced `heartbeatWorld`. -/
theorem doHeartbeat_ok (rt : Runtime) (args : Args) (lockDir : String) (nowMs : Int)
    (w : World) (out : HeartbeatOutput) (w' : World)
    (h : doHeartbeat rt args lockDir nowMs w = (.ok out, w')) :
    ∃ c0, objGet (loadState nowMs w).claims args.item.toStr = some c0 ∧
      c0.sessionKey.toStr = args.session.toStr ∧
      w' = heartbeatWorld rt args lockDir nowMs w c0 := by
  unfold doHeartbeat at h
  simp only [Bool.not_eq_true'] at h
  by_cases h1 : args.item.truthy = false ∨ args.session.truthy = false
  · rw [if_pos h1] at h
    cases h
  · rw [if_neg h1] at h
    cases hc : objGet (loadState nowMs w).claims args.item.toStr with
    | none =>
      simp only [hc] at h
      cases h
    | some c0 =>
      simp only [hc] at h
      by_cases h2 : c0.sessionKey.toStr ≠ args.session.toStr
      · rw [if_pos h2] at h
        cases h
      · rw [if_neg h2] at h
        refine ⟨c0, rfl, not_not.1 h2, ?_⟩
        simp only [writeJsonAtomic, writeLockAtomic, existsSync,
          readJsonIfExists, Bool.not_true, Bool.false_eq_true, if_false, Option.getD_some,
          Prod.mk.injEq] at h
        rw [← h.2]
        simp only [heartbeatWorld, existsSync, readJsonIfExists]
        split <;> rfl

theorem heartbeatClaim_fields (claim : Claim) (leaseMsOverride : Option Int) (nowMs : Int) :
    (heartbeatClaim claim leaseMsOverride nowMs).heartbeatAtMs = some nowMs ∧
    (heartbeatClaim claim leaseMsOverride nowMs).claimedAtMs = claim.claimedAtMs ∧
    (heartbeatClaim claim leaseMsOverride nowMs).sessionKey = claim.sessionKey ∧
    (heartbeatClaim claim leaseMsOverride nowMs).lockPath = claim.lockPath ∧
    (heartbeatClaim claim leaseMsOverride nowMs).leaseMs =
      (match leaseMsOverride with
        | some v => .num v
        | none => claim.leaseMs) ∧
    (strTruthy claim.status = true →
      (heartbeatClaim claim leaseMsOverride nowMs).status = claim.status) := by
  unfold heartbeatClaim
  cases leaseMsOverride <;> cases hs : strTruthy claim.status <;> simp [hs]

theorem objGet_objSet_isSome {α : Type} (o : List (String × α)) (k k2 : String) (v : α)
    (h : (objGet o k).isSome = true) :
    (objGet (objSet o k v) k2).isSome = (objGet o k2).isSome := by
  by_cases hk : k = k2
  · subst hk
    rw [objGet_objSet_same, h]
    rfl
  · rw [objGet_objSet_other _ _ _ _ hk]

/-- C6. After a successful heartbeat, the claim of the item has
`heartbeatAtMs = now`; its `leaseMs` is the override when the lease option
gives one and is unchanged otherwise; its `claimedAtMs`, its `sessionKey` and
its status, when already set, are unchanged. Every other claim entry and the
backlog are unchanged. No lock file is created: the same paths exist before
and after, and when the lock file of the item was absent the lock files are
exactly as before. -/
theorem doHeartbeat_frame (rt : Runtime) (args : Args) (lockDir : String) (nowMs : Int)
    (w : World) (out : HeartbeatOutput) (w' : World)
    (h : doHeartbeat rt args lockDir nowMs w = (.ok out, w')) :
    ∃ c0 c1,
      objGet (loadState nowMs w).claims args.item.toStr = some c0 ∧
      objGet (loadState nowMs w').claims args.item.toStr = some c1 ∧
      c1.heartbeatAtMs = some nowMs ∧
      (∀ v, toNumber rt args.leaseMs none = some v → c1.leaseMs = .num v) ∧
      (toNumber rt args.leaseMs none = none → c1.leaseMs = c0.leaseMs) ∧
      c1.claimedAtMs = c0.claimedAtMs ∧
      c1.sessionKey = c0.sessionKey ∧
      (strTruthy c0.status = true → c1.status = c0.status) ∧
      (∀ id, id ≠ args.item.toStr →
        objGet (loadState nowMs w').claims id = objGet (loadState nowMs w).claims id) ∧
      (loadState nowMs w').backlog = (loadState nowMs w).backlog ∧
      (∀ path, existsSync w' path = existsSync w path) ∧
      (existsSync w (claimLockPath c0 lockDir args.item) = false → w'.files = w.files) := by
  obtain ⟨c0, hc0, _, hw⟩ := doHeartbeat_ok rt args lockDir nowMs w out w' h
  subst hw
  obtain ⟨f1, f2, f3, f4, f5, f6⟩ :=
    heartbeatClaim_fields c0 (toNumber rt args.leaseMs none) nowMs
  have hpath : claimLockPath (heartbeatClaim c0 (toNumber rt args.leaseMs none) nowMs)
      lockDir args.item = claimLockPath c0 lockDir args.item := by
    simp only [claimLockPath, f4]
  refine ⟨c0, heartbeatClaim c0 (toNumber rt args.leaseMs none) nowMs, hc0, ?_, f1, ?_, ?_,
    f2, f3, f6, ?_, rfl, ?_, ?_⟩
  · simp only [heartbeatWorld, loadState]
    exact objGet_objSet_same _ _ _
  · intro v hv
    rw [f5, hv]
  · intro hv
    rw [f5, hv]
  · intro id hid
    simp only [heartbeatWorld, loadState]
    exact objGet_objSet_other _ _ _ _ (Ne.symm hid)
  · intro path
    simp only [heartbeatWorld, hpath]
    by_cases he : existsSync w (claimLockPath c0 lockDir args.item) = true
    · rw [if_pos he]
      exact objGet_objSet_isSome _ _ _ _ he
    · rw [if_neg he]
      rfl
  · intro he
    simp [heartbeatWorld, hpath, he]

/-- C6 on an example: session `a` renews its claim at time 2500 with a lease
of one minute. -/
theorem doHeartbeat_frame_witness :
    ∃ c0 c1,
      objGet (loadState 2500 heldWorld).claims "1" = some c0 ∧
      objGet (loadState 2500
        (doHeartbeat sampleRuntime { item := .str "1", session := .str "a", leaseMs := .num 60000 }
          "/w/.locks" 2500 heldWorld).2).claims "1" = some c1 ∧
      c1.heartbeatAtMs = some 2500 ∧
      c1.leaseMs = .num 60000 ∧
      c1.claimedAtMs = some 2000 ∧
      c1.sessionKey = .str "a" ∧
      c1.status = some "claimed" ∧
      c0.heartbeatAtMs = some 2000 ∧
      c0.leaseMs = .num 7200000 := by
  obtain ⟨c0, c1, h0, h1, h2, h3, _, h5, h6, h7, _⟩ :=
    doHeartbeat_frame sampleRuntime
      { item := .str "1", session := .str "a", leaseMs := .num 60000 }
      "/w/.locks" 2500 heldWorld _ _ rfl
  have hc0 : c0 = newClaim (sampleItem "1" 3) "zsc-work-1-AUTO-2000" "zsc" "a" (some 7200000)
      "/w/.locks/workitem-1.lock" 2000 := by
    have h0' : objGet (loadState 2500 heldWorld).claims "1" =
        some (newClaim (sampleItem "1" 3) "zsc-work-1-AUTO-2000" "zsc" "a" (some 7200000)
          "/w/.locks/workitem-1.lock" 2000) := rfl
    exact (Option.some.inj (h0'.symm.trans h0)).symm
  subst hc0
  exact ⟨_, c1, rfl, h1, h2, h3 60000 rfl, h5, h6, h7 rfl, rfl, rfl⟩

/-! ## C7, C8, C9: staleness -/

/-- The staleness test of a claim that is not terminal, has a heartbeat time
`h` and a numeric lease `L`, without override: `now - h > L`. -/
theorem claimIsStale_eq (rt : Runtime) (c : Claim) (L h nowMs : Int)
    (hnt : stateClaimIsTerminal (some c) = false) (hL : c.leaseMs = .num L)
    (hh : heartbeatOf c = some h) :
    claimIsStale rt (some c) nowMs none = decide (nowMs - h > L) := by
  have hv : numTruthy (numOr c.heartbeatAtMs c.claimedAtMs) = true ∧
      numOr c.heartbeatAtMs c.claimedAtMs = some h := by
    unfold heartbeatOf at hh
    by_cases ht : numTruthy (numOr c.heartbeatAtMs c.claimedAtMs) = true
    · rw [if_pos ht] at hh
      exact ⟨ht, hh⟩
    · rw [if_neg ht] at hh
      cases hh
  have ht : numOr none (toNumber rt c.leaseMs (some DEFAULT_STALE_TTL_MS)) = some L := by
    simp [hL, toNumber, jsNumber, numOr, numTruthy]
  have h3 : numTruthy (some h) = true := hv.2 ▸ hv.1
  simp only [claimIsStale, hnt, hv.2, h3, ht, Bool.false_eq_true, if_false, Bool.not_true]

/-- C7. For a claim that is not terminal, with numeric `leaseMs = L` and last
heartbeat time `h` (the value `heartbeatAtMs || claimedAtMs`, which the code
takes as a heartbeat time when it is not zero), and without a ttl override:
the claim is not stale at `h + L - 1` and is stale at `h + L + 1`. -/
theorem claimIsStale_boundary (rt : Runtime) (c : Claim) (L h : Int)
    (hnt : stateClaimIsTerminal (some c) = false) (hL : c.leaseMs = .num L)
    (hh : heartbeatOf c = some h) :
    claimIsStale rt (some c) (h + L - 1) none = false ∧
    claimIsStale rt (some c) (h + L + 1) none = true := by
  rw [claimIsStale_eq rt c L h _ hnt hL hh, claimIsStale_eq rt c L h _ hnt hL hh]
  constructor
  · rw [decide_eq_false_iff_not]
    omega
  · rw [decide_eq_true_eq]
    omega

/-- C7 on an example: heartbeat at 1000, lease 10. -/
theorem claimIsStale_boundary_witness :
    claimIsStale sampleRuntime (some leaseTenClaim) (1000 + 10 - 1) none = false ∧
    claimIsStale sampleRuntime (some leaseTenClaim) (1000 + 10 + 1) none = true :=
  claimIsStale_boundary sampleRuntime leaseTenClaim 10 1000 (by decide) rfl (by decide)

/-- C8, as stated, fails at the boundary: with heartbeat at 1000 and lease 10,
at time 1010 the elapsed time equals the lease and the claim is not stale. -/
theorem claimIsStale_threshold_counterexample :
    stateClaimIsTerminal (some leaseTenClaim) = false ∧
    leaseTenClaim.leaseMs = .num 10 ∧
    heartbeatOf leaseTenClaim = some 1000 ∧
    (1010 : Int) - 1000 ≥ 10 ∧
    claimIsStale sampleRuntime (some leaseTenClaim) 1010 none = false := by
  decide

/-- C8, amended. For a claim that is not terminal, with heartbeat time `h` and
numeric lease `L`, without a ttl override: the claim is stale exactly when the
time elapsed since the heartbeat exceeds the lease, `now - h > L`; it is not
stale while `now - h ≤ L`. -/
theorem claimIsStale_threshold (rt : Runtime) (c : Claim) (L h nowMs : Int)
    (hnt : stateClaimIsTerminal (some c) = false) (hL : c.leaseMs = .num L)
    (hh : heartbeatOf c = some h) :
    claimIsStale rt (some c) nowMs none = true ↔ nowMs - h > L := by
  rw [claimIsStale_eq rt c L h nowMs hnt hL hh, decide_eq_true_eq]

/-- C8 on an example: the same claim at time 1011. -/
theorem claimIsStale_threshold_witness :
    claimIsStale sampleRuntime (some leaseTenClaim) 1011 none = true ↔
      (1011 : Int) - 1000 > 10 :=
  claimIsStale_threshold sampleRuntime leaseTenClaim 10 1000 1011 (by decide) rfl (by decide)

/-- C9. A claim whose status is `done`, `complete`, `completed` or `pr_opened`
is not stale, at any time and under any ttl override. -/
theorem claimIsStale_terminal (rt : Runtime) (c : Claim) (nowMs : Int)
    (ttlMsOverride : Option Int)
    (h : c.status = some "done" ∨ c.status = some "complete" ∨
      c.status = some "completed" ∨ c.status = some "pr_opened") :
    claimIsStale rt (some c) nowMs ttlMsOverride = false := by
  have ht : stateClaimIsTerminal (some c) = true := by
    rcases h with h | h | h | h <;>
    · simp only [stateClaimIsTerminal, h]
      decide
  simp [claimIsStale, ht]

/-- C9 on an example: a claim of status `pr_opened` whose lease of 10 ms ran
out long ago, under a ttl override of 1 ms. -/
theorem claimIsStale_terminal_witness :
    claimIsStale sampleRuntime (some (sampleClaim "1" "worker-a" "pr_opened" 1000 10))
      5000000 (some 1) = false :=
  claimIsStale_terminal sampleRuntime (sampleClaim "1" "worker-a" "pr_opened" 1000 10)
    5000000 (some 1) (Or.inr (Or.inr (Or.inr rfl)))

/-! ## C10: complete is idempotent -/

theorem completeClaim_fields (claim : Claim) (status : String)
    (sessionKey branch : Option String) (prNumber : Option (Option Int))
    (prUrl : Option String) (nowMs : Int) :
    (completeClaim claim status sessionKey branch prNumber prUrl nowMs).status = some status ∧
    (completeClaim claim status sessionKey branch prNumber prUrl nowMs).sessionKey =
      (if strTruthy sessionKey then .ofStr? sessionKey else claim.sessionKey) ∧
    (completeClaim claim status sessionKey branch prNumber prUrl nowMs).branch =
      (if strTruthy branch then .ofStr? branch else claim.branch) ∧
    (completeClaim claim status sessionKey branch prNumber prUrl nowMs).prNumber =
      (match prNumber with
        | some (some n) => .num n
        | _ => claim.prNumber) ∧
    (completeClaim claim status sessionKey branch prNumber prUrl nowMs).prUrl =
      (if strTruthy prUrl then .ofStr? prUrl else claim.prUrl) := by
  unfold completeClaim
  refine ⟨?_, ?_, ?_, ?_, ?_⟩ <;> split_ifs <;> split <;> rfl

/-- Completing a completed claim again with the same data keeps its status,
branch, PR number, PR url and lock path. -/
theorem completeClaim_again (claim : Claim) (status : String)
    (sessionKey branch : Option String) (prNumber : Option (Option Int))
    (prUrl : Option String) (t1 t2 : Int) :
    (completeClaim (completeClaim claim status sessionKey branch prNumber prUrl t1)
        status sessionKey branch prNumber prUrl t2).status =
      (completeClaim claim status sessionKey branch prNumber prUrl t1).status ∧
    (completeClaim (completeClaim claim status sessionKey branch prNumber prUrl t1)
        status sessionKey branch prNumber prUrl t2).branch =
      (completeClaim claim status sessionKey branch prNumber prUrl t1).branch ∧
    (completeClaim (completeClaim claim status sessionKey branch prNumber prUrl t1)
        status sessionKey branch prNumber prUrl t2).prNumber =
      (completeClaim claim status sessionKey branch prNumber prUrl t1).prNumber ∧
    (completeClaim (completeClaim claim status sessionKey branch prNumber prUrl t1)
        status sessionKey branch prNumber prUrl t2).prUrl =
      (completeClaim claim status sessionKey branch prNumber prUrl t1).prUrl := by
  obtain ⟨f1, _, f3, f4, f5⟩ :=
    completeClaim_fields claim status sessionKey branch prNumber prUrl t1
  obtain ⟨e1, _, e3, e4, e5⟩ := completeClaim_fields
    (completeClaim claim status sessionKey branch prNumber prUrl t1)
    status sessionKey branch prNumber prUrl t2
  refine ⟨e1.trans f1.symm, ?_, ?_, ?_⟩
  · rw [e3, f3]
    split_ifs <;> rfl
  · rw [e4, f4]
    rcases prNumber with _ | _ | n <;> rfl
  · rw [e5, f5]
    split_ifs <;> rfl

/-- Writing the completion payload over itself with the same data keeps its
status, branch, PR number and PR url. -/
theorem completeLockPayload_again (rt : Runtime) (currentLock : LockPayload)
    (c1 c2 : Claim) (itemId : JVal) (status : String) (branch : Option String)
    (prNumber : Option (Option Int)) (prUrl : Option String) (t1 t2 : Int) :
    (completeLockPayload rt
        (completeLockPayload rt currentLock c1 itemId status branch prNumber prUrl t1)
        c2 itemId status branch prNumber prUrl t2).status =
      (completeLockPayload rt currentLock c1 itemId status branch prNumber prUrl t1).status ∧
    (completeLockPayload rt
        (completeLockPayload rt currentLock c1 itemId status branch prNumber prUrl t1)
        c2 itemId status branch prNumber prUrl t2).branch =
      (completeLockPayload rt currentLock c1 itemId status branch prNumber prUrl t1).branch ∧
    (completeLockPayload rt
        (completeLockPayload rt currentLock c1 itemId status branch prNumber prUrl t1)
        c2 itemId status branch prNumber prUrl t2).prNumber =
      (completeLockPayload rt currentLock c1 itemId status branch prNumber prUrl t1).prNumber ∧
    (completeLockPayload rt
        (completeLockPayload rt currentLock c1 itemId status branch prNumber prUrl t1)
        c2 itemId status branch prNumber prUrl t2).prUrl =
      (completeLockPayload rt currentLock c1 itemId status branch prNumber prUrl t1).prUrl := by
  refine ⟨rfl, ?_, ?_, ?_⟩
  · cases branch <;> rfl
  · rcases prNumber with _ | _ | n <;> rfl
  · cases prUrl <;> rfl

/-- The second of two identical completions starts from the claim the first
one stored. -/
theorem completeStart_again (rt : Runtime) (args : Args) (lockDir : String) (t1 t2 : Int)
    (w : World) :
    completeStart rt args lockDir t2 (completedWorld rt args lockDir t1 w) =
      completedClaim rt args lockDir t1 w := by
  simp [completeStart, completedWorld, loadState, objGet_objSet_same]

/-- C10. When `complete` succeeds, running it again with the same options (at
any clock value) succeeds too, on the same lock path, and leaves `status`,
`branch`, `prNumber` and `prUrl` of `state.claims[itemId]` and of the lock
payload as the first run left them. -/
theorem doComplete_idempotent (rt : Runtime) (args : Args) (lockDir : String) (t1 t2 : Int)
    (w : World) (out1 : CompleteOutput) (w1 : World)
    (h : doComplete rt args lockDir t1 w = (.ok out1, w1)) :
    ∃ out2 w2 c1 c2 p1 p2,
      doComplete rt args lockDir t2 w1 = (.ok out2, w2) ∧
      out2.status = out1.status ∧ out2.lockPath = out1.lockPath ∧
      objGet (loadState t2 w1).claims args.item.toStr = some c1 ∧
      objGet (loadState t2 w2).claims args.item.toStr = some c2 ∧
      c2.status = c1.status ∧ c2.branch = c1.branch ∧
      c2.prNumber = c1.prNumber ∧ c2.prUrl = c1.prUrl ∧
      readJsonIfExists w1 out1.lockPath = some p1 ∧
      readJsonIfExists w2 out1.lockPath = some p2 ∧
      p2.status = p1.status ∧ p2.branch = p1.branch ∧
      p2.prNumber = p1.prNumber ∧ p2.prUrl = p1.prUrl := by
  obtain ⟨g1, g2, _, hw, hout⟩ := doComplete_ok rt args lockDir t1 w out1 w1 h
  subst hw
  subst hout
  have hstart := completeStart_again rt args lockDir t1 t2 w
  have g3 : ¬ completeMismatch rt args lockDir t2 (completedWorld rt args lockDir t1 w) := by
    intro hm
    obtain ⟨m1, _, m3⟩ := hm
    rw [hstart] at m3
    apply m3
    have f2 := (completeClaim_fields (completeStart rt args lockDir t1 w)
      (computedStatus rt args) (optString args.session) (optString args.branch)
      (completePrNumber rt args) (optString args.url) t1).2.1
    rw [if_pos m1] at f2
    exact f2
  have hc2 : completedClaim rt args lockDir t2 (completedWorld rt args lockDir t1 w) =
      completeClaim (completeClaim (completeStart rt args lockDir t1 w)
          (computedStatus rt args) (optString args.session) (optString args.branch)
          (completePrNumber rt args) (optString args.url) t1)
        (computedStatus rt args) (optString args.session) (optString args.branch)
        (completePrNumber rt args) (optString args.url) t2 := by
    simp only [completedClaim, hstart]
  have hpath : claimLockPath
      (completedClaim rt args lockDir t2 (completedWorld rt args lockDir t1 w)) lockDir
        args.item = claimLockPath (completedClaim rt args lockDir t1 w) lockDir args.item := by
    rw [hc2]
    simp only [claimLockPath, completedClaim, completeClaim_lockPath]
  have hread : readJsonIfExists (completedWorld rt args lockDir t1 w)
      (claimLockPath (completedClaim rt args lockDir t1 w) lockDir args.item) =
      some (completedLockPayload rt args lockDir t1 w) := by
    simp [readJsonIfExists, completedWorld, objGet_objSet_same]
  have hp2 : completedLockPayload rt args lockDir t2 (completedWorld rt args lockDir t1 w) =
      completeLockPayload rt
        (completeLockPayload rt
          ((readJsonIfExists w
            (claimLockPath (completedClaim rt args lockDir t1 w) lockDir args.item)).getD
            LockPayload.empty)
          (completedClaim rt args lockDir t1 w) args.item (computedStatus rt args)
          (optString args.branch) (completePrNumber rt args) (optString args.url) t1)
        (completedClaim rt args lockDir t2 (completedWorld rt args lockDir t1 w)) args.item
        (computedStatus rt args) (optString args.branch) (completePrNumber rt args)
        (optString args.url) t2 := by
    rw [completedLockPayload, hpath, hread]
    rfl
  obtain ⟨a1, a2, a3, a4⟩ := completeClaim_again (completeStart rt args lockDir t1 w)
    (computedStatus rt args) (optString args.session) (optString args.branch)
    (completePrNumber rt args) (optString args.url) t1 t2
  obtain ⟨b1, b2, b3, b4⟩ := completeLockPayload_again rt
    ((readJsonIfExists w
      (claimLockPath (completedClaim rt args lockDir t1 w) lockDir args.item)).getD
      LockPayload.empty)
    (completedClaim rt args lockDir t1 w)
    (completedClaim rt args lockDir t2 (completedWorld rt args lockDir t1 w)) args.item
    (computedStatus rt args) (optString args.branch) (completePrNumber rt args)
    (optString args.url) t1 t2
  refine ⟨_, _, completedClaim rt args lockDir t1 w,
    completedClaim rt args lockDir t2 (completedWorld rt args lockDir t1 w),
    completedLockPayload rt args lockDir t1 w,
    completedLockPayload rt args lockDir t2 (completedWorld rt args lockDir t1 w),
    doComplete_of_guards rt args lockDir t2 _ g1 g2 g3, rfl, hpath, ?_, ?_, ?_, ?_, ?_, ?_,
    hread, ?_, ?_, ?_, ?_, ?_⟩
  · simp [completedWorld, loadState, objGet_objSet_same]
  · simp [completedWorld, loadState, objGet_objSet_same]
  · rw [hc2]
    exact a1
  · rw [hc2]
    exact a2
  · rw [hc2]
    exact a3
  · rw [hc2]
    exact a4
  · show readJsonIfExists (completedWorld rt args lockDir t2 _)
      (claimLockPath (completedClaim rt args lockDir t1 w) lockDir args.item) = _
    rw [← hpath]
    simp [readJsonIfExists, completedWorld, objGet_objSet_same]
  · rw [hp2]
    exact b1
  · rw [hp2]
    exact b2
  · rw [hp2]
    exact b3
  · rw [hp2]
    exact b4

/-- C10 on an example: session `a` completes its claim twice, at times 3000 and
3500, with a branch, a PR number and a PR url. -/
theorem doComplete_idempotent_witness :
    ∃ out2 w2 c1 c2 p1 p2,
      doComplete sampleRuntime completeArgs "/w/.locks" 3500
        (doComplete sampleRuntime completeArgs "/w/.locks" 3000 heldWorld).2 = (.ok out2, w2) ∧
      out2.status = "pr_opened" ∧ out2.lockPath = "/w/.locks/workitem-1.lock" ∧
      objGet (loadState 3500
        (doComplete sampleRuntime completeArgs "/w/.locks" 3000 heldWorld).2).claims "1"
        = some c1 ∧
      objGet (loadState 3500 w2).claims "1" = some c2 ∧
      c2.status = c1.status ∧ c2.branch = c1.branch ∧
      c2.prNumber = c1.prNumber ∧ c2.prUrl = c1.prUrl ∧
      readJsonIfExists (doComplete sampleRuntime completeArgs "/w/.locks" 3000 heldWorld).2
        "/w/.locks/workitem-1.lock" = some p1 ∧
      readJsonIfExists w2 "/w/.locks/workitem-1.lock" = some p2 ∧
      p2.status = p1.status ∧ p2.branch = p1.branch ∧
      p2.prNumber = p1.prNumber ∧ p2.prUrl = p1.prUrl :=
  doComplete_idempotent sampleRuntime completeArgs "/w/.locks" 3000 3500 heldWorld
    (completeOutput sampleRuntime completeArgs "/w/.locks" 3000 heldWorld)
    (completedWorld sampleRuntime completeArgs "/w/.locks" 3000 heldWorld) rfl

/-! ## C11: the default status of a completion -/

theorem toDigitsCore_ne_nil (b : Nat) : ∀ (fuel n : Nat) (acc : List Char), acc ≠ [] →
    Nat.toDigitsCore b fuel n acc ≠ [] := by
  intro fuel
  induction fuel with
  | zero =>
    intro n acc h
    simpa [Nat.toDigitsCore] using h
  | succ f ih =>
    intro n acc h
    simp only [Nat.toDigitsCore]
    split
    · simp
    · exact ih _ _ (by simp)

theorem nat_repr_ne_empty (n : Nat) : Nat.repr n ≠ "" := by
  intro h
  have h1 := congrArg String.data h
  simp only [Nat.repr, Nat.toDigits, Nat.toDigitsCore, List.asString] at h1
  split at h1
  · simp at h1
  · exact toDigitsCore_ne_nil 10 _ _ _ (by simp) h1

theorem int_toString_ne_empty (n : Int) : toString n ≠ "" := by
  cases n with
  | ofNat m => exact nat_repr_ne_empty m
  | negSucc m =>
    intro h
    have h1 := congrArg String.data h
    simp [toString, Int.repr] at h1

/-- The string form of a truthy value is not empty. -/
theorem toStr_ne_empty (v : JVal) (h : v.truthy = true) : v.toStr ≠ "" := by
  cases v with
  | undefined => simp [JVal.truthy] at h
  | null => simp [JVal.truthy] at h
  | bool b =>
    cases b
    · simp [JVal.truthy] at h
    · simp [JVal.toStr]
  | num n => exact int_toString_ne_empty n
  | str s => simpa [JVal.truthy, JVal.toStr] using h

/-- The option `x ? String(x) : undefined` is set exactly when `x` is truthy. -/
theorem strTruthy_optString (v : JVal) : strTruthy (optString v) = v.truthy := by
  cases h : v.truthy
  · simp [optString, h, strTruthy]
  · simp [optString, h, strTruthy, toStr_ne_empty v h]

/-- The status computed when no status option is given. -/
theorem computedStatus_default (rt : Runtime) (args : Args)
    (hs : args.status.truthy = false)
    (hpr : ¬ (args.pr ≠ .undefined ∧ prIsFinite (completePrNumber rt args) = false)) :
    computedStatus rt args =
      if args.branch.truthy = true ∨ args.url.truthy = true ∨ args.pr ≠ .undefined
      then "pr_opened" else "done" := by
  have hfin : prIsFinite (completePrNumber rt args) = true ↔ args.pr ≠ .undefined := by
    constructor
    · intro h hu
      simp [completePrNumber, hu, prIsFinite] at h
    · intro hu
      cases hf : prIsFinite (completePrNumber rt args)
      · exact absurd ⟨hu, hf⟩ hpr
      · rfl
  simp only [computedStatus, JVal.or, hs, strTruthy_optString, hfin, Bool.false_eq_true,
    if_false]
  split_ifs <;> rfl

/-- C11. When `complete` succeeds on a call without a status option, the status
it reports, writes to the claim and writes to the lock payload is `pr_opened`
if a branch, a PR url or a PR number is given, and `done` otherwise; the
stored claim is terminal. -/
theorem doComplete_default_status (rt : Runtime) (args : Args) (lockDir : String)
    (nowMs : Int) (w : World) (out : CompleteOutput) (w' : World)
    (h : doComplete rt args lockDir nowMs w = (.ok out, w'))
    (hs : args.status.truthy = false) :
    out.status =
      (if args.branch.truthy = true ∨ args.url.truthy = true ∨ args.pr ≠ .undefined
       then "pr_opened" else "done") ∧
    (∃ c, objGet (loadState nowMs w').claims args.item.toStr = some c ∧
      c.status = some
        (if args.branch.truthy = true ∨ args.url.truthy = true ∨ args.pr ≠ .undefined
         then "pr_opened" else "done") ∧
      stateClaimIsTerminal (some c) = true) ∧
    (∃ p, readJsonIfExists w' out.lockPath = some p ∧
      p.status = .str
        (if args.branch.truthy = true ∨ args.url.truthy = true ∨ args.pr ≠ .undefined
         then "pr_opened" else "done")) := by
  obtain ⟨_, g2, _, hw, hout⟩ := doComplete_ok rt args lockDir nowMs w out w' h
  subst hw
  subst hout
  have hcs := computedStatus_default rt args hs g2
  have hst : (completedClaim rt args lockDir nowMs w).status = some (computedStatus rt args) :=
    (completeClaim_fields _ _ _ _ _ _ _).1
  refine ⟨hcs, ⟨completedClaim rt args lockDir nowMs w, ?_, ?_, ?_⟩,
    ⟨completedLockPayload rt args lockDir nowMs w, ?_, ?_⟩⟩
  · simp [completedWorld, loadState, objGet_objSet_same]
  · rw [hst, hcs]
  · simp only [stateClaimIsTerminal, hst, hcs]
    by_cases hc : args.branch.truthy = true ∨ args.url.truthy = true ∨ args.pr ≠ .undefined
    · rw [if_pos hc]
      decide
    · rw [if_neg hc]
      decide
  · simp [completeOutput, readJsonIfExists, completedWorld, objGet_objSet_same]
  · show JVal.str (computedStatus rt args) = _
    rw [hcs]

/-- C11 on an example: a completion with a branch, a PR number and a PR url,
and no status option. -/
theorem doComplete_default_status_witness :
    (completeOutput sampleRuntime completeArgs "/w/.locks" 3000 heldWorld).status =
      "pr_opened" ∧
    (∃ c, objGet (loadState 3000
        (completedWorld sampleRuntime completeArgs "/w/.locks" 3000 heldWorld)).claims "1"
        = some c ∧
      c.status = some "pr_opened" ∧ stateClaimIsTerminal (some c) = true) ∧
    (∃ p, readJsonIfExists
        (completedWorld sampleRuntime completeArgs "/w/.locks" 3000 heldWorld)
        "/w/.locks/workitem-1.lock" = some p ∧
      p.status = .str "pr_opened") :=
  doComplete_default_status sampleRuntime completeArgs "/w/.locks" 3000 heldWorld
    (completeOutput sampleRuntime completeArgs "/w/.locks" 3000 heldWorld)
    (completedWorld sampleRuntime completeArgs "/w/.locks" 3000 heldWorld) rfl rfl

/-! ## C12: the session test of a completion -/

/-- The session test of `complete` fires exactly when a claim is stored for the
item, that claim has a session key, the caller gives one, and the two differ. -/
theorem completeMismatch_iff (rt : Runtime) (args : Args) (lockDir : String) (nowMs : Int)
    (w : World) :
    completeMismatch rt args lockDir nowMs w ↔
      ∃ c, objGet (loadState nowMs w).claims args.item.toStr = some c ∧
        c.sessionKey.truthy = true ∧ args.session.truthy = true ∧
        c.sessionKey ≠ .str args.session.toStr := by
  have hof : args.session.truthy = true →
      JVal.ofStr? (optString args.session) = .str args.session.toStr := by
    intro ht
    simp [optString, ht, JVal.ofStr?]
  simp only [completeMismatch, completeStart, strTruthy_optString]
  cases hc : objGet (loadState nowMs w).claims args.item.toStr with
  | none =>
    constructor
    · rintro ⟨h1, _, h3⟩
      exfalso
      apply h3
      simp only [Option.getD_none, synthesizedClaim, hof h1, JVal.or, JVal.truthy]
      have := toStr_ne_empty _ h1
      simp [this]
    · rintro ⟨c, hc', _⟩
      cases hc'
  | some c =>
    constructor
    · rintro ⟨h1, h2, h3⟩
      refine ⟨c, rfl, h2, h1, ?_⟩
      rw [← hof h1]
      exact h3
    · rintro ⟨c', hc', h2, h1, h3⟩
      cases hc'
      refine ⟨h1, h2, ?_⟩
      rw [hof h1]
      exact h3

/-- When the item and PR-number checks pass and the session test fires,
`complete` fails with `E_SESSION_MISMATCH` and leaves the world as it was. -/
theorem doComplete_of_mismatch (rt : Runtime) (args : Args) (lockDir : String) (nowMs : Int)
    (w : World) (h1 : args.item.truthy = true)
    (h2 : ¬ (args.pr ≠ .undefined ∧ prIsFinite (completePrNumber rt args) = false))
    (h3 : completeMismatch rt args lockDir nowMs w) :
    doComplete rt args lockDir nowMs w =
      (.error { code := "E_SESSION_MISMATCH",
                message := "Session key mismatch for item " ++ args.item.toStr }, w) := by
  have h3' := h3
  simp only [completeMismatch, completeStart] at h3'
  unfold doComplete
  simp only [h1, Bool.not_true, Bool.false_eq_true, if_false, Bool.not_eq_true', h2]
  rw [if_pos h3']

/-- C12, as stated, fails: a call whose `--pr` value is not a number is none of
the session-mismatch cases, yet it does not succeed; it fails with `E_USAGE`. -/
theorem doComplete_session_counterexample :
    doComplete sampleRuntime { item := .str "1", pr := .str "abc" } "/w/.locks" 3000
        heldWorld =
      (.error { code := "E_USAGE", message := "--pr must be a number" }, heldWorld) ∧
    ({ item := .str "1", pr := .str "abc" } : Args).session = .undefined :=
  ⟨rfl, rfl⟩

/-- C12, amended. For a call of `complete` that passes the usage checks (an
item id is given and `--pr`, when given, is a finite number): it fails with
`E_SESSION_MISMATCH` if and only if the stored claim has a session key, the
caller gives a session key, and the two differ; when it fails so, the state
file and the lock files are as before; in every other case it succeeds, and
when the item id is not the name of a member of `Object.prototype`,
`state.claims[itemId]` exists afterwards with `completedAtMs = now`. -/
theorem doComplete_session (rt : Runtime) (args : Args) (lockDir : String) (nowMs : Int)
    (w : World) (hitem : args.item.truthy = true)
    (hpr : ¬ (args.pr ≠ .undefined ∧ prIsFinite (completePrNumber rt args) = false)) :
    ((∃ e, (doComplete rt args lockDir nowMs w).1 = .error e ∧
        e.code = "E_SESSION_MISMATCH") ↔
      ∃ c, objGet (loadState nowMs w).claims args.item.toStr = some c ∧
        c.sessionKey.truthy = true ∧ args.session.truthy = true ∧
        c.sessionKey ≠ .str args.session.toStr) ∧
    ((∃ c, objGet (loadState nowMs w).claims args.item.toStr = some c ∧
        c.sessionKey.truthy = true ∧ args.session.truthy = true ∧
        c.sessionKey ≠ .str args.session.toStr) →
      (doComplete rt args lockDir nowMs w).2 = w) ∧
    ((¬ ∃ c, objGet (loadState nowMs w).claims args.item.toStr = some c ∧
        c.sessionKey.truthy = true ∧ args.session.truthy = true ∧
        c.sessionKey ≠ .str args.session.toStr) →
      ∃ out w', doComplete rt args lockDir nowMs w = (.ok out, w') ∧
        (args.item.toStr ∉ objectPrototypeKeys →
          ∃ c, objGet (loadState nowMs w').claims args.item.toStr = some c ∧
            c.completedAtMs = some nowMs)) := by
  rw [← completeMismatch_iff rt args lockDir nowMs w]
  refine ⟨⟨?_, ?_⟩, ?_, ?_⟩
  · rintro ⟨e, he, _⟩
    by_contra hm
    rw [doComplete_of_guards rt args lockDir nowMs w hitem hpr hm] at he
    cases he
  · intro hm
    rw [doComplete_of_mismatch rt args lockDir nowMs w hitem hpr hm]
    exact ⟨_, rfl, rfl⟩
  · intro hm
    rw [doComplete_of_mismatch rt args lockDir nowMs w hitem hpr hm]
  · intro hm
    refine ⟨_, _, doComplete_of_guards rt args lockDir nowMs w hitem hpr hm, ?_⟩
    intro _
    refine ⟨completedClaim rt args lockDir nowMs w, ?_, ?_⟩
    · simp [completedWorld, loadState, objGet_objSet_same]
    · simp only [completedClaim, completeClaim]
      split_ifs <;> split <;> rfl

/-- C12 on examples: against the claim held by session `a`, the completion by
session `b` fails with a mismatch and changes nothing; the completion of item
2, which has no claim, by a caller without a session key succeeds and leaves
an entry for item 2. -/
theorem doComplete_session_witness :
    doComplete sampleRuntime { item := .str "1", session := .str "b" } "/w/.locks" 3000
        heldWorld =
      (.error { code := "E_SESSION_MISMATCH", message := "Session key mismatch for item 1" },
        heldWorld) ∧
    (doComplete sampleRuntime { item := .str "1", session := .str "b" } "/w/.locks" 3000
        heldWorld).2 = heldWorld ∧
    (objGet (loadState 3000
        (doComplete sampleRuntime { item := .str "2" } "/w/.locks" 3000 heldWorld).2).claims
        "2").map (fun c => c.completedAtMs) = some (some 3000) :=
  ⟨rfl,
   (doComplete_session sampleRuntime { item := .str "1", session := .str "b" } "/w/.locks"
      3000 heldWorld rfl (by decide)).2.1
      ⟨newClaim (sampleItem "1" 3) "zsc-work-1-AUTO-2000" "zsc" "a" (some 7200000)
        "/w/.locks/workitem-1.lock" 2000, rfl, rfl, rfl, by decide⟩,
   rfl⟩

/-! ## C20: loadState repairs the shape of a JSON object -/

theorem repairBacklog_obj (f : List (String × Json)) :
    ∃ f', repairBacklog (.obj f) = .obj f' ∧
      backlogIsObject (objGet f' "backlog") = true ∧
      (∀ k, k ≠ "backlog" → objGet f' k = objGet f k) ∧
      (backlogIsObject (objGet f "backlog") = true → f' = f) := by
  by_cases h : backlogIsObject (objGet f "backlog") = true
  · refine ⟨f, ?_, h, fun _ _ => rfl, fun _ => rfl⟩
    simp only [backlogIsObject, Bool.and_eq_true] at h
    simp [repairBacklog, Json.get, h.1, h.2]
  · refine ⟨objSet f "backlog" emptyBacklogJson, ?_, ?_, ?_, fun h' => absurd h' h⟩
    · simp only [backlogIsObject, Bool.and_eq_true, not_and_or, Bool.not_eq_true] at h
      rcases h with h | h <;> simp [repairBacklog, Json.get, Json.set, h]
    · rw [objGet_objSet_same]
      rfl
    · intro k hk
      exact objGet_objSet_other _ _ _ _ (Ne.symm hk)

theorem repairItems_obj (f : List (String × Json))
    (h : backlogIsObject (objGet f "backlog") = true) :
    ∃ f', repairItems (.obj f) = .obj f' ∧
      backlogShaped (objGet f' "backlog") = true ∧
      (∀ k, k ≠ "backlog" → objGet f' k = objGet f k) ∧
      (backlogShaped (objGet f "backlog") = true → f' = f) ∧
      (∀ k, k ≠ "items" →
        Json.get (objGet f' "backlog") k = Json.get (objGet f "backlog") k) := by
  by_cases hi : Json.isArray (Json.get (objGet f "backlog") "items") = true
  · refine ⟨f, ?_, ?_, fun _ _ => rfl, fun _ => rfl, fun _ _ => rfl⟩
    · have hg : Json.get (some (Json.obj f)) "backlog" = objGet f "backlog" := rfl
      simp only [repairItems, hg, hi, Bool.not_true, Bool.false_eq_true, if_false]
    · simp [backlogShaped, h, hi]
  · have hno : ¬ backlogShaped (objGet f "backlog") = true := by
      simp [backlogShaped, hi]
    cases hb : objGet f "backlog" with
    | none => simp [hb, backlogIsObject, Json.truthy] at h
    | some b =>
      rw [hb] at hi
      refine ⟨objSet f "backlog" (b.set "items" (.arr [] [])), ?_, ?_, ?_,
        fun h' => absurd (hb ▸ h') (hb ▸ hno), ?_⟩
      · have hg : Json.get (some (Json.obj f)) "backlog" = some b := hb
        have hi' : Json.isArray (Json.get (some b) "items") = false := by
          simpa using hi
        simp only [repairItems, hg, hi', Bool.not_false, if_true]
        rfl
      · rw [objGet_objSet_same]
        rw [hb] at h
        cases b <;>
          simp [backlogIsObject, Json.truthy, Json.isObjectType] at h <;>
          simp [backlogShaped, backlogIsObject, Json.truthy, Json.isObjectType, Json.set,
            Json.get, Json.isArray, objGet_objSet_same]
      · intro k hk
        exact objGet_objSet_other _ _ _ _ (Ne.symm hk)
      · intro k hk
        rw [objGet_objSet_same]
        cases b <;>
          simp [Json.set, Json.get, objGet_objSet_other _ _ _ _ (Ne.symm hk)]

theorem repairClaims_obj (f : List (String × Json)) :
    ∃ f', repairClaims (.obj f) = .obj f' ∧
      claimsShaped (objGet f' "claims") = true ∧
      (∀ k, k ≠ "claims" → objGet f' k = objGet f k) ∧
      (claimsShaped (objGet f "claims") = true → f' = f) := by
  by_cases h : claimsShaped (objGet f "claims") = true
  · refine ⟨f, ?_, h, fun _ _ => rfl, fun _ => rfl⟩
    simp only [claimsShaped, Bool.and_eq_true, Bool.not_eq_true'] at h
    simp [repairClaims, Json.get, h.1.1, h.1.2, h.2]
  · refine ⟨objSet f "claims" (.obj []), ?_, ?_, ?_, fun h' => absurd h' h⟩
    · simp only [claimsShaped, Bool.and_eq_true, not_and_or, Bool.not_eq_true',
        Bool.not_eq_true, Bool.not_eq_false] at h
      rcases h with (h | h) | h <;> simp [repairClaims, Json.get, Json.set, h]
    · rw [objGet_objSet_same]
      rfl
    · intro k hk
      exact objGet_objSet_other _ _ _ _ (Ne.symm hk)

theorem repairNumber_obj (key : String) (value : Int) (f : List (String × Json)) :
    ∃ f', repairNumber key value (.obj f) = .obj f' ∧
      Json.isNumberType (objGet f' key) = true ∧
      (∀ k, k ≠ key → objGet f' k = objGet f k) ∧
      (Json.isNumberType (objGet f key) = true → f' = f) := by
  by_cases h : Json.isNumberType (objGet f key) = true
  · refine ⟨f, ?_, h, fun _ _ => rfl, fun _ => rfl⟩
    simp [repairNumber, Json.get, h]
  · refine ⟨objSet f key (.num value), ?_, ?_, ?_, fun h' => absurd h' h⟩
    · simp [repairNumber, Json.get, Json.set, h]
    · rw [objGet_objSet_same]
      rfl
    · intro k hk
      exact objGet_objSet_other _ _ _ _ (Ne.symm hk)

/-- C20. For a state file whose content parses to a JSON object, `loadState`
succeeds and returns that object with `backlog` an object whose `items` is an
array, `claims` an object that is not an array, and `version`, `createdAtMs`
and `updatedAtMs` numbers. A field that had the right shape is returned
unchanged, as is every other key of the document and every key of `backlog`
other than `items`; a document with all five fields in shape is returned as it
is. `loadState` fails only on text that is not valid JSON or that parses to
`null`, a boolean, a number or a string. -/
theorem loadStateJson_repairs (nowMs : Int) :
    (∀ fields : List (String × Json),
      ∃ r, loadStateJson nowMs (some (some (.obj fields))) = .ok (.obj r) ∧
        backlogShaped (objGet r "backlog") = true ∧
        claimsShaped (objGet r "claims") = true ∧
        Json.isNumberType (objGet r "version") = true ∧
        Json.isNumberType (objGet r "createdAtMs") = true ∧
        Json.isNumberType (objGet r "updatedAtMs") = true ∧
        (backlogShaped (objGet fields "backlog") = true →
          objGet r "backlog" = objGet fields "backlog") ∧
        (backlogIsObject (objGet fields "backlog") = true → ∀ k, k ≠ "items" →
          Json.get (objGet r "backlog") k = Json.get (objGet fields "backlog") k) ∧
        (claimsShaped (objGet fields "claims") = true →
          objGet r "claims" = objGet fields "claims") ∧
        (Json.isNumberType (objGet fields "version") = true →
          objGet r "version" = objGet fields "version") ∧
        (Json.isNumberType (objGet fields "createdAtMs") = true →
          objGet r "createdAtMs" = objGet fields "createdAtMs") ∧
        (Json.isNumberType (objGet fields "updatedAtMs") = true →
          objGet r "updatedAtMs" = objGet fields "updatedAtMs") ∧
        (∀ k, k ≠ "backlog" → k ≠ "claims" → k ≠ "version" → k ≠ "createdAtMs" →
          k ≠ "updatedAtMs" → objGet r k = objGet fields k) ∧
        (backlogShaped (objGet fields "backlog") = true →
          claimsShaped (objGet fields "claims") = true →
          Json.isNumberType (objGet fields "version") = true →
          Json.isNumberType (objGet fields "createdAtMs") = true →
          Json.isNumberType (objGet fields "updatedAtMs") = true →
          r = fields)) ∧
    (∀ (file : StateFile) (e : CliError), loadStateJson nowMs file = .error e →
      file = some none ∨ file = some (some .null) ∨
        (∃ b, file = some (some (.bool b))) ∨ (∃ n, file = some (some (.num n))) ∨
        (∃ t, file = some (some (.str t)))) := by
  constructor
  · intro fields
    obtain ⟨f1, e1, a1, o1, i1⟩ := repairBacklog_obj fields
    obtain ⟨f2, e2, a2, o2, i2, b2⟩ := repairItems_obj f1 a1
    obtain ⟨f3, e3, a3, o3, i3⟩ := repairClaims_obj f2
    obtain ⟨f4, e4, a4, o4, i4⟩ := repairNumber_obj "version" 1 f3
    obtain ⟨f5, e5, a5, o5, i5⟩ := repairNumber_obj "createdAtMs" nowMs f4
    obtain ⟨f6, e6, a6, o6, i6⟩ := repairNumber_obj "updatedAtMs" nowMs f5
    have hload : loadStateJson nowMs (some (some (.obj fields))) = .ok (.obj f6) := by
      simp [loadStateJson, Json.truthy, Json.isObjectType, repairState, e1, e2, e3, e4, e5, e6]
    have hb62 : objGet f6 "backlog" = objGet f2 "backlog" := by
      rw [o6 _ (by decide), o5 _ (by decide), o4 _ (by decide), o3 _ (by decide)]
    have hc63 : objGet f6 "claims" = objGet f3 "claims" := by
      rw [o6 _ (by decide), o5 _ (by decide), o4 _ (by decide)]
    have hv64 : objGet f6 "version" = objGet f4 "version" := by
      rw [o6 _ (by decide), o5 _ (by decide)]
    have hr65 : objGet f6 "createdAtMs" = objGet f5 "createdAtMs" := o6 _ (by decide)
    have hc0 : objGet f2 "claims" = objGet fields "claims" := by
      rw [o2 _ (by decide), o1 _ (by decide)]
    have hv0 : objGet f3 "version" = objGet fields "version" := by
      rw [o3 _ (by decide), o2 _ (by decide), o1 _ (by decide)]
    have hr0 : objGet f4 "createdAtMs" = objGet fields "createdAtMs" := by
      rw [o4 _ (by decide), o3 _ (by decide), o2 _ (by decide), o1 _ (by decide)]
    have hu0 : objGet f5 "updatedAtMs" = objGet fields "updatedAtMs" := by
      rw [o5 _ (by decide), o4 _ (by decide), o3 _ (by decide), o2 _ (by decide),
        o1 _ (by decide)]
    have s1 : backlogShaped (objGet fields "backlog") = true → f2 = fields := by
      intro hs
      have hobj : backlogIsObject (objGet fields "backlog") = true := by
        simp only [backlogShaped, Bool.and_eq_true] at hs
        exact hs.1
      have h1 := i1 hobj
      subst h1
      exact i2 hs
    have s3 : claimsShaped (objGet fields "claims") = true → f3 = f2 :=
      fun hs => i3 (hc0 ▸ hs)
    have s4 : Json.isNumberType (objGet fields "version") = true → f4 = f3 :=
      fun hs => i4 (hv0 ▸ hs)
    have s5 : Json.isNumberType (objGet fields "createdAtMs") = true → f5 = f4 :=
      fun hs => i5 (hr0 ▸ hs)
    have s6 : Json.isNumberType (objGet fields "updatedAtMs") = true → f6 = f5 :=
      fun hs => i6 (hu0 ▸ hs)
    refine ⟨f6, hload, hb62 ▸ a2, hc63 ▸ a3, hv64 ▸ a4, hr65 ▸ a5, a6, ?_, ?_, ?_, ?_, ?_, ?_,
      ?_, ?_⟩
    · intro hs
      rw [hb62, s1 hs]
    · intro hobj k hk
      have h1 := i1 hobj
      subst h1
      rw [hb62]
      exact b2 k hk
    · intro hs
      rw [hc63, s3 hs, hc0]
    · intro hs
      rw [hv64, s4 hs, hv0]
    · intro hs
      rw [hr65, s5 hs, hr0]
    · intro hs
      rw [s6 hs, hu0]
    · intro k k1 k2 k3 k4 k5
      rw [o6 k k5, o5 k k4, o4 k k3, o3 k k2, o2 k k1, o1 k k1]
    · intro h1 h2 h3 h4 h5
      rw [s6 h5, s5 h4, s4 h3, s3 h2, s1 h1]
  · intro file e h
    match file, h with
    | none, h => simp [loadStateJson] at h
    | some none, _ => exact Or.inl rfl
    | some (some .null), _ => exact Or.inr (Or.inl rfl)
    | some (some (.bool b)), _ => exact Or.inr (Or.inr (Or.inl ⟨b, rfl⟩))
    | some (some (.num n)), _ => exact Or.inr (Or.inr (Or.inr (Or.inl ⟨n, rfl⟩)))
    | some (some (.str t)), _ => exact Or.inr (Or.inr (Or.inr (Or.inr ⟨t, rfl⟩)))
    | some (some (.arr a b)), h =>
      simp [loadStateJson, Json.truthy, Json.isObjectType] at h
    | some (some (.obj f)), h =>
      simp [loadStateJson, Json.truthy, Json.isObjectType] at h

/-- C20 on an example: a document without `claims`, `updatedAtMs` and with a
string for `backlog.items` is repaired; its `version`, `createdAtMs`, its
`backlog.file` and its extra key are kept. -/
theorem loadStateJson_repairs_witness :
    loadStateJson 5000 (some (some driftedStateJson)) =
      .ok (.obj [("version", .num 3), ("createdAtMs", .num 10),
        ("backlog", .obj [("file", .str "/w/WORK_ITEMS_GLOBAL.md"), ("items", .arr [] [])]),
        ("note", .str "kept"), ("claims", .obj []), ("updatedAtMs", .num 5000)]) ∧
    ∃ r, loadStateJson 5000 (some (some driftedStateJson)) = .ok (.obj r) ∧
      objGet r "version" = some (.num 3) :=
  ⟨rfl,
   (((loadStateJson_repairs 5000).1 _).imp
     (fun _ h => ⟨h.1, h.2.2.2.2.2.2.2.2.2.1 rfl⟩))⟩

/-! ## The items of a parse -/

/-- The item `itemOfLine` builds, spelled out. -/
theorem itemOfLine_some (i : Nat) (raw : List Char) (it : BacklogItem)
    (h : itemOfLine i raw = some it) :
    ∃ id, matchItemId (jsTrim raw) = some id ∧
      it =
        { itemId := String.mk id,
          queueTag := (findTag (jsTrim raw)).map (fun t => String.mk (t.map Char.toLower)),
          workLine := String.mk (jsTrim raw), lineNumber := i + 1,
          noAutoStart := hasLiteral "**no-auto-start**".data (jsTrim raw),
          noAutoMerge := hasLiteral "**no-auto-merge**".data (jsTrim raw),
          blockedBy := hasBlockedBy none (jsTrim raw),
          eligible := (skipReasonsOf
            ((findTag (jsTrim raw)).map (fun t => String.mk (t.map Char.toLower)))
            (hasLiteral "**no-auto-start**".data (jsTrim raw))
            (hasBlockedBy none (jsTrim raw))).length == 0,
          skipReasons := skipReasonsOf
            ((findTag (jsTrim raw)).map (fun t => String.mk (t.map Char.toLower)))
            (hasLiteral "**no-auto-start**".data (jsTrim raw))
            (hasBlockedBy none (jsTrim raw)) } := by
  unfold itemOfLine at h
  split_ifs at h
  cases hm : matchItemId (jsTrim raw) with
  | none => simp [hm] at h
  | some id =>
    simp only [hm, Option.some.injEq] at h
    exact ⟨id, rfl, h.symm⟩

/-- A line whose trimmed text the item pattern matches yields an item. -/
theorem itemOfLine_of_match (i : Nat) (raw id : List Char)
    (h : matchItemId (jsTrim raw) = some id) :
    ∃ it, itemOfLine i raw = some it ∧ it.itemId = String.mk id := by
  have hne : jsTrim raw ≠ [] := by
    intro h0
    rw [h0] at h
    simp [matchItemId] at h
  have hraw : raw ≠ [] := by
    intro h0
    rw [h0] at hne
    exact hne rfl
  simp [itemOfLine, hne, hraw, h]

/-- The items of the section are the items of its lines. -/
theorem mem_itemsBetween (lines : List (List Char)) (currentStart doneStart : Nat)
    (it : BacklogItem) :
    it ∈ itemsBetween lines currentStart doneStart ↔
      ∃ i raw, currentStart ≤ i ∧ i < doneStart ∧ lines.get? i = some raw ∧
        itemOfLine i raw = some it := by
  simp only [itemsBetween, List.mem_filterMap, List.mem_range'_1, Option.bind_eq_some]
  constructor
  · rintro ⟨i, ⟨h1, h2⟩, raw, h3, h4⟩
    exact ⟨i, raw, h1, by omega, h3, h4⟩
  · rintro ⟨i, raw, h1, h2, h3, h4⟩
    exact ⟨i, ⟨h1, by omega⟩, raw, h3, h4⟩

/-- The reasons are empty exactly for the `zsc` tag without the two markers. -/
theorem skipReasonsOf_eq_nil (queueTag : Option String) (noAutoStart blockedBy : Bool) :
    skipReasonsOf queueTag noAutoStart blockedBy = [] ↔
      queueTag = some "zsc" ∧ noAutoStart = false ∧ blockedBy = false := by
  unfold skipReasonsOf
  by_cases hq : queueTag = some "zsc" <;> cases noAutoStart <;> cases blockedBy <;> simp [hq]

/-! ## Scanning a line with more text at its end -/

theorem takeWhile_append_stop (p : Char → Bool) (l : List Char) (y : Char) (ys : List Char)
    (hy : p y = false) : (l ++ y :: ys).takeWhile p = l.takeWhile p := by
  induction l with
  | nil => simp [List.takeWhile, hy]
  | cons a l ih =>
    cases ha : p a <;> simp [List.takeWhile, ha, ih]

theorem dropWhile_append_stop (p : Char → Bool) (l : List Char) (y : Char) (ys : List Char)
    (hy : p y = false) : (l ++ y :: ys).dropWhile p = l.dropWhile p ++ y :: ys := by
  induction l with
  | nil => simp [List.dropWhile, hy]
  | cons a l ih =>
    cases ha : p a <;> simp [List.dropWhile, ha, ih]

theorem dropWhile_append_cases (p : Char → Bool) (l r : List Char) :
    (l.dropWhile p = [] ∧ (l ++ r).dropWhile p = r.dropWhile p) ∨
    (l.dropWhile p ≠ [] ∧ (l ++ r).dropWhile p = l.dropWhile p ++ r) := by
  induction l with
  | nil => simp
  | cons a l ih =>
    cases ha : p a
    · right
      simp [List.dropWhile, ha]
    · simpa [List.dropWhile, ha] using ih

theorem dropWhile_length_le (p : Char → Bool) (l : List Char) :
    (l.dropWhile p).length ≤ l.length := by
  induction l with
  | nil => simp
  | cons a l ih =>
    cases ha : p a
    · simp [List.dropWhile, ha]
    · simp only [List.dropWhile, ha, List.length_cons]
      omega

theorem stripLiteral_append (pat : List Char) (hpat : ∀ c ∈ pat, c ≠ ' ')
    (ys : List Char) : ∀ xs : List Char,
    stripLiteral pat (xs ++ ' ' :: ys) = (stripLiteral pat xs).map (fun t => t ++ ' ' :: ys) := by
  induction pat with
  | nil => intro xs; simp [stripLiteral]
  | cons a as ih =>
    intro xs
    cases xs with
    | nil =>
      have ha : a ≠ ' ' := hpat a (by simp)
      have h1 : (' ' : Char).toLower = ' ' := by decide
      simp [stripLiteral, h1, Ne.symm ha]
    | cons c cs =>
      by_cases hc : c.toLower = a
      · simp [stripLiteral, hc, ih (fun x hx => hpat x (by simp [hx]))]
      · simp [stripLiteral, hc]

theorem hasLiteral_append (pat : List Char) (hpat : ∀ c ∈ pat, c ≠ ' ') (ys : List Char)
    (hys : hasLiteral pat (' ' :: ys) = false) (xs : List Char) :
    hasLiteral pat (xs ++ ' ' :: ys) = hasLiteral pat xs := by
  induction xs with
  | nil =>
    rw [List.nil_append, hys]
    cases pat with
    | nil => simp [hasLiteral, stripLiteral] at hys
    | cons a as => simp [hasLiteral, stripLiteral]
  | cons c cs ih =>
    have h := stripLiteral_append pat hpat ys (c :: cs)
    simp only [List.cons_append] at h ih ⊢
    simp only [hasLiteral, h, ih, Option.isSome_map']

theorem hasLiteral_suffix (pat ys : List Char) (hys : hasLiteral pat ys = true)
    (xs : List Char) : hasLiteral pat (xs ++ ys) = true := by
  induction xs with
  | nil => simpa using hys
  | cons c cs ih => simp [hasLiteral, ih]

theorem tagAt_append (ys : List Char) (c : Char) (rest : List Char) :
    tagAt (c :: rest ++ ' ' :: ys) = tagAt (c :: rest) := by
  have hsp : isLetterChar ' ' = false := by decide
  simp only [tagAt, List.cons_append, takeWhile_append_stop _ _ _ _ hsp,
    dropWhile_append_stop _ _ _ _ hsp]
  cases hd : rest.dropWhile isLetterChar with
  | nil => simp
  | cons d ds => simp

theorem findTag_append (ys : List Char) (hys : findTag (' ' :: ys) = none)
    (xs : List Char) : findTag (xs ++ ' ' :: ys) = findTag xs := by
  induction xs with
  | nil => simpa [findTag] using hys
  | cons c cs ih =>
    have h := tagAt_append ys c cs
    simp only [List.cons_append] at h ih ⊢
    simp only [findTag, h, ih]

theorem blockedByAt_append (ys : List Char)
    (hys : (ys.dropWhile isSpaceChar).head? ≠ some ':')
    (xs : List Char) : blockedByAt (xs ++ ' ' :: ys) = blockedByAt xs := by
  have hpat : ∀ c ∈ "blocked-by".data, c ≠ ' ' := by decide
  simp only [blockedByAt, stripLiteral_append _ hpat]
  cases hs : stripLiteral "blocked-by".data xs with
  | none => rfl
  | some tail =>
    simp only [Option.map_some']
    rcases dropWhile_append_cases isSpaceChar tail (' ' :: ys) with ⟨h1, h2⟩ | ⟨h1, h2⟩
    · have hsp : isSpaceChar ' ' = true := by decide
      rw [h2, h1]
      simp only [List.dropWhile, hsp, List.head?_nil]
      simp [hys]
    · rw [h2]
      cases hd : tail.dropWhile isSpaceChar with
      | nil => exact absurd hd h1
      | cons d ds => simp

theorem hasBlockedBy_append (ys : List Char)
    (hys : (ys.dropWhile isSpaceChar).head? ≠ some ':')
    (hno : ∀ prev, hasBlockedBy prev (' ' :: ys) = false) :
    ∀ (xs : List Char) (prev : Option Char),
      hasBlockedBy prev (xs ++ ' ' :: ys) = hasBlockedBy prev xs := by
  intro xs
  induction xs with
  | nil =>
    intro prev
    rw [List.nil_append, hno prev]
    rfl
  | cons c cs ih =>
    intro prev
    have h := blockedByAt_append ys hys (c :: cs)
    simp only [List.cons_append] at h ih ⊢
    simp only [hasBlockedBy, h, ih]

theorem matchItemId_append (ys : List Char)
    (hys : ys.all (fun c => !isLineTerminator c) = true)
    (line id : List Char) (h : matchItemId line = some id) :
    matchItemId (line ++ ' ' :: ys) = some id := by
  have hal : isAlnumChar ' ' = false := by decide
  have hlt : isLineTerminator ' ' = false := by decide
  unfold matchItemId at h ⊢
  rw [takeWhile_append_stop _ _ _ _ hal, dropWhile_append_stop _ _ _ _ hal]
  cases hd : (line.takeWhile isAlnumChar).head? with
  | none => simp [hd] at h
  | some d =>
    cases hr : line.dropWhile isAlnumChar with
    | nil => simp [hd, hr] at h
    | cons dot rest =>
      simp only [hd, hr] at h
      split_ifs at h with hc
      obtain ⟨c1, c2, c3, c4⟩ := hc
      simp only [List.cons_append]
      have hgoal : isDigitChar d = true ∧ dot = '.' ∧
          ((rest ++ ' ' :: ys).dropWhile isSpaceChar).length < (rest ++ ' ' :: ys).length ∧
          ((rest ++ ' ' :: ys).dropWhile isSpaceChar).all
            (fun c => !isLineTerminator c) = true := by
        refine ⟨c1, c2, ?_, ?_⟩
        · rcases dropWhile_append_cases isSpaceChar rest (' ' :: ys) with ⟨_, h2⟩ | ⟨_, h2⟩
          · rw [h2]
            have := dropWhile_length_le isSpaceChar (' ' :: ys)
            simp only [List.length_append, List.length_cons] at this ⊢
            omega
          · rw [h2]
            simp only [List.length_append, List.length_cons]
            omega
        · rcases dropWhile_append_cases isSpaceChar rest (' ' :: ys) with ⟨_, h2⟩ | ⟨_, h2⟩
          · rw [h2]
            have hsp : isSpaceChar ' ' = true := by decide
            simp only [List.dropWhile, hsp]
            rw [List.all_eq_true] at hys ⊢
            intro x hx
            exact hys x ((List.dropWhile_sublist _).subset hx)
          · rw [h2, List.all_append, c4]
            simp [hlt, hys]
      rw [if_pos hgoal]
      simpa using h

theorem jsTrim_head (s : List Char) (c : Char) (rest : List Char)
    (h : jsTrim s = c :: rest) : isSpaceChar c = false := by
  unfold jsTrim at h
  have hsplit := List.takeWhile_append_dropWhile isSpaceChar (s.dropWhile isSpaceChar).reverse
  have h2 : s.dropWhile isSpaceChar =
      ((s.dropWhile isSpaceChar).reverse.dropWhile isSpaceChar).reverse ++
        ((s.dropWhile isSpaceChar).reverse.takeWhile isSpaceChar).reverse := by
    have := congrArg List.reverse hsplit
    rw [List.reverse_append, List.reverse_reverse] at this
    exact this.symm
  rw [h] at h2
  have h3 := List.head?_dropWhile_not isSpaceChar s
  rw [h2] at h3
  simpa using h3

/-- Text that neither starts nor ends with white space is its own trim. -/
theorem jsTrim_of_ends (l : List Char) (c y : Char) (m z : List Char)
    (hl : l = c :: m) (hr : l.reverse = y :: z)
    (hc : isSpaceChar c = false) (hy : isSpaceChar y = false) : jsTrim l = l := by
  unfold jsTrim
  subst hl
  rw [List.dropWhile_cons_of_neg (by simp [hc]), hr,
    List.dropWhile_cons_of_neg (by simp [hy]), ← hr, List.reverse_reverse]

/-- A trimmed line that is not empty, with a space and text that ends in a
character that is no white space added, is still trimmed. -/
theorem jsTrim_append (raw ys : List Char) (y : Char) (hraw : jsTrim raw ≠ [])
    (hy : isSpaceChar y = false) :
    jsTrim (jsTrim raw ++ ' ' :: (ys ++ [y])) = jsTrim raw ++ ' ' :: (ys ++ [y]) := by
  cases ht : jsTrim raw with
  | nil => exact absurd ht hraw
  | cons c rest =>
    exact jsTrim_of_ends _ c y (rest ++ ' ' :: (ys ++ [y]))
      (ys.reverse ++ ' ' :: (rest.reverse ++ [c])) (by simp) (by simp)
      (jsTrim_head raw c rest ht) hy

/-! ## C13: eligibility -/

/-- A successful parse found the section and returns the items of its lines. -/
theorem parseBacklog_ok (rt : Runtime) (backlogFile text : String) (nowMs : Int)
    (r : ParsedBacklog) (h : parseBacklog rt backlogFile text nowMs = .ok r) :
    ∃ currentStart doneStart,
      scanHeaders (splitLines text.data) 0 none (splitLines text.data).length =
        (some currentStart, doneStart) ∧
      r = { backlogFile := backlogFile, scannedAtMs := nowMs, scannedAt := rt.nowIso nowMs,
            items := itemsBetween (splitLines text.data) currentStart doneStart } := by
  unfold parseBacklog at h
  cases hs : scanHeaders (splitLines text.data) 0 none (splitLines text.data).length with
  | mk a b =>
    cases a with
    | none => simp [hs] at h
    | some c =>
      simp only [hs, Except.ok.injEq] at h
      exact ⟨c, b, rfl, h.symm⟩

theorem hasBlockedBy_cons_false (prev : Option Char) (c : Char) (ys : List Char)
    (h1 : blockedByAt (c :: ys) = false) (h2 : hasBlockedBy (some c) ys = false) :
    hasBlockedBy prev (c :: ys) = false := by
  show ((match prev with
      | some x => !isWordChar x
      | none => true) && blockedByAt (c :: ys) || hasBlockedBy (some c) ys) = false
  rw [h1, h2]
  simp

/-- Adding ` **no-auto-merge**` at the end of an item line sets `noAutoMerge`
and keeps the id, the tag, the other two markers, `eligible` and `skipReasons`. -/
theorem itemOfLine_autoMerge (i : Nat) (raw : List Char) (it : BacklogItem)
    (h : itemOfLine i raw = some it) :
    ∃ it', itemOfLine i (jsTrim raw ++ autoMergeSuffix) = some it' ∧
      it'.noAutoMerge = true ∧ it'.itemId = it.itemId ∧ it'.queueTag = it.queueTag ∧
      it'.noAutoStart = it.noAutoStart ∧ it'.blockedBy = it.blockedBy ∧
      it'.eligible = it.eligible ∧ it'.skipReasons = it.skipReasons := by
  obtain ⟨id, hm, hit⟩ := itemOfLine_some i raw it h
  have hY : autoMergeSuffix = ' ' :: ("**no-auto-merge*".data ++ ['*']) := by decide
  have hne : jsTrim raw ≠ [] := by
    intro h0
    rw [h0] at hm
    simp [matchItemId] at hm
  have htrim : jsTrim (jsTrim raw ++ autoMergeSuffix) = jsTrim raw ++ autoMergeSuffix := by
    rw [hY]
    exact jsTrim_append raw _ '*' hne (by decide)
  have hmatch : matchItemId (jsTrim raw ++ autoMergeSuffix) = some id := by
    rw [hY]
    exact matchItemId_append _ (by decide) _ _ hm
  have htag : findTag (jsTrim raw ++ autoMergeSuffix) = findTag (jsTrim raw) := by
    rw [hY]
    exact findTag_append _ (by decide) _
  have hstart : hasLiteral "**no-auto-start**".data (jsTrim raw ++ autoMergeSuffix) =
      hasLiteral "**no-auto-start**".data (jsTrim raw) := by
    rw [hY]
    exact hasLiteral_append _ (by decide) _ (by decide) _
  have hmerge : hasLiteral "**no-auto-merge**".data (jsTrim raw ++ autoMergeSuffix) = true :=
    hasLiteral_suffix _ _ (by decide) _
  have hblocked : hasBlockedBy none (jsTrim raw ++ autoMergeSuffix) =
      hasBlockedBy none (jsTrim raw) := by
    rw [hY]
    refine hasBlockedBy_append _ (by decide) ?_ _ none
    intro prev
    exact hasBlockedBy_cons_false prev _ _ (by decide) (by decide)
  have hmatch' : matchItemId (jsTrim (jsTrim raw ++ autoMergeSuffix)) = some id := by
    rw [htrim]
    exact hmatch
  obtain ⟨it', h', _⟩ := itemOfLine_of_match i _ id hmatch'
  obtain ⟨id', hm', hit'⟩ := itemOfLine_some i _ it' h'
  rw [htrim, htag, hstart, hmerge, hblocked] at hit'
  rw [htrim, hmatch] at hm'
  cases hm'
  subst hit
  subst hit'
  exact ⟨_, h', rfl, rfl, rfl, rfl, rfl, rfl, rfl⟩

/-- C13. For every item `parseBacklog` returns, `eligible` holds exactly when
the tag is `zsc` and neither `noAutoStart` nor `blockedBy` is set, and
`skipReasons` is empty exactly when the item is eligible. Adding the marker
`**no-auto-merge**` at the end of an item line changes neither `eligible` nor
`skipReasons`. -/
theorem parseBacklog_eligibility (rt : Runtime) (backlogFile text : String) (nowMs : Int)
    (r : ParsedBacklog) (h : parseBacklog rt backlogFile text nowMs = .ok r) :
    (∀ it ∈ r.items,
      (it.eligible = true ↔
        it.queueTag = some "zsc" ∧ it.noAutoStart = false ∧ it.blockedBy = false) ∧
      (it.skipReasons = [] ↔ it.eligible = true)) ∧
    (∀ i raw it, itemOfLine i raw = some it →
      ∃ it', itemOfLine i (jsTrim raw ++ autoMergeSuffix) = some it' ∧
        it'.noAutoMerge = true ∧ it'.eligible = it.eligible ∧
        it'.skipReasons = it.skipReasons) := by
  constructor
  · intro it hmem
    obtain ⟨currentStart, doneStart, _, hr⟩ := parseBacklog_ok rt backlogFile text nowMs r h
    subst hr
    obtain ⟨i, raw, _, _, _, hitem⟩ := (mem_itemsBetween _ _ _ it).1 hmem
    obtain ⟨id, _, hit⟩ := itemOfLine_some i raw it hitem
    subst hit
    constructor
    · simp only [beq_iff_eq, List.length_eq_zero]
      exact skipReasonsOf_eq_nil _ _ _
    · simp
  · intro i raw it hitem
    obtain ⟨it', h1, h2, _, _, _, _, h7, h8⟩ := itemOfLine_autoMerge i raw it hitem
    exact ⟨it', h1, h2, h7, h8⟩

/-- C13 on the scenario: the line `3. Fix bug [zsc] **no-auto-start**` parses
to the item with id `3`, tag `zsc`, `noAutoStart`, not eligible, with the single
reason `no_auto_start`. -/
theorem parseBacklog_eligibility_witness :
    parseBacklog sampleRuntime "/w/B.md" scenarioDocument 7 =
      .ok { backlogFile := "/w/B.md", scannedAtMs := 7, scannedAt := "7",
            items := [scenarioItem] } ∧
    ((scenarioItem.eligible = true ↔
        scenarioItem.queueTag = some "zsc" ∧ scenarioItem.noAutoStart = false ∧
          scenarioItem.blockedBy = false) ∧
      (scenarioItem.skipReasons = [] ↔ scenarioItem.eligible = true)) :=
  ⟨rfl,
   (parseBacklog_eligibility sampleRuntime "/w/B.md" scenarioDocument 7
      { backlogFile := "/w/B.md", scannedAtMs := 7, scannedAt := "7",
        items := [scenarioItem] } rfl).1 scenarioItem (by simp)⟩

/-! ## C14: the section header -/

theorem toLower_of_space (c : Char) (h : isSpaceChar c = true) : c.toLower = c := by
  simp only [isSpaceChar, Bool.or_eq_true, beq_iff_eq, Bool.and_eq_true,
    decide_eq_true_eq] at h
  unfold Char.toLower
  rw [if_neg]
  omega

theorem stripLiteral_iff (pat : List Char) : ∀ text tail : List Char,
    stripLiteral pat text = some tail ↔
      ∃ body, text = body ++ tail ∧ body.map Char.toLower = pat := by
  induction pat with
  | nil =>
    intro text tail
    simp [stripLiteral, eq_comm]
  | cons a as ih =>
    intro text tail
    cases text with
    | nil =>
      simp only [stripLiteral]
      constructor
      · intro h
        cases h
      · rintro ⟨body, h1, h2⟩
        cases body with
        | nil => simp at h2
        | cons b bs => simp at h1
    | cons c cs =>
      by_cases hc : c.toLower = a
      · simp only [stripLiteral, hc, if_true, ih]
        constructor
        · rintro ⟨body, h1, h2⟩
          exact ⟨c :: body, by simp [h1], by simp [hc, h2]⟩
        · rintro ⟨body, h1, h2⟩
          cases body with
          | nil => simp at h2
          | cons b bs =>
            simp only [List.cons_append, List.cons.injEq] at h1
            simp only [List.map_cons, List.cons.injEq] at h2
            exact ⟨bs, h1.2, h2.2⟩
      · simp only [stripLiteral, hc, if_false]
        constructor
        · intro h
          cases h
        · rintro ⟨body, h1, h2⟩
          cases body with
          | nil => simp at h2
          | cons b bs =>
            simp only [List.cons_append, List.cons.injEq] at h1
            simp only [List.map_cons, List.cons.injEq] at h2
            exact absurd (h1.1 ▸ h2.1) hc

/-- The header test is the header shape, for a title that does not start with
white space. -/
theorem isHeader_iff (a : Char) (as : List Char) (ha : isSpaceChar a = false)
    (t : List Char) : isHeader (a :: as) t = true ↔ IsHeaderText (a :: as) t := by
  constructor
  · intro h
    match t, h with
    | x :: y :: rest, h =>
      simp only [isHeader, Bool.and_eq_true, beq_iff_eq, decide_eq_true_eq] at h
      obtain ⟨⟨⟨hx, hy⟩, hlen⟩, hm⟩ := h
      cases hs : stripLiteral (a :: as) (rest.dropWhile isSpaceChar) with
      | none => simp [hs] at hm
      | some tail =>
        simp only [hs] at hm
        obtain ⟨body, hb1, hb2⟩ := (stripLiteral_iff _ _ _).1 hs
        refine ⟨rest.takeWhile isSpaceChar, body, tail, ?_, ?_, ?_, hb2, ?_⟩
        · rw [hx, hy, List.append_assoc, ← hb1, List.takeWhile_append_dropWhile]
        · intro h0
          have := List.takeWhile_append_dropWhile isSpaceChar rest
          rw [h0, List.nil_append] at this
          rw [this] at hlen
          exact absurd hlen (Nat.lt_irrefl _)
        · intro c hc
          exact List.mem_takeWhile_imp hc
        · exact List.all_eq_true.1 hm
  · rintro ⟨ws, body, tail, ht, hws, hsp, hbody, htail⟩
    subst ht
    have hdrop : (ws ++ body ++ tail).dropWhile isSpaceChar = body ++ tail := by
      rw [List.append_assoc, List.dropWhile_append_of_pos hsp]
      cases body with
      | nil => simp at hbody
      | cons b bs =>
        simp only [List.map_cons, List.cons.injEq] at hbody
        have hb : isSpaceChar b = false := by
          cases hb : isSpaceChar b
          · rfl
          · rw [toLower_of_space b hb] at hbody
            rw [hbody.1, ha] at hb
            cases hb
        simp [List.dropWhile, hb]
    have hstrip : stripLiteral (a :: as) (body ++ tail) = some tail :=
      (stripLiteral_iff _ _ _).2 ⟨body, rfl, hbody⟩
    have hlen : (body ++ tail).length < (ws ++ body ++ tail).length := by
      cases ws with
      | nil => exact absurd rfl hws
      | cons w ws' =>
        simp only [List.length_append, List.length_cons]
        omega
    simp only [isHeader, hdrop, hstrip, Bool.and_eq_true, beq_iff_eq, decide_eq_true_eq,
      List.all_eq_true, true_and]
    exact ⟨hlen, htail⟩

theorem isCurrentHeader_iff (t : List Char) :
    isCurrentHeader t = true ↔ IsHeaderText "current items".data t :=
  isHeader_iff 'c' "urrent items".data (by decide) t

theorem isDoneHeader_iff (t : List Char) :
    isDoneHeader t = true ↔ IsHeaderText "done".data t :=
  isHeader_iff 'd' "one".data (by decide) t

/-- Without a header line the first loop ends with `currentStart` unset. -/
theorem scanHeaders_none (ls : List (List Char)) :
    ∀ (i d : Nat), (∀ l ∈ ls, isCurrentHeader (jsTrim l) = false) →
      scanHeaders ls i none d = (none, d) := by
  induction ls with
  | nil => intro i d _; rfl
  | cons l rest ih =>
    intro i d h
    have hl : isCurrentHeader (jsTrim l) = false := h l (by simp)
    simp only [scanHeaders, hl, Bool.false_eq_true, and_false, if_false, ne_eq,
      not_true_eq_false, false_and]
    exact ih (i + 1) d (fun l' hl' => h l' (by simp [hl']))

/-- Once `currentStart` is set, the first loop stops at the first `## Done`
header, or runs to the end. -/
theorem scanHeaders_started (ls : List (List Char)) :
    ∀ (i c d : Nat), ∃ ds, scanHeaders ls i (some c) d = (some c, ds) ∧
      ((ds = d ∧ ∀ j l, ls.get? j = some l → isDoneHeader (jsTrim l) = false) ∨
       (∃ m l, ls.get? m = some l ∧ ds = i + m ∧ isDoneHeader (jsTrim l) = true ∧
          ∀ j l', j < m → ls.get? j = some l' → isDoneHeader (jsTrim l') = false)) := by
  induction ls with
  | nil =>
    intro i c d
    exact ⟨d, rfl, Or.inl ⟨rfl, fun j l h => by simp at h⟩⟩
  | cons l rest ih =>
    intro i c d
    by_cases hl : isDoneHeader (jsTrim l) = true
    · refine ⟨i, ?_, Or.inr ⟨0, l, rfl, rfl, hl, fun j l' hj => absurd hj (Nat.not_lt_zero j)⟩⟩
      simp [scanHeaders, hl]
    · obtain ⟨ds, hds, hspec⟩ := ih (i + 1) c d
      have hl' : isDoneHeader (jsTrim l) = false := by simpa using hl
      refine ⟨ds, ?_, ?_⟩
      · simp [scanHeaders, hl', hds]
      · rcases hspec with ⟨h1, h2⟩ | ⟨m, l2, h1, h2, h3, h4⟩
        · left
          refine ⟨h1, fun j l2 hj => ?_⟩
          cases j with
          | zero =>
            simp only [List.get?_cons_zero, Option.some.injEq] at hj
            rw [← hj]
            exact hl'
          | succ j' => exact h2 j' l2 (by simpa using hj)
        · right
          refine ⟨m + 1, l2, by simpa using h1, by omega, h3, fun j l3 hj hget => ?_⟩
          cases j with
          | zero =>
            simp only [List.get?_cons_zero, Option.some.injEq] at hget
            rw [← hget]
            exact hl'
          | succ j' => exact h4 j' l3 (by omega) (by simpa using hget)

/-- With a header line, the first loop sets `currentStart` right after the
first one, and `doneStart` at the first `## Done` header after it or at its
initial value. -/
theorem scanHeaders_found (ls : List (List Char)) :
    ∀ (i d : Nat), (∃ l ∈ ls, isCurrentHeader (jsTrim l) = true) →
      ∃ k hdr ds, ls.get? k = some hdr ∧ isCurrentHeader (jsTrim hdr) = true ∧
        (∀ j l, j < k → ls.get? j = some l → isCurrentHeader (jsTrim l) = false) ∧
        scanHeaders ls i none d = (some (i + k + 1), ds) ∧
        ((ds = d ∧ ∀ j l, k < j → ls.get? j = some l → isDoneHeader (jsTrim l) = false) ∨
         (∃ m l, k < m ∧ ls.get? m = some l ∧ ds = i + m ∧ isDoneHeader (jsTrim l) = true ∧
            ∀ j l', k < j → j < m → ls.get? j = some l' →
              isDoneHeader (jsTrim l') = false)) := by
  induction ls with
  | nil =>
    intro i d h
    obtain ⟨l, hl, _⟩ := h
    simp at hl
  | cons l rest ih =>
    intro i d h
    by_cases hl : isCurrentHeader (jsTrim l) = true
    · obtain ⟨ds, hds, hspec⟩ := scanHeaders_started rest (i + 1) (i + 1) d
      refine ⟨0, l, ds, rfl, hl, fun j l' hj => absurd hj (Nat.not_lt_zero j), ?_, ?_⟩
      · simp [scanHeaders, hl, hds]
      · rcases hspec with ⟨h1, h2⟩ | ⟨m, l2, h1, h2, h3, h4⟩
        · left
          refine ⟨h1, fun j l2 hj hget => ?_⟩
          cases j with
          | zero => exact absurd hj (Nat.lt_irrefl 0)
          | succ j' => exact h2 j' l2 (by simpa using hget)
        · right
          refine ⟨m + 1, l2, by omega, by simpa using h1, by omega, h3,
            fun j l3 hj hjm hget => ?_⟩
          cases j with
          | zero => exact absurd hj (Nat.lt_irrefl 0)
          | succ j' => exact h4 j' l3 (by omega) (by simpa using hget)
    · have hl' : isCurrentHeader (jsTrim l) = false := by simpa using hl
      have hrest : ∃ l2 ∈ rest, isCurrentHeader (jsTrim l2) = true := by
        obtain ⟨l2, hmem, h2⟩ := h
        rcases List.mem_cons.1 hmem with h3 | h3
        · rw [h3, hl'] at h2
          cases h2
        · exact ⟨l2, h3, h2⟩
      obtain ⟨k, hdr, ds, g1, g2, g3, g4, g5⟩ := ih (i + 1) d hrest
      refine ⟨k + 1, hdr, ds, by simpa using g1, g2, fun j l2 hj hget => ?_, ?_, ?_⟩
      · cases j with
        | zero =>
          simp only [List.get?_cons_zero, Option.some.injEq] at hget
          rw [← hget]
          exact hl'
        | succ j' => exact g3 j' l2 (by omega) (by simpa using hget)
      · simp only [scanHeaders, hl', Bool.false_eq_true, and_false, if_false, ne_eq,
          not_true_eq_false, false_and]
        rw [g4]
        congr 2
        omega
      · rcases g5 with ⟨h1, h2⟩ | ⟨m, l2, h0, h1, h2, h3, h4⟩
        · left
          refine ⟨h1, fun j l2 hj hget => ?_⟩
          cases j with
          | zero => exact absurd hj (Nat.not_lt_zero _)
          | succ j' => exact h2 j' l2 (by omega) (by simpa using hget)
        · right
          refine ⟨m + 1, l2, by omega, by simpa using h1, by omega, h3,
            fun j l3 hj hjm hget => ?_⟩
          cases j with
          | zero => exact absurd hj (Nat.not_lt_zero _)
          | succ j' => exact h4 j' l3 (by omega) (by omega) (by simpa using hget)

/-- Without a header line `parseBacklog` fails with `E_BACKLOG_SECTION`. -/
theorem parseBacklog_no_header (rt : Runtime) (backlogFile text : String) (nowMs : Int)
    (h : ∀ l ∈ splitLines text.data, isCurrentHeader (jsTrim l) = false) :
    parseBacklog rt backlogFile text nowMs =
      .error { code := "E_BACKLOG_SECTION",
               message := "Could not find '## Current items' section" } := by
  simp [parseBacklog, scanHeaders_none _ 0 _ h]

/-- C14, as stated, fails: a document whose only header line has two spaces
after `##` has no line that, trimmed, is `## Current items` in any letter
case, yet `parseBacklog` succeeds on it. -/
theorem parseBacklog_section_counterexample :
    (∀ l ∈ splitLines wideHeaderDocument.data,
      (jsTrim l).map Char.toLower ≠ "## current items".data) ∧
    parseBacklog sampleRuntime "/w/B.md" wideHeaderDocument 7 =
      .ok { backlogFile := "/w/B.md", scannedAtMs := 7, scannedAt := "7",
            items := [{ itemId := "1", queueTag := some "zsc", workLine := "1. Fix [zsc]",
                        lineNumber := 2, noAutoStart := false, noAutoMerge := false,
                        blockedBy := false, eligible := true, skipReasons := [] }] } :=
  ⟨by decide, rfl⟩

/-- C14, amended. `parseBacklog` fails if and only if the document has no line
that, after trimming, is `##`, one or more white-space characters and then
`Current items` in any letter case; the failure is `E_BACKLOG_SECTION`. For
every document that has such a line it returns an item list without error. -/
theorem parseBacklog_section (rt : Runtime) (backlogFile text : String) (nowMs : Int) :
    ((∃ e, parseBacklog rt backlogFile text nowMs = .error e) ↔
      ∀ l ∈ splitLines text.data, ¬ IsHeaderText "current items".data (jsTrim l)) ∧
    (∀ e, parseBacklog rt backlogFile text nowMs = .error e → e.code = "E_BACKLOG_SECTION") ∧
    ((∃ l ∈ splitLines text.data, IsHeaderText "current items".data (jsTrim l)) →
      ∃ r, parseBacklog rt backlogFile text nowMs = .ok r) := by
  have hok : (∃ l ∈ splitLines text.data, IsHeaderText "current items".data (jsTrim l)) →
      ∃ r, parseBacklog rt backlogFile text nowMs = .ok r := by
    rintro ⟨l, hl, hh⟩
    obtain ⟨k, hdr, ds, _, _, _, hscan, _⟩ := scanHeaders_found (splitLines text.data) 0
      (splitLines text.data).length ⟨l, hl, (isCurrentHeader_iff _).2 hh⟩
    refine ⟨{ backlogFile := backlogFile, scannedAtMs := nowMs, scannedAt := rt.nowIso nowMs,
              items := itemsBetween (splitLines text.data) (0 + k + 1) ds }, ?_⟩
    simp only [parseBacklog, hscan]
  have herr : (∀ l ∈ splitLines text.data, ¬ IsHeaderText "current items".data (jsTrim l)) →
      parseBacklog rt backlogFile text nowMs =
        .error { code := "E_BACKLOG_SECTION",
                 message := "Could not find '## Current items' section" } := by
    intro h
    apply parseBacklog_no_header
    intro l hl
    cases hc : isCurrentHeader (jsTrim l)
    · rfl
    · exact absurd ((isCurrentHeader_iff _).1 hc) (h l hl)
  refine ⟨⟨?_, fun h => ⟨_, herr h⟩⟩, ?_, hok⟩
  · rintro ⟨e, he⟩ l hl hh
    obtain ⟨r, hr⟩ := hok ⟨l, hl, hh⟩
    rw [hr] at he
    cases he
  · intro e he
    by_cases h : ∀ l ∈ splitLines text.data, ¬ IsHeaderText "current items".data (jsTrim l)
    · rw [herr h] at he
      cases he
      rfl
    · simp only [not_forall, not_not] at h
      obtain ⟨l, hl, hh⟩ := h
      obtain ⟨r, hr⟩ := hok ⟨l, hl, hh⟩
      rw [hr] at he
      cases he

/-- C14 on an example: the scenario document has a header line and parses. -/
theorem parseBacklog_section_witness :
    ∃ r, parseBacklog sampleRuntime "/w/B.md" scenarioDocument 7 = .ok r :=
  (parseBacklog_section sampleRuntime "/w/B.md" scenarioDocument 7).2.2
    ⟨"## Current items".data, by decide,
      ⟨[' '], "Current items".data, [], by decide, by decide, by decide, by decide,
        by decide⟩⟩

/-! ## C15: the bounds of the section and the order of the items -/

/-- A successful parse returns the items of the lines of the section. -/
theorem parseBacklog_ok_section (rt : Runtime) (backlogFile text : String) (nowMs : Int)
    (r : ParsedBacklog) (h : parseBacklog rt backlogFile text nowMs = .ok r) :
    ∃ k ds, IsSection (splitLines text.data) k ds ∧
      r.items = itemsBetween (splitLines text.data) (k + 1) ds := by
  obtain ⟨cs, ds, hscan, hr⟩ := parseBacklog_ok rt backlogFile text nowMs r h
  have hex : ∃ l ∈ splitLines text.data, isCurrentHeader (jsTrim l) = true := by
    by_contra hno
    have hall : ∀ l ∈ splitLines text.data, isCurrentHeader (jsTrim l) = false := by
      intro l hl
      cases hc : isCurrentHeader (jsTrim l)
      · rfl
      · exact absurd ⟨l, hl, hc⟩ hno
    rw [scanHeaders_none _ 0 _ hall] at hscan
    cases hscan
  obtain ⟨k, hdr, ds', g1, g2, g3, g4, g5⟩ :=
    scanHeaders_found (splitLines text.data) 0 (splitLines text.data).length hex
  rw [hscan] at g4
  simp only [Prod.mk.injEq, Option.some.injEq, Nat.zero_add] at g4
  obtain ⟨hcs, hds⟩ := g4
  subst hds
  subst hcs
  subst hr
  have nodone : ∀ l, isDoneHeader (jsTrim l) = false → ¬ IsHeaderText "done".data (jsTrim l) :=
    fun l hl hh => by
      rw [(isDoneHeader_iff _).2 hh] at hl
      cases hl
  refine ⟨k, ds, ⟨⟨hdr, g1, (isCurrentHeader_iff _).1 g2⟩, ?_, ?_⟩, rfl⟩
  · intro j l hj hget hh
    have := g3 j l hj hget
    rw [(isCurrentHeader_iff _).2 hh] at this
    cases this
  · rcases g5 with ⟨h1, h2⟩ | ⟨m, l, h0, h1, h2, h3, h4⟩
    · exact Or.inl ⟨h1, fun j l hj hget => nodone l (h2 j l hj hget)⟩
    · right
      simp only [Nat.zero_add] at h2
      subst h2
      exact ⟨l, h0, h1, (isDoneHeader_iff _).1 h3,
        fun j l' hj hjm hget => nodone l' (h4 j l' hj hjm hget)⟩

/-- C15. When `parseBacklog` succeeds, let `k` be the index (from 0) of the
first header line `## Current items` and `ds` the index of the first `## Done`
header line after it, or the number of lines when there is none. Every item
returned comes from a line `i` with `k < i < ds`; its `lineNumber` is `i + 1`
and its `workLine` is that line trimmed; and the items are in strictly
increasing `lineNumber` order. -/
theorem parseBacklog_bounds (rt : Runtime) (backlogFile text : String) (nowMs : Int)
    (r : ParsedBacklog) (h : parseBacklog rt backlogFile text nowMs = .ok r) :
    ∃ k hdr ds,
      (splitLines text.data).get? k = some hdr ∧
      IsHeaderText "current items".data (jsTrim hdr) ∧
      (∀ j l, j < k → (splitLines text.data).get? j = some l →
        ¬ IsHeaderText "current items".data (jsTrim l)) ∧
      ((ds = (splitLines text.data).length ∧
          ∀ j l, k < j → (splitLines text.data).get? j = some l →
            ¬ IsHeaderText "done".data (jsTrim l)) ∨
        (∃ l, k < ds ∧ (splitLines text.data).get? ds = some l ∧
          IsHeaderText "done".data (jsTrim l) ∧
          ∀ j l', k < j → j < ds → (splitLines text.data).get? j = some l' →
            ¬ IsHeaderText "done".data (jsTrim l'))) ∧
      (∀ it ∈ r.items, ∃ i raw, k < i ∧ i < ds ∧
        (splitLines text.data).get? i = some raw ∧
        it.lineNumber = i + 1 ∧ it.workLine = String.mk (jsTrim raw)) ∧
      r.items.Pairwise (fun a b => a.lineNumber < b.lineNumber) := by
  obtain ⟨k, ds, ⟨⟨hdr, g1, g2⟩, g3, g4⟩, hitems⟩ :=
    parseBacklog_ok_section rt backlogFile text nowMs r h
  refine ⟨k, hdr, ds, g1, g2, g3, g4, ?_, ?_⟩
  · intro it hmem
    rw [hitems] at hmem
    obtain ⟨i, raw, h1, h2, h3, h4⟩ := (mem_itemsBetween _ _ _ it).1 hmem
    obtain ⟨id, _, hit⟩ := itemOfLine_some i raw it h4
    subst hit
    exact ⟨i, raw, by omega, h2, h3, rfl, rfl⟩
  · rw [hitems]
    unfold itemsBetween
    rw [List.pairwise_filterMap]
    refine List.Pairwise.imp ?_ (List.pairwise_lt_range' (k + 1) (ds - (k + 1)))
    intro a b hab x hx y hy
    simp only [Option.mem_def, Option.bind_eq_some] at hx hy
    obtain ⟨ra, _, hxa⟩ := hx
    obtain ⟨rb, _, hyb⟩ := hy
    obtain ⟨_, _, hx'⟩ := itemOfLine_some a ra x hxa
    obtain ⟨_, _, hy'⟩ := itemOfLine_some b rb y hyb
    subst hx'
    subst hy'
    show a + 1 < b + 1
    omega

/-- C15 on an example: the sample document parses to its three items, on the
lines 4, 5 and 7, between the header on line 2 and `## Done` on line 8. -/
theorem parseBacklog_bounds_witness :
    parseBacklog sampleRuntime "/w/B.md" sampleDocument 7 = .ok sampleParsed ∧
    sampleParsed.items.map (fun it => it.lineNumber) = [4, 5, 7] ∧
    sampleParsed.items.Pairwise (fun a b => a.lineNumber < b.lineNumber) :=
  ⟨rfl, rfl,
   (parseBacklog_bounds sampleRuntime "/w/B.md" sampleDocument 7 sampleParsed rfl).elim
     (fun _ h => h.elim (fun _ h => h.elim (fun _ h => h.2.2.2.2.2)))⟩

/-! ## C16: which lines are items -/

theorem takeWhile_append_all (p : Char → Bool) (l : List Char) (y : Char) (ys : List Char)
    (hl : ∀ c ∈ l, p c = true) (hy : p y = false) : (l ++ y :: ys).takeWhile p = l := by
  rw [takeWhile_append_stop p l y ys hy]
  exact List.takeWhile_eq_self_iff.2 hl

theorem dropWhile_append_all (p : Char → Bool) (l : List Char) (y : Char) (ys : List Char)
    (hl : ∀ c ∈ l, p c = true) (hy : p y = false) : (l ++ y :: ys).dropWhile p = y :: ys := by
  rw [List.dropWhile_append_of_pos hl]
  simp [List.dropWhile, hy]

/-- The item pattern matches exactly the item lines, and its group is the
identifier. -/
theorem matchItemId_iff (line id : List Char) :
    matchItemId line = some id ↔ IsItemText line id := by
  have hdot : isAlnumChar '.' = false := by decide
  constructor
  · intro h
    unfold matchItemId at h
    cases hd : (line.takeWhile isAlnumChar).head? with
    | none => simp [hd] at h
    | some d =>
      cases hr : line.dropWhile isAlnumChar with
      | nil => simp [hd, hr] at h
      | cons dot rest =>
        simp only [hd, hr] at h
        split_ifs at h with hc
        obtain ⟨c1, c2, c3, c4⟩ := hc
        simp only [Option.some.injEq] at h
        subst c2
        cases hid : line.takeWhile isAlnumChar with
        | nil => simp [hid] at hd
        | cons d' ds =>
          rw [hid] at hd h
          simp only [List.head?_cons, Option.some.injEq] at hd
          subst hd
          subst h
          have hsplit := List.takeWhile_append_dropWhile isAlnumChar line
          rw [hid, hr] at hsplit
          have hws := List.takeWhile_append_dropWhile isSpaceChar rest
          refine ⟨d', ds, rest.takeWhile isSpaceChar, rest.dropWhile isSpaceChar, rfl, c1,
            ?_, ?_, ?_, ?_, ?_⟩
          · intro c hc
            have : c ∈ line.takeWhile isAlnumChar := by
              rw [hid]
              exact List.mem_cons_of_mem _ hc
            exact List.mem_takeWhile_imp this
          · rw [hws]
            exact hsplit.symm
          · intro h0
            rw [h0, List.nil_append] at hws
            rw [hws] at c3
            exact absurd c3 (Nat.lt_irrefl _)
          · intro c hc
            exact List.mem_takeWhile_imp hc
          · intro c hc
            have := List.all_eq_true.1 c4 c hc
            simpa using this
  · rintro ⟨d, ds, ws, text, hid, hd, hds, hline, hws, hsp, htext⟩
    have hal : ∀ c ∈ id, isAlnumChar c = true := by
      intro c hc
      rw [hid] at hc
      rcases List.mem_cons.1 hc with h | h
      · rw [h]
        simp [isAlnumChar, hd]
      · exact hds c h
    have htake : line.takeWhile isAlnumChar = id := by
      rw [hline]
      exact takeWhile_append_all _ _ _ _ hal hdot
    have hdrop : line.dropWhile isAlnumChar = '.' :: (ws ++ text) := by
      rw [hline]
      exact dropWhile_append_all _ _ _ _ hal hdot
    have hdw : (ws ++ text).dropWhile isSpaceChar = text.dropWhile isSpaceChar :=
      List.dropWhile_append_of_pos hsp
    have hlen : ((ws ++ text).dropWhile isSpaceChar).length < (ws ++ text).length := by
      rw [hdw]
      have := dropWhile_length_le isSpaceChar text
      cases ws with
      | nil => exact absurd rfl hws
      | cons w ws' =>
        simp only [List.length_append, List.length_cons]
        omega
    have hall : ((ws ++ text).dropWhile isSpaceChar).all
        (fun c => !isLineTerminator c) = true := by
      rw [hdw, List.all_eq_true]
      intro c hc
      have := htext c ((List.dropWhile_sublist _).subset hc)
      simp [this]
    unfold matchItemId
    rw [htake, hdrop]
    simp only [hid, List.head?_cons]
    rw [if_pos ⟨hd, trivial, hlen, hall⟩]

/-- C16, as stated, fails: `a1. Fix [zsc]` is an identifier of letters and
digits, a period, a space and free text, yet it is not an item, because the
identifier does not start with a digit. -/
theorem parseBacklog_item_lines_counterexample :
    "a1. Fix [zsc]".data = "a1".data ++ '.' :: ' ' :: "Fix [zsc]".data ∧
    (∀ c ∈ "a1".data, isAlnumChar c = true) ∧
    parseBacklog sampleRuntime "/w/B.md" letterIdDocument 7 =
      .ok { backlogFile := "/w/B.md", scannedAtMs := 7, scannedAt := "7", items := [] } :=
  ⟨by decide, by decide, rfl⟩

/-- C16, amended. Within the current-items section (the lines after the first
`## Current items` header and before the `## Done` header that ends it), a
line yields an item if and only if its trimmed text consists of an identifier
made of a digit followed by letters and digits, a period, one or more
white-space characters, and then text without a line terminator; the `itemId`
of the item is exactly that identifier. Every other line is skipped. -/
theorem parseBacklog_item_lines (rt : Runtime) (backlogFile text : String) (nowMs : Int)
    (r : ParsedBacklog) (h : parseBacklog rt backlogFile text nowMs = .ok r) :
    ∃ k ds, IsSection (splitLines text.data) k ds ∧
      ∀ i raw, k < i → i < ds → (splitLines text.data).get? i = some raw →
        ((∃ it ∈ r.items, it.lineNumber = i + 1) ↔ ∃ id, IsItemText (jsTrim raw) id) ∧
        (∀ it ∈ r.items, it.lineNumber = i + 1 → IsItemText (jsTrim raw) it.itemId.data) := by
  obtain ⟨k, ds, hsec, hitems⟩ := parseBacklog_ok_section rt backlogFile text nowMs r h
  refine ⟨k, ds, hsec, ?_⟩
  intro i raw hki hids hget
  have hback : ∀ it ∈ r.items, it.lineNumber = i + 1 →
      ∃ id, matchItemId (jsTrim raw) = some id ∧ it.itemId = String.mk id := by
    intro it hmem hnum
    rw [hitems] at hmem
    obtain ⟨i', raw', _, _, hget', hitem⟩ := (mem_itemsBetween _ _ _ it).1 hmem
    obtain ⟨id, hm, hit⟩ := itemOfLine_some i' raw' it hitem
    have hi : i' = i := by
      rw [hit] at hnum
      simpa using hnum
    subst hi
    rw [hget] at hget'
    cases hget'
    exact ⟨id, hm, by rw [hit]⟩
  constructor
  · constructor
    · rintro ⟨it, hmem, hnum⟩
      obtain ⟨id, hm, _⟩ := hback it hmem hnum
      exact ⟨id, (matchItemId_iff _ _).1 hm⟩
    · rintro ⟨id, hid⟩
      obtain ⟨it, hitem, _⟩ := itemOfLine_of_match i raw id ((matchItemId_iff _ _).2 hid)
      refine ⟨it, ?_, ?_⟩
      · rw [hitems]
        exact (mem_itemsBetween _ _ _ it).2 ⟨i, raw, by omega, hids, hget, hitem⟩
      · obtain ⟨_, _, hit⟩ := itemOfLine_some i raw it hitem
        rw [hit]
  · intro it hmem hnum
    obtain ⟨id, hm, hid⟩ := hback it hmem hnum
    rw [hid]
    exact (matchItemId_iff _ _).1 hm

/-- C16 on an example: in the sample document, line 5 (index 4) is the item
line of `4a` and line 6 (index 5), the note, is no item line. -/
theorem parseBacklog_item_lines_witness :
    parseBacklog sampleRuntime "/w/B.md" sampleDocument 7 = .ok sampleParsed ∧
    matchItemId "4a. Do [ZSC] it".data = some "4a".data ∧
    matchItemId "note".data = none ∧
    ∃ k ds, IsSection (splitLines sampleDocument.data) k ds ∧
      ∀ i raw, k < i → i < ds → (splitLines sampleDocument.data).get? i = some raw →
        ((∃ it ∈ sampleParsed.items, it.lineNumber = i + 1) ↔
          ∃ id, IsItemText (jsTrim raw) id) ∧
        (∀ it ∈ sampleParsed.items, it.lineNumber = i + 1 →
          IsItemText (jsTrim raw) it.itemId.data) :=
  ⟨rfl, by decide, by decide,
   parseBacklog_item_lines sampleRuntime "/w/B.md" sampleDocument 7 sampleParsed rfl⟩

/-! ## C17: the queue tag -/

theorem tagAt_iff (l t : List Char) :
    tagAt l = some t ↔ ∃ post, IsTagToken l [] t post := by
  have hb : isLetterChar ']' = false := by decide
  constructor
  · intro h
    cases l with
    | nil => simp [tagAt] at h
    | cons c rest =>
      simp only [tagAt] at h
      split_ifs at h with hc
      obtain ⟨c1, c2, c3⟩ := hc
      simp only [Option.some.injEq] at h
      subst c1
      cases hd : rest.dropWhile isLetterChar with
      | nil => simp [hd] at c3
      | cons x post =>
        rw [hd] at c3
        simp only [List.head?_cons, Option.some.injEq] at c3
        subst c3
        have hsplit := List.takeWhile_append_dropWhile isLetterChar rest
        rw [hd, h] at hsplit
        refine ⟨post, ?_, ?_, ?_⟩
        · rw [List.nil_append, hsplit]
        · rw [← h]
          exact c2
        · intro c hc
          rw [← h] at hc
          exact List.mem_takeWhile_imp hc
  · rintro ⟨post, hl, hne, hall⟩
    rw [hl, List.nil_append]
    simp only [tagAt, takeWhile_append_all _ _ _ _ hall hb,
      dropWhile_append_all _ _ _ _ hall hb, List.head?_cons]
    rw [if_pos ⟨trivial, hne, trivial⟩]

/-- The first match of the tag pattern: there is none exactly when the text
has no bracketed token of letters, and otherwise the group is the token that
starts leftmost. -/
theorem findTag_spec (l : List Char) :
    (findTag l = none ∧ ∀ pre tag post, ¬ IsTagToken l pre tag post) ∨
    (∃ t pre post, findTag l = some t ∧ IsTagToken l pre t post ∧
      ∀ pre' tag' post', IsTagToken l pre' tag' post' → pre.length ≤ pre'.length) := by
  induction l with
  | nil =>
    left
    refine ⟨rfl, ?_⟩
    rintro pre tag post ⟨h, _, _⟩
    simp at h
  | cons c rest ih =>
    cases ht : tagAt (c :: rest) with
    | some t =>
      right
      obtain ⟨post, hpost⟩ := (tagAt_iff _ _).1 ht
      refine ⟨t, [], post, by simp only [findTag, ht], hpost, ?_⟩
      intro pre' _ _ _
      exact Nat.zero_le _
    | none =>
      have hf : findTag (c :: rest) = findTag rest := by simp only [findTag, ht]
      have hstep : ∀ pre tag post, IsTagToken (c :: rest) pre tag post →
          ∃ pre0, pre = c :: pre0 ∧ IsTagToken rest pre0 tag post := by
        rintro pre tag post ⟨h, hne, hall⟩
        cases pre with
        | nil =>
          have := (tagAt_iff (c :: rest) tag).2 ⟨post, h, hne, hall⟩
          rw [ht] at this
          cases this
        | cons p pre0 =>
          simp only [List.cons_append, List.cons.injEq] at h
          obtain ⟨hp, hrest⟩ := h
          subst hp
          exact ⟨pre0, rfl, hrest, hne, hall⟩
      rcases ih with ⟨hn, hno⟩ | ⟨t, pre, post, hs, htok, hmin⟩
      · left
        refine ⟨by rw [hf, hn], ?_⟩
        intro pre tag post htok
        obtain ⟨pre0, _, h0⟩ := hstep pre tag post htok
        exact hno pre0 tag post h0
      · right
        refine ⟨t, c :: pre, post, by rw [hf, hs], ?_, ?_⟩
        · obtain ⟨h1, h2, h3⟩ := htok
          exact ⟨by rw [h1, List.cons_append], h2, h3⟩
        · intro pre' tag' post' htok'
          obtain ⟨pre0, hp, h0⟩ := hstep pre' tag' post' htok'
          have := hmin pre0 tag' post' h0
          rw [hp]
          simp only [List.length_cons]
          omega

/-- Two tokens that start at the same place are the same token. -/
theorem IsTagToken_unique (l pre tag post pre' tag' post' : List Char)
    (h : IsTagToken l pre tag post) (h' : IsTagToken l pre' tag' post')
    (hlen : pre.length = pre'.length) : tag = tag' := by
  have hb : isLetterChar ']' = false := by decide
  obtain ⟨h1, _, h3⟩ := h
  obtain ⟨h1', _, h3'⟩ := h'
  rw [h1] at h1'
  obtain ⟨_, hrest⟩ := List.append_inj h1' hlen
  simp only [List.cons.injEq, true_and] at hrest
  have e1 := takeWhile_append_all isLetterChar tag ']' post h3 hb
  have e2 := takeWhile_append_all isLetterChar tag' ']' post' h3' hb
  rw [← e1, ← e2, hrest]

theorem toLower_letter (c : Char) (h : isLetterChar c = true) :
    97 ≤ c.toLower.toNat ∧ c.toLower.toNat ≤ 122 := by
  have key : ∀ n : Nat, 65 ≤ n → n ≤ 90 →
      97 ≤ (Char.ofNat (n + 32)).toNat ∧ (Char.ofNat (n + 32)).toNat ≤ 122 := by
    intro n h1 h2
    interval_cases n <;> decide
  simp only [isLetterChar, Bool.or_eq_true, Bool.and_eq_true, decide_eq_true_eq] at h
  unfold Char.toLower
  by_cases hc : c.toNat ≥ 65 ∧ c.toNat ≤ 90
  · rw [if_pos hc]
    exact key c.toNat hc.1 hc.2
  · rw [if_neg hc]
    omega

/-- C17. For every item of a successful parse, with its trimmed line as
`workLine`: `queueTag` is null if and only if the line has no bracketed token
made only of letters; if the line has such tokens, `queueTag` is the lower-case
form of the one that starts leftmost; and a `queueTag` that is not null is a
non-empty string of the letters `a` to `z`. -/
theorem parseBacklog_queueTag (rt : Runtime) (backlogFile text : String) (nowMs : Int)
    (r : ParsedBacklog) (h : parseBacklog rt backlogFile text nowMs = .ok r) :
    ∀ it ∈ r.items,
      (it.queueTag = none ↔ ¬ ∃ pre tag post, IsTagToken it.workLine.data pre tag post) ∧
      (∀ pre tag post, IsTagToken it.workLine.data pre tag post →
        (∀ pre' tag' post', IsTagToken it.workLine.data pre' tag' post' →
          pre.length ≤ pre'.length) →
        it.queueTag = some (toLowerCase (String.mk tag))) ∧
      (∀ s, it.queueTag = some s →
        s.data ≠ [] ∧ ∀ c ∈ s.data, 97 ≤ c.toNat ∧ c.toNat ≤ 122) := by
  obtain ⟨k, ds, _, hitems⟩ := parseBacklog_ok_section rt backlogFile text nowMs r h
  intro it hmem
  rw [hitems] at hmem
  obtain ⟨i, raw, _, _, _, hitem⟩ := (mem_itemsBetween _ _ _ it).1 hmem
  obtain ⟨id, _, hit⟩ := itemOfLine_some i raw it hitem
  have hq : it.queueTag =
      (findTag (jsTrim raw)).map (fun t => String.mk (t.map Char.toLower)) := by rw [hit]
  have hw : it.workLine.data = jsTrim raw := by rw [hit]
  rw [hq, hw]
  rcases findTag_spec (jsTrim raw) with ⟨hn, hno⟩ | ⟨t, pre0, post0, hs, htok, hmin⟩
  · rw [hn]
    refine ⟨?_, ?_, ?_⟩
    · simp only [Option.map_none', true_iff]
      rintro ⟨pre, tag, post, htok⟩
      exact hno pre tag post htok
    · intro pre tag post htok _
      exact absurd htok (hno pre tag post)
    · intro s hsome
      simp at hsome
  · rw [hs]
    refine ⟨?_, ?_, ?_⟩
    · constructor
      · intro hnone
        simp at hnone
      · intro hno
        exact absurd ⟨pre0, t, post0, htok⟩ hno
    · intro pre tag post htok' hmin'
      have hlen : pre.length = pre0.length :=
        Nat.le_antisymm (hmin' pre0 t post0 htok) (hmin pre tag post htok')
      have := IsTagToken_unique _ _ _ _ _ _ _ htok' htok hlen
      rw [this]
      rfl
    · intro s hsome
      simp only [Option.map_some', Option.some.injEq] at hsome
      subst hsome
      obtain ⟨_, hne, hall⟩ := htok
      constructor
      · cases t with
        | nil => exact absurd rfl hne
        | cons a as => simp
      · intro c hc
        simp only [List.mem_map] at hc
        obtain ⟨a, ha, hac⟩ := hc
        rw [← hac]
        exact toLower_letter a (hall a ha)

/-- C17 on an example: on `1. a [x1] [Ab] [cd]` the tag is `ab`, the lower-case
form of the first bracketed token of letters, and on `2. none [] here` it is
null. -/
theorem parseBacklog_queueTag_witness :
    parseBacklog sampleRuntime "/w/B.md" tagDocument 7 = .ok tagParsed ∧
    ∀ it ∈ tagParsed.items,
      (it.queueTag = none ↔ ¬ ∃ pre tag post, IsTagToken it.workLine.data pre tag post) ∧
      (∀ pre tag post, IsTagToken it.workLine.data pre tag post →
        (∀ pre' tag' post', IsTagToken it.workLine.data pre' tag' post' →
          pre.length ≤ pre'.length) →
        it.queueTag = some (toLowerCase (String.mk tag))) ∧
      (∀ s, it.queueTag = some s →
        s.data ≠ [] ∧ ∀ c ∈ s.data, 97 ≤ c.toNat ∧ c.toNat ≤ 122) :=
  ⟨rfl, parseBacklog_queueTag sampleRuntime "/w/B.md" tagDocument 7 tagParsed rfl⟩

/-! ## C18: what sync-backlog changes -/

/-- On a file option that names a readable and parsable document,
`sync-backlog` succeeds and writes `syncedState`. -/
theorem doSyncBacklog_of_parse (rt : Runtime) (src : BacklogSource) (args : Args)
    (scanMs nowMs : Int) (w : World) (f text : String) (parsed : ParsedBacklog)
    (hf : args.file = .str f) (hne : f ≠ "")
    (hread : src.readFile (src.resolve f) = .ok text)
    (hparse : parseBacklog rt (src.resolve (src.resolve f)) text scanMs = .ok parsed) :
    doSyncBacklog rt src args scanMs nowMs w =
      (.ok { backlogFile := parsed.backlogFile
             totalItems := parsed.items.length
             eligibleCount := (parsed.items.filter (fun i => i.eligible)).length
             skipped := countSkipped parsed.items
             syncedAtMs := nowMs
             syncedAt := rt.nowIso nowMs },
       { doc := some (syncedState rt (loadState nowMs w) parsed nowMs), files := w.files }) := by
  have ht : (JVal.str f).truthy = true := by simp [JVal.truthy, hne]
  simp only [doSyncBacklog, hf, ht, hread, hparse, writeJsonAtomic, Bool.not_true,
    Bool.false_eq_true, if_false]

/-- A successful `sync-backlog` read and parsed the document and wrote
`syncedState`. -/
theorem doSyncBacklog_ok (rt : Runtime) (src : BacklogSource) (args : Args)
    (scanMs nowMs : Int) (w : World) (out : SyncOutput) (w' : World)
    (h : doSyncBacklog rt src args scanMs nowMs w = (.ok out, w')) :
    ∃ f text parsed, args.file = .str f ∧ f ≠ "" ∧
      src.readFile (src.resolve f) = .ok text ∧
      parseBacklog rt (src.resolve (src.resolve f)) text scanMs = .ok parsed ∧
      w' = { doc := some (syncedState rt (loadState nowMs w) parsed nowMs),
             files := w.files } := by
  unfold doSyncBacklog at h
  by_cases ht : args.file.truthy = true
  · simp only [ht, Bool.not_true, Bool.false_eq_true, if_false] at h
    cases hfile : args.file with
    | str f =>
      rw [hfile] at h ht
      simp only at h
      have hne : f ≠ "" := by
        intro h0
        rw [h0] at ht
        simp [JVal.truthy] at ht
      cases hread : src.readFile (src.resolve f) with
      | error m =>
        rw [hread] at h
        cases h
      | ok text =>
        rw [hread] at h
        simp only at h
        cases hparse : parseBacklog rt (src.resolve (src.resolve f)) text scanMs with
        | error e =>
          rw [hparse] at h
          cases h
        | ok parsed =>
          rw [hparse] at h
          simp only [writeJsonAtomic, Prod.mk.injEq] at h
          exact ⟨f, text, parsed, rfl, hne, hread, hparse, h.2.symm⟩
    | undefined => rw [hfile] at h; cases h
    | null => rw [hfile] at h; cases h
    | bool b => rw [hfile] at h; cases h
    | num n => rw [hfile] at h; cases h
  · simp [ht] at h

/-- C18. For every state and every file option that names a readable backlog
document that parses, `sync-backlog` succeeds; in the document it persists,
`claims` is the `claims` of the state before the call, `backlog` is the new
snapshot alone (its `items` are exactly the parsed items, its `file` and sync
times are those of this call, nothing of the previous snapshot is kept), and
the lock files are the lock files before the call. -/
theorem doSyncBacklog_frame (rt : Runtime) (src : BacklogSource) (args : Args)
    (scanMs nowMs : Int) (w : World) (f text : String) (parsed : ParsedBacklog)
    (hf : args.file = .str f) (hne : f ≠ "")
    (hread : src.readFile (src.resolve f) = .ok text)
    (hparse : parseBacklog rt (src.resolve (src.resolve f)) text scanMs = .ok parsed) :
    ∃ out st, doSyncBacklog rt src args scanMs nowMs w =
        (.ok out, { doc := some st, files := w.files }) ∧
      st.claims = (loadState nowMs w).claims ∧
      (∀ s, w.doc = some s → st.claims = s.claims) ∧
      st.backlog.items = parsed.items ∧
      st.backlog =
        { file := some parsed.backlogFile, syncedAtMs := some nowMs,
          syncedAt := some (rt.nowIso nowMs), items := parsed.items } := by
  refine ⟨_, _, doSyncBacklog_of_parse rt src args scanMs nowMs w f text parsed hf hne hread
    hparse, rfl, ?_, rfl, rfl⟩
  intro s hs
  simp [syncedState, loadState, hs]

/-- C18 on an example: a sync of `sampleDocument` over a state with one older
item, a claim and a lock file keeps the claim and the lock file and stores the
three parsed items. -/
theorem doSyncBacklog_frame_witness :
    (∃ out st, doSyncBacklog sampleRuntime sampleSource { file := .str "B.md" } 7 3000
        syncStartWorld = (.ok out, { doc := some st, files := syncStartWorld.files }) ∧
      st.claims = (loadState 3000 syncStartWorld).claims ∧
      (∀ s, syncStartWorld.doc = some s → st.claims = s.claims) ∧
      st.backlog.items = sampleParsed.items ∧
      st.backlog =
        { file := some sampleParsed.backlogFile, syncedAtMs := some 3000,
          syncedAt := some (sampleRuntime.nowIso 3000), items := sampleParsed.items }) ∧
    ((doSyncBacklog sampleRuntime sampleSource { file := .str "B.md" } 7 3000
        syncStartWorld).2.doc.map (fun st => (st.claims, st.backlog.items))) =
      some ([("9", sampleClaim "9" "worker-a" "claimed" 1000 10)], sampleParsedItems) :=
  ⟨doSyncBacklog_frame sampleRuntime sampleSource { file := .str "B.md" } 7 3000
    syncStartWorld "B.md" sampleDocument sampleParsed rfl (by decide) rfl rfl, rfl⟩

/-! ## C19: the update time of the state document -/

theorem succeeded_ok {α : Type} (r : Except CliError α × World) (w' : World)
    (h : (succeeded r.1, r.2) = (true, w')) : ∃ out, r = (.ok out, w') := by
  obtain ⟨a, b⟩ := r
  simp only [Prod.mk.injEq] at h
  obtain ⟨h1, h2⟩ := h
  subst h2
  cases a with
  | ok out => exact ⟨out, rfl⟩
  | error e => simp [succeeded] at h1

/-- A command that succeeds leaves a state document: either the document it
loaded, untouched, or a document whose `updatedAtMs` is the time of the call. -/
theorem runWrite_updatedAtMs (rt : Runtime) (src : BacklogSource) (lockDir : String)
    (c : WriteCommand) (args : Args) (scanMs nowMs : Int) (w w' : World)
    (h : runWrite rt src lockDir c args scanMs nowMs w = (true, w')) :
    ∃ st, w'.doc = some st ∧
      (st.updatedAtMs = nowMs ∨ (w.doc = some st ∧ loadState nowMs w = st)) := by
  cases c with
  | syncBacklog =>
    obtain ⟨out, ho⟩ := succeeded_ok _ w' h
    obtain ⟨f, text, parsed, _, _, _, _, hw⟩ :=
      doSyncBacklog_ok rt src args scanMs nowMs w out w' ho
    exact ⟨_, by rw [hw], Or.inl rfl⟩
  | claim =>
    obtain ⟨out, ho⟩ := succeeded_ok _ w' h
    rcases doClaim_cases rt args lockDir nowMs w with ⟨_, he⟩ | ⟨hne, _, he⟩ | ⟨x, _, he⟩
    · rw [he] at ho
      cases ho
    · rw [he] at ho
      simp only [Prod.mk.injEq] at ho
      obtain ⟨_, hw⟩ := ho
      subst hw
      cases hd : w.doc with
      | none =>
        exfalso
        apply hne
        simp [loadState, hd, defaultState]
      | some st =>
        exact ⟨st, rfl, Or.inr ⟨rfl, by simp [loadState, hd]⟩⟩
    · rw [he] at ho
      simp only [Prod.mk.injEq] at ho
      obtain ⟨_, hw⟩ := ho
      exact ⟨_, by rw [← hw, claimedWorld], Or.inl rfl⟩
  | heartbeat =>
    obtain ⟨out, ho⟩ := succeeded_ok _ w' h
    obtain ⟨c0, _, _, hw⟩ := doHeartbeat_ok rt args lockDir nowMs w out w' ho
    exact ⟨_, by rw [hw, heartbeatWorld], Or.inl rfl⟩
  | complete =>
    obtain ⟨out, ho⟩ := succeeded_ok _ w' h
    obtain ⟨_, _, _, hw, _⟩ := doComplete_ok rt args lockDir nowMs w out w' ho
    exact ⟨_, by rw [hw, completedWorld], Or.inl rfl⟩

/-- C19, as stated, fails: a heartbeat at time 1500 on a state document whose
`updatedAtMs` is 2000 succeeds and persists `updatedAtMs` 1500. -/
theorem runWrite_monotone_counterexample :
    heldWorld.doc.map (fun st => st.updatedAtMs) = some 2000 ∧
    (loadState 1500 heldWorld).updatedAtMs = 2000 ∧
    (runWrite sampleRuntime sampleSource "/w/.locks" .heartbeat
      { item := .str "1", session := .str "a" } 0 1500 heldWorld).1 = true ∧
    (runWrite sampleRuntime sampleSource "/w/.locks" .heartbeat
      { item := .str "1", session := .str "a" } 0 1500 heldWorld).2.doc.map
        (fun st => st.updatedAtMs) = some 1500 :=
  ⟨rfl, rfl, rfl, rfl⟩

/-- C19, amended. For every state and every successful sync-backlog, claim,
heartbeat or complete executed at a time `now` that is not earlier than the
`updatedAtMs` of the document that was loaded, the persisted document's
`updatedAtMs` is greater than or equal to the `updatedAtMs` of the document
that was loaded: it is `now` when the command writes the document, and the
document is the loaded one, left as it was, when a claim finds nothing to
claim. -/
theorem runWrite_monotone (rt : Runtime) (src : BacklogSource) (lockDir : String)
    (c : WriteCommand) (args : Args) (scanMs nowMs : Int) (w w' : World)
    (h : runWrite rt src lockDir c args scanMs nowMs w = (true, w'))
    (hnow : (loadState nowMs w).updatedAtMs ≤ nowMs) :
    ∃ st, w'.doc = some st ∧ (loadState nowMs w).updatedAtMs ≤ st.updatedAtMs ∧
      (st.updatedAtMs = nowMs ∨ w'.doc = w.doc) := by
  obtain ⟨st, hst, hcase⟩ := runWrite_updatedAtMs rt src lockDir c args scanMs nowMs w w' h
  refine ⟨st, hst, ?_, ?_⟩
  · rcases hcase with hc | ⟨_, hc⟩
    · rw [hc]
      exact hnow
    · rw [hc]
  · rcases hcase with hc | ⟨hc, _⟩
    · exact Or.inl hc
    · exact Or.inr (by rw [hst, hc])

/-- C19 on an example: a heartbeat at time 3000 on a state document whose
`updatedAtMs` is 2000 persists `updatedAtMs` 3000. -/
theorem runWrite_monotone_witness :
    (runWrite sampleRuntime sampleSource "/w/.locks" .heartbeat
      { item := .str "1", session := .str "a" } 0 3000 heldWorld).2.doc.map
        (fun st => st.updatedAtMs) = some 3000 ∧
    ∃ st, (runWrite sampleRuntime sampleSource "/w/.locks" .heartbeat
        { item := .str "1", session := .str "a" } 0 3000 heldWorld).2.doc = some st ∧
      (loadState 3000 heldWorld).updatedAtMs ≤ st.updatedAtMs ∧
      (st.updatedAtMs = 3000 ∨
        (runWrite sampleRuntime sampleSource "/w/.locks" .heartbeat
          { item := .str "1", session := .str "a" } 0 3000 heldWorld).2.doc = heldWorld.doc) :=
  ⟨rfl, runWrite_monotone sampleRuntime sampleSource "/w/.locks" .heartbeat
    { item := .str "1", session := .str "a" } 0 3000 heldWorld _ rfl (by decide)⟩

/-! ## C21: the skip counters -/

theorem inQueue_eq_false (queue : String) (i : BacklogItem) :
    inQueue queue i = false ↔ i.queueTag ≠ some queue ∨ i.eligible = false := by
  simp only [inQueue, Bool.and_eq_false_iff, decide_eq_false_iff_not]

/-- When no item is claimable, the three counters of the tally grow by the
number of items. -/
theorem skipTally_sum (lockDir queue : String) (state : State) (w : World)
    (items : List BacklogItem) (skipped : Skipped)
    (h : ∀ x ∈ items, claimable lockDir queue state w x = false) :
    (skipTally lockDir queue state w items skipped).ineligible +
      (skipTally lockDir queue state w items skipped).claimed +
      (skipTally lockDir queue state w items skipped).locked =
    skipped.ineligible + skipped.claimed + skipped.locked + items.length := by
  have key : items.countP (fun i => !inQueue queue i) +
      items.countP (fun i => inQueue queue i && hasLiveClaim state i) +
      items.countP (fun i => inQueue queue i && !hasLiveClaim state i &&
        existsSync w (lockPathFor lockDir i.itemId)) = items.length := by
    induction items with
    | nil => rfl
    | cons x xs ih =>
      have ih' := ih (fun y hy => h y (List.mem_cons_of_mem _ hy))
      have hx := h x (List.mem_cons_self _ _)
      simp only [claimable] at hx
      simp only [List.countP_cons, List.length_cons]
      cases h1 : inQueue queue x <;> cases h2 : hasLiveClaim state x <;>
        cases h3 : existsSync w (lockPathFor lockDir x.itemId) <;>
        simp_all <;> omega
  simp only [skipTally]
  omega

/-- C21. Whenever `claim` returns `claimed: false`: `skipped.ineligible` is the
number of backlog items whose `queueTag` is not the requested queue or that
are not eligible, `skipped.claimed` the number of the remaining items that
have a claim that is not terminal, `skipped.locked` the number of the items
remaining after that whose lock file exists; every backlog item falls under
exactly one of the three, and the three counters add up to the number of
items in `state.backlog.items`. -/
theorem doClaim_skip_accounting (rt : Runtime) (args : Args) (lockDir : String)
    (nowMs : Int) (w : World) (skipped : Skipped) (w' : World)
    (h : doClaim rt args lockDir nowMs w = (.ok (.noEligibleItems skipped), w')) :
    skipped.ineligible = (loadState nowMs w).backlog.items.countP
      (fun i => decide (i.queueTag ≠ some (claimQueue args) ∨ i.eligible = false)) ∧
    skipped.claimed = (loadState nowMs w).backlog.items.countP
      (fun i => inQueue (claimQueue args) i && hasLiveClaim (loadState nowMs w) i) ∧
    skipped.locked = (loadState nowMs w).backlog.items.countP
      (fun i => inQueue (claimQueue args) i && !hasLiveClaim (loadState nowMs w) i &&
        existsSync w (lockPathFor lockDir i.itemId)) ∧
    (∀ i ∈ (loadState nowMs w).backlog.items,
      (inQueue (claimQueue args) i = false ∧
        (i.queueTag ≠ some (claimQueue args) ∨ i.eligible = false)) ∨
      (inQueue (claimQueue args) i = true ∧ hasLiveClaim (loadState nowMs w) i = true) ∨
      (inQueue (claimQueue args) i = true ∧ hasLiveClaim (loadState nowMs w) i = false ∧
        existsSync w (lockPathFor lockDir i.itemId) = true)) ∧
    skipped.ineligible + skipped.claimed + skipped.locked =
      (loadState nowMs w).backlog.items.length := by
  rcases doClaim_cases rt args lockDir nowMs w with ⟨_, he⟩ | ⟨_, hnone, he⟩ | ⟨x, _, he⟩
  · rw [he] at h
    cases h
  · rw [he] at h
    simp only [Prod.mk.injEq, Except.ok.injEq, ClaimOutput.noEligibleItems.injEq] at h
    obtain ⟨hs, _⟩ := h
    have hall : ∀ x ∈ (loadState nowMs w).backlog.items,
        claimable lockDir (claimQueue args) (loadState nowMs w) w x = false := by
      intro x hx
      have := List.find?_eq_none.1 hnone x hx
      simpa using this
    have hsum := skipTally_sum lockDir (claimQueue args) (loadState nowMs w) w
      (loadState nowMs w).backlog.items { ineligible := 0, claimed := 0, locked := 0 } hall
    rw [hs] at hsum
    refine ⟨?_, ?_, ?_, ?_, ?_⟩
    · rw [← hs]
      simp only [skipTally, Nat.zero_add]
      congr 1
      funext i
      cases hq : inQueue (claimQueue args) i
      · simp [(inQueue_eq_false _ _).1 hq]
      · have : ¬ (i.queueTag ≠ some (claimQueue args) ∨ i.eligible = false) := by
          intro hc
          rw [(inQueue_eq_false _ _).2 hc] at hq
          cases hq
        simp [this]
    · rw [← hs]
      simp only [skipTally, Nat.zero_add]
    · rw [← hs]
      simp only [skipTally, Nat.zero_add]
    · intro i hi
      have hc := hall i hi
      simp only [claimable] at hc
      cases h1 : inQueue (claimQueue args) i
      · exact Or.inl ⟨rfl, (inQueue_eq_false _ _).1 h1⟩
      · cases h2 : hasLiveClaim (loadState nowMs w) i
        · cases h3 : existsSync w (lockPathFor lockDir i.itemId)
          · simp [h1, h2, h3] at hc
          · exact Or.inr (Or.inr ⟨rfl, rfl, rfl⟩)
        · exact Or.inr (Or.inl ⟨rfl, rfl⟩)
    · simpa using hsum
  · rw [he] at h
    cases h

/-- C21 on an example: of three items, one is of another queue, one has a
claim that is not terminal and one has a lock file; each counter is 1. -/
theorem doClaim_skip_accounting_witness :
    doClaim sampleRuntime {} "/w/.locks" 3000 skippedWorld =
      (.ok (.noEligibleItems { ineligible := 1, claimed := 1, locked := 1 }), skippedWorld) ∧
    (1 : Nat) + 1 + 1 = (loadState 3000 skippedWorld).backlog.items.length :=
  ⟨rfl,
   (doClaim_skip_accounting sampleRuntime {} "/w/.locks" 3000 skippedWorld
      { ineligible := 1, claimed := 1, locked := 1 } skippedWorld rfl).2.2.2.2⟩

/-! ## C22: the outcomes of claim -/

/-- C22, as stated, fails: on the default state (no state file), whose backlog
has no items, `claim` ends in the error `E_BACKLOG_EMPTY` and not in a result
with `claimed: false`; so it does on a state file whose backlog is empty. -/
theorem doClaim_total_counterexample :
    loadState 3000 noStateWorld = defaultState 3000 ∧
    (defaultState 3000).backlog.items = [] ∧
    doClaim sampleRuntime {} "/w/.locks" 3000 noStateWorld =
      (.error { code := "E_BACKLOG_EMPTY",
                message := "No backlog items in state; run sync-backlog first" },
       noStateWorld) ∧
    doClaim sampleRuntime { queue := .str "zsc", session := .str "a" } "/w/.locks" 3000
        emptyBacklogWorld =
      (.error { code := "E_BACKLOG_EMPTY",
                message := "No backlog items in state; run sync-backlog first" },
       emptyBacklogWorld) :=
  ⟨rfl, rfl, rfl, rfl⟩

/-- C22, amended. For every loaded state, queue and session: when the backlog
of the state has at least one item, `claim` returns either the claimed item
(the first item that qualifies) or, if no item qualifies, a successful result
with `claimed: false` and the skip summary; when the backlog has no items (the
default state included), `claim` ends in the error `E_BACKLOG_EMPTY`. It ends
in no other error, and whenever nothing is claimed the state document and the
lock files are unchanged. -/
theorem doClaim_total (rt : Runtime) (args : Args) (lockDir : String) (nowMs : Int)
    (w : World) :
    ((loadState nowMs w).backlog.items ≠ [] →
      (∃ x, (loadState nowMs w).backlog.items.find?
          (claimable lockDir (claimQueue args) (loadState nowMs w) w) = some x ∧
        ∃ item w', item.itemId = x.itemId ∧
          doClaim rt args lockDir nowMs w = (.ok (.claimed item), w')) ∨
      ((∀ x ∈ (loadState nowMs w).backlog.items,
          claimable lockDir (claimQueue args) (loadState nowMs w) w x = false) ∧
        ∃ skipped, doClaim rt args lockDir nowMs w = (.ok (.noEligibleItems skipped), w))) ∧
    ((loadState nowMs w).backlog.items = [] →
      doClaim rt args lockDir nowMs w =
        (.error { code := "E_BACKLOG_EMPTY",
                  message := "No backlog items in state; run sync-backlog first" }, w)) ∧
    (∀ e w', doClaim rt args lockDir nowMs w = (.error e, w') →
      e.code = "E_BACKLOG_EMPTY" ∧ (loadState nowMs w).backlog.items = []) ∧
    (∀ out w', doClaim rt args lockDir nowMs w = (out, w') →
      (∀ item, out ≠ .ok (.claimed item)) → w' = w) := by
  rcases doClaim_cases rt args lockDir nowMs w with ⟨hnil, he⟩ | ⟨hne, hnone, he⟩ | ⟨x, hx, he⟩
  · refine ⟨fun h => absurd hnil h, fun _ => he, ?_, ?_⟩
    · intro e w' h
      rw [he] at h
      simp only [Prod.mk.injEq, Except.error.injEq] at h
      rw [← h.1]
      exact ⟨rfl, hnil⟩
    · intro out w' h _
      rw [he] at h
      simp only [Prod.mk.injEq] at h
      exact h.2.symm
  · refine ⟨fun _ => Or.inr ⟨?_, _, he⟩, fun h => absurd h hne, ?_, ?_⟩
    · intro y hy
      have := List.find?_eq_none.1 hnone y hy
      simpa using this
    · intro e w' h
      rw [he] at h
      cases h
    · intro out w' h _
      rw [he] at h
      simp only [Prod.mk.injEq] at h
      exact h.2.symm
  · have hne : (loadState nowMs w).backlog.items ≠ [] := by
      intro h0
      rw [h0] at hx
      cases hx
    refine ⟨fun _ => Or.inl ⟨x, hx, _, _, ?_, he⟩, fun h => absurd h hne, ?_, ?_⟩
    · rfl
    · intro e w' h
      rw [he] at h
      cases h
    · intro out w' h hno
      rw [he] at h
      simp only [Prod.mk.injEq] at h
      exact absurd h.1.symm (hno _)

/-- C22 on examples: on a fresh backlog the first item is claimed; on a
backlog whose items are all skipped the result is `claimed: false` and nothing
changes. -/
theorem doClaim_total_witness :
    ((∃ x, (loadState 3000 freshWorld).backlog.items.find?
          (claimable "/w/.locks" (claimQueue {}) (loadState 3000 freshWorld) freshWorld) =
            some x ∧
        ∃ item w', item.itemId = x.itemId ∧
          doClaim sampleRuntime {} "/w/.locks" 3000 freshWorld = (.ok (.claimed item), w')) ∨
      ((∀ x ∈ (loadState 3000 freshWorld).backlog.items,
          claimable "/w/.locks" (claimQueue {}) (loadState 3000 freshWorld) freshWorld x =
            false) ∧
        ∃ skipped, doClaim sampleRuntime {} "/w/.locks" 3000 freshWorld =
          (.ok (.noEligibleItems skipped), freshWorld))) ∧
    verdict (doClaim sampleRuntime {} "/w/.locks" 3000 freshWorld) = .took "1" ∧
    (doClaim sampleRuntime {} "/w/.locks" 3000 skippedWorld).2 = skippedWorld :=
  ⟨(doClaim_total sampleRuntime {} "/w/.locks" 3000 freshWorld).1 (by decide), rfl,
   (doClaim_total sampleRuntime {} "/w/.locks" 3000 skippedWorld).2.2.2 _ _ rfl
     (by intro item h; cases h)⟩

/-! ## C23: the stale flags of status -/

theorem filterMap_index_values {α : Type} (obj : List (String × α)) :
    (obj.filterMap (fun kv => (arrayIndex kv.1).map (fun n => (n, kv.2)))).map
        (fun a => a.2) =
      (obj.filter (fun kv => (arrayIndex kv.1).isSome)).map (fun kv => kv.2) := by
  induction obj with
  | nil => rfl
  | cons kv rest ih =>
    cases h : arrayIndex kv.1 with
    | none => simp [List.filterMap_cons, List.filter_cons, h, ih]
    | some n => simp [List.filterMap_cons, List.filter_cons, h, ih]

/-- The call `Object.values` lists every value of the object once. -/
theorem objectValues_perm {α : Type} (obj : List (String × α)) :
    (objectValues obj).Perm (obj.map (fun kv => kv.2)) := by
  unfold objectValues
  have h1 := ((List.perm_insertionSort (fun a b : Nat × α => a.1 ≤ b.1)
    (obj.filterMap (fun kv => (arrayIndex kv.1).map (fun n => (n, kv.2))))).map
      (fun a => a.2))
  rw [filterMap_index_values] at h1
  have h2 : ((obj.filter (fun kv => (arrayIndex kv.1).isSome)).map (fun kv => kv.2) ++
      (obj.filter (fun kv => (arrayIndex kv.1).isNone)).map (fun kv => kv.2)).Perm
        (obj.map (fun kv => kv.2)) := by
    rw [← List.map_append]
    apply List.Perm.map
    have h3 := List.filter_append_perm (fun kv : String × α => (arrayIndex kv.1).isSome) obj
    have h4 : (fun kv : String × α => (arrayIndex kv.1).isNone) =
        (fun kv : String × α => !(arrayIndex kv.1).isSome) := by
      funext kv
      cases arrayIndex kv.1 <;> rfl
    rw [h4]
    exact h3
  exact (List.Perm.append_right _ h1).trans h2

theorem sortByLocale_perm {α : Type} (env : StatusEnv) (key : α → String) (xs : List α) :
    (sortByLocale env key xs).Perm xs :=
  List.perm_insertionSort _ xs

/-- The staleness test in closed form: the claim is not terminal, it has a
heartbeat time `h`, and `now - h` exceeds the effective lease. -/
theorem claimIsStale_iff (rt : Runtime) (c : Claim) (nowMs : Int) (ov : Option Int) :
    claimIsStale rt (some c) nowMs ov = true ↔
      stateClaimIsTerminal (some c) = false ∧
      ∃ h L, heartbeatOf c = some h ∧
        numOr ov (toNumber rt c.leaseMs (some DEFAULT_STALE_TTL_MS)) = some L ∧
        nowMs - h > L := by
  unfold claimIsStale heartbeatOf
  cases ht : stateClaimIsTerminal (some c)
  · cases hv : numTruthy (numOr c.heartbeatAtMs c.claimedAtMs)
    · simp [ht, hv]
    · cases hb : numOr c.heartbeatAtMs c.claimedAtMs with
      | none =>
        rw [hb] at hv
        cases hv
      | some h =>
        have hv' : numTruthy (some h) = true := hb ▸ hv
        cases hl : numOr ov (toNumber rt c.leaseMs (some DEFAULT_STALE_TTL_MS)) with
        | none => simp [ht, hv', hb, hl]
        | some L => simp [ht, hv', hb, hl]
  · simp [ht]

/-- The views of `status` before the filter: the claims of the state, one view
each, in sorted order. -/
theorem doStatus_unfiltered (rt : Runtime) (env : StatusEnv) (args : Args)
    (lockDir : String) (nowMs : Int) (w : World) :
    (doStatus rt env (unfiltered args) lockDir nowMs w).claims =
      sortByLocale env (fun c => c.itemId.toStr)
        ((objectValues (loadState nowMs w).claims).map
          (claimView rt lockDir (toNumber rt args.ttlMs none) nowMs w)) := by
  simp [doStatus, unfiltered, JVal.truthy]

/-- C23. For every state, time `now` and ttl override: the list of `status`
without the filter has exactly one view per claim of the state; the `stale`
flag of the view of a claim is `claimIsStale(claim, now, override)`, which
holds exactly when the claim is not terminal, has a heartbeat time `h`, and
`now - h` exceeds the lease reported as `leaseMs`; `totals.claims` is the
number of claims and `totals.staleClaims` the number of flagged views of the
list without the filter, whatever the filter; with the filter the `claims`
list is the sub-list of the flagged views of the list without the filter, and
without it the whole list; a flagged view is never that of a terminal claim. -/
theorem doStatus_stale_flags (rt : Runtime) (env : StatusEnv) (args : Args)
    (lockDir : String) (nowMs : Int) (w : World) :
    ((doStatus rt env (unfiltered args) lockDir nowMs w).claims.Perm
      (((loadState nowMs w).claims.map (fun kv => kv.2)).map
        (claimView rt lockDir (toNumber rt args.ttlMs none) nowMs w))) ∧
    (∀ c : Claim,
      (claimView rt lockDir (toNumber rt args.ttlMs none) nowMs w c).stale =
        claimIsStale rt (some c) nowMs (toNumber rt args.ttlMs none) ∧
      ((claimView rt lockDir (toNumber rt args.ttlMs none) nowMs w c).stale = true ↔
        stateClaimIsTerminal (some c) = false ∧
        ∃ h L, heartbeatOf c = some h ∧
          (claimView rt lockDir (toNumber rt args.ttlMs none) nowMs w c).leaseMs = some L ∧
          nowMs - h > L)) ∧
    (doStatus rt env args lockDir nowMs w).totals.claims = (loadState nowMs w).claims.length ∧
    (doStatus rt env args lockDir nowMs w).totals.staleClaims =
      ((doStatus rt env (unfiltered args) lockDir nowMs w).claims.filter
        (fun v => v.stale)).length ∧
    (doStatus rt env args lockDir nowMs w).totals.staleClaims =
      (loadState nowMs w).claims.countP
        (fun kv => claimIsStale rt (some kv.2) nowMs (toNumber rt args.ttlMs none)) ∧
    (doStatus rt env args lockDir nowMs w).claims =
      (if args.stale.truthy = true then
        (doStatus rt env (unfiltered args) lockDir nowMs w).claims.filter (fun v => v.stale)
       else (doStatus rt env (unfiltered args) lockDir nowMs w).claims) ∧
    (∀ v ∈ (doStatus rt env args lockDir nowMs w).claims, v.stale = true →
      ∃ kv ∈ (loadState nowMs w).claims,
        v = claimView rt lockDir (toNumber rt args.ttlMs none) nowMs w kv.2 ∧
        stateClaimIsTerminal (some kv.2) = false) := by
  have hall := doStatus_unfiltered rt env args lockDir nowMs w
  have hperm : (doStatus rt env (unfiltered args) lockDir nowMs w).claims.Perm
      (((loadState nowMs w).claims.map (fun kv => kv.2)).map
        (claimView rt lockDir (toNumber rt args.ttlMs none) nowMs w)) := by
    rw [hall]
    exact (sortByLocale_perm _ _ _).trans ((objectValues_perm _).map _)
  have hclaims : (doStatus rt env args lockDir nowMs w).claims =
      (if args.stale.truthy = true then
        (doStatus rt env (unfiltered args) lockDir nowMs w).claims.filter (fun v => v.stale)
       else (doStatus rt env (unfiltered args) lockDir nowMs w).claims) := by
    rw [hall]
    simp only [doStatus]
  have hstale : (doStatus rt env args lockDir nowMs w).totals.staleClaims =
      ((doStatus rt env (unfiltered args) lockDir nowMs w).claims.filter
        (fun v => v.stale)).length := by
    rw [hall]
    simp only [doStatus]
  refine ⟨hperm, ?_, ?_, hstale, ?_, hclaims, ?_⟩
  · intro c
    refine ⟨rfl, ?_⟩
    exact claimIsStale_iff rt c nowMs (toNumber rt args.ttlMs none)
  · have : (doStatus rt env args lockDir nowMs w).totals.claims =
        (doStatus rt env (unfiltered args) lockDir nowMs w).claims.length := by
      rw [hall]
      simp only [doStatus]
    rw [this, hperm.length_eq, List.length_map, List.length_map]
  · rw [hstale, ← List.countP_eq_length_filter, hperm.countP_eq, List.countP_map,
      List.countP_map]
    rfl
  · intro v hv hs
    have hv' : v ∈ (doStatus rt env (unfiltered args) lockDir nowMs w).claims := by
      rw [hclaims] at hv
      split_ifs at hv
      · exact List.mem_of_mem_filter hv
      · exact hv
    have hv'' := hperm.mem_iff.1 hv'
    simp only [List.mem_map] at hv''
    obtain ⟨c, ⟨kv, hkv, hc⟩, hview⟩ := hv''
    subst hc
    refine ⟨kv, hkv, hview.symm, ?_⟩
    rw [← hview] at hs
    exact ((claimIsStale_iff rt kv.2 nowMs (toNumber rt args.ttlMs none)).1 hs).1

/-- C23 on an example: of three claims, sorted as `1`, `10`, `2`, only the
first is stale at time 3000 (its lease of 10 ms ran out, the second is within
its lease, the third is done); with the filter the list is that single view,
and the totals are the same with and without the filter. -/
theorem doStatus_stale_flags_witness :
    (doStatus sampleRuntime sampleEnv {} "/w/.locks" 3000 statusWorld).claims.map
        (fun v => (v.itemId, v.stale, v.leaseMs)) =
      [(.str "1", true, some 10), (.str "10", false, some 7200000),
       (.str "2", false, some 10)] ∧
    (doStatus sampleRuntime sampleEnv { stale := .bool true } "/w/.locks" 3000
        statusWorld).claims.map (fun v => (v.itemId, v.stale, v.leaseMs)) =
      [(.str "1", true, some 10)] ∧
    (doStatus sampleRuntime sampleEnv {} "/w/.locks" 3000 statusWorld).totals =
      { claims := 3, staleClaims := 1, locks := 1, staleLocks := 1 } ∧
    (doStatus sampleRuntime sampleEnv { stale := .bool true } "/w/.locks" 3000
        statusWorld).totals =
      { claims := 3, staleClaims := 1, locks := 1, staleLocks := 1 } ∧
    (doStatus sampleRuntime sampleEnv { stale := .bool true } "/w/.locks" 3000
        statusWorld).totals.staleClaims =
      (loadState 3000 statusWorld).claims.countP
        (fun kv => claimIsStale sampleRuntime (some kv.2) 3000
          (toNumber sampleRuntime ({ stale := .bool true } : Args).ttlMs none)) :=
  ⟨rfl, rfl, rfl, rfl,
   (doStatus_stale_flags sampleRuntime sampleEnv { stale := .bool true } "/w/.locks" 3000
      statusWorld).2.2.2.2.1⟩

/-! ## C24: queues other than zsc -/

/-- An item of a parse is eligible only with the tag `zsc`. -/
theorem parseBacklog_eligible_zsc (rt : Runtime) (backlogFile text : String) (nowMs : Int)
    (r : ParsedBacklog) (h : parseBacklog rt backlogFile text nowMs = .ok r) :
    ∀ it ∈ r.items, it.eligible = true → it.queueTag = some "zsc" := by
  intro it hmem he
  obtain ⟨currentStart, doneStart, _, hr⟩ := parseBacklog_ok rt backlogFile text nowMs r h
  subst hr
  obtain ⟨i, raw, _, _, _, hitem⟩ := (mem_itemsBetween _ _ _ it).1 hmem
  obtain ⟨id, _, hit⟩ := itemOfLine_some i raw it hitem
  subst hit
  simp only [beq_iff_eq, List.length_eq_zero] at he
  exact ((skipReasonsOf_eq_nil _ _ _).1 he).1

/-- When no item passes the queue filter, the tally counts every item as
ineligible. -/
theorem skipTally_ineligible (lockDir queue : String) (state : State) (w : World)
    (items : List BacklogItem) (h : ∀ x ∈ items, inQueue queue x = false) :
    skipTally lockDir queue state w items { ineligible := 0, claimed := 0, locked := 0 } =
      { ineligible := items.length, claimed := 0, locked := 0 } := by
  have h1 : items.countP (fun i => !inQueue queue i) = items.length := by
    rw [List.countP_eq_length]
    intro x hx
    simp [h x hx]
  have h2 : items.countP (fun i => inQueue queue i && hasLiveClaim state i) = 0 := by
    rw [List.countP_eq_zero]
    intro x hx
    simp [h x hx]
  have h3 : items.countP (fun i => inQueue queue i && !hasLiveClaim state i &&
      existsSync w (lockPathFor lockDir i.itemId)) = 0 := by
    rw [List.countP_eq_zero]
    intro x hx
    simp [h x hx]
  simp only [skipTally, h1, h2, h3, Nat.zero_add]

/-- C24, as stated, fails: the document `emptySectionDocument` parses, to an
empty item list; on the state synced from it, a claim on the queue `ops` does
not return `claimed: false`, it ends in the error `E_BACKLOG_EMPTY`. -/
theorem doClaim_other_queue_counterexample :
    parseBacklog sampleRuntime "/w/E.md" emptySectionDocument 7 =
      .ok { backlogFile := "/w/E.md", scannedAtMs := 7, scannedAt := "7", items := [] } ∧
    emptySyncedWorld.doc.map (fun st => st.backlog.items) = some [] ∧
    claimQueue { queue := .str "ops" } = "ops" ∧
    doClaim sampleRuntime { queue := .str "ops" } "/w/.locks" 4000 emptySyncedWorld =
      (.error { code := "E_BACKLOG_EMPTY",
                message := "No backlog items in state; run sync-backlog first" },
       emptySyncedWorld) :=
  ⟨rfl, rfl, by decide, rfl⟩

/-- C24, amended. For every state whose backlog items are those of a
successful `parseBacklog`, whatever its claims and the lock files, and every
requested queue other than `zsc`: `claim` never claims an item; when the
backlog has at least one item it returns `claimed: false` with every item
counted as ineligible and changes nothing, and when the backlog has no items
it ends in the error `E_BACKLOG_EMPTY`. -/
theorem doClaim_other_queue (rt : Runtime) (args : Args) (lockDir : String) (nowMs : Int)
    (w : World) (backlogFile text : String) (scanMs : Int) (r : ParsedBacklog)
    (hparse : parseBacklog rt backlogFile text scanMs = .ok r)
    (hitems : (loadState nowMs w).backlog.items = r.items)
    (hq : claimQueue args ≠ "zsc") :
    (∀ item w', doClaim rt args lockDir nowMs w ≠ (.ok (.claimed item), w')) ∧
    (r.items ≠ [] →
      doClaim rt args lockDir nowMs w =
        (.ok (.noEligibleItems
          { ineligible := r.items.length, claimed := 0, locked := 0 }), w)) ∧
    (r.items = [] →
      doClaim rt args lockDir nowMs w =
        (.error { code := "E_BACKLOG_EMPTY",
                  message := "No backlog items in state; run sync-backlog first" }, w)) := by
  have hin : ∀ x ∈ (loadState nowMs w).backlog.items, inQueue (claimQueue args) x = false := by
    intro x hx
    rw [hitems] at hx
    cases he : x.eligible
    · simp [inQueue, he]
    · have hz := parseBacklog_eligible_zsc rt backlogFile text scanMs r hparse x hx he
      have : x.queueTag ≠ some (claimQueue args) := by
        rw [hz]
        intro hc
        exact hq (Option.some.inj hc).symm
      simp [inQueue, this]
  have hnone : (loadState nowMs w).backlog.items.find?
      (claimable lockDir (claimQueue args) (loadState nowMs w) w) = none := by
    rw [List.find?_eq_none]
    intro x hx
    simp [claimable, hin x hx]
  have htally := skipTally_ineligible lockDir (claimQueue args) (loadState nowMs w) w
    (loadState nowMs w).backlog.items hin
  rcases doClaim_cases rt args lockDir nowMs w with ⟨hnil, he⟩ | ⟨hne, _, he⟩ | ⟨x, hx, _⟩
  · refine ⟨?_, ?_, fun _ => he⟩
    · intro item w' hc
      rw [he] at hc
      cases hc
    · intro hne
      rw [← hitems] at hne
      exact absurd hnil hne
  · rw [htally, hitems] at he
    refine ⟨?_, fun _ => he, ?_⟩
    · intro item w' hc
      rw [he] at hc
      cases hc
    · intro hnil
      rw [← hitems] at hnil
      exact absurd hnil hne
  · rw [hnone] at hx
    cases hx

/-- C24 on an example: on the state synced from `sampleDocument`, which has an
item tagged `ops`, a claim on the queue `ops` counts the three items as
ineligible and changes nothing. -/
theorem doClaim_other_queue_witness :
    doClaim sampleRuntime { queue := .str "ops" } "/w/.locks" 4000 syncedWorld =
      (.ok (.noEligibleItems { ineligible := 3, claimed := 0, locked := 0 }), syncedWorld) ∧
    (∀ item w', doClaim sampleRuntime { queue := .str "ops" } "/w/.locks" 4000 syncedWorld ≠
      (.ok (.claimed item), w')) :=
  ⟨(doClaim_other_queue sampleRuntime { queue := .str "ops" } "/w/.locks" 4000 syncedWorld
      "/w/B.md" sampleDocument 7 sampleParsed rfl rfl (by decide)).2.1 (by decide),
   (doClaim_other_queue sampleRuntime { queue := .str "ops" } "/w/.locks" 4000 syncedWorld
      "/w/B.md" sampleDocument 7 sampleParsed rfl rfl (by decide)).1⟩

end Workq
